import Mathlib

/-!
# mod-ah-bot: the seller pass, the buyer callback, `LoadValues`, `Commands`, `Update`

A shallow embedding of `src/AuctionHouseBot.cpp`: `AuctionHouseBot::AddNewAuctions`,
`AddNewAuctionBuyerBotBidCallback`, `LoadValues`, `Commands` and `Update`.

* `uint32` / `uint64` values are natural numbers; every operation of the source that can
  wrap is written with an explicit `% 2 ^ 32` or `% 2 ^ 64`.
* `std::array<uint32, AHB_MAX_QUALITY>` is a function `Nat → Nat` read at the indices
  `0 .. AHB_MAX_QUALITY - 1`.
* The shared generator `rng` is a stream of raw draws (`List Nat`, an exhausted stream
  yields `0`); the outcome of the successive `Item::CreateItem` calls is a stream of
  booleans (an exhausted stream yields success).
* The `while (itemsToCreate)` loop is run with fuel: `none` means the fuel ran out with
  the loop still running.
* Every loop iteration is recorded as a `Batch` (drawn tier, sampled identifiers,
  listings built). A transaction is the list of the rows appended to it between
  `BeginTransaction` and `CommitTransaction`; `database` holds the transactions the
  pass has committed.
* The buyer computes its candidate bid in `float`: IEEE 754 binary32 with rounding to
  nearest, ties to even, every operation rounded by itself. All values of that
  computation are nonnegative multiples of 2^-30 far inside the normal range, so a
  `float` is kept as the natural number of its units of 2^-30 (or, for the conversion
  of a `uint32`, as that integer), and `roundFloat` rounds a natural number to 24
  significant bits. The values `frand(0.01f, 1.0f)` returns are read from a stream
  (`bidrates`).
* A dereference of a null pointer sets the flag `fault` of the state.
* The statements sent to the databases are logged, oldest first.
* Times are counts of seconds; the members `_lastUpdate...` and the game time of `Update`
  are signed (`Seconds`), so they are integers.
-/

namespace AHBot

/-! ## Constants and data -/

/-- The number of tier bins: `LoadValues` fills the `AHB_MAX_QUALITY`-sized percentage
array with seven trade-good and seven standard-item entries. -/
def AHB_MAX_QUALITY : Nat := 14

/-- Item class of glyphs (`ITEM_CLASS_GLYPH`). -/
def ITEM_CLASS_GLYPH : Nat := 16

/-- Item class of trade goods (`ITEM_CLASS_TRADE_GOODS`). -/
def ITEM_CLASS_TRADE_GOODS : Nat := 7

/-- The fields of `ItemTemplate` the bot reads. -/
structure ItemTemplate where
  ItemId : Nat
  Class : Nat
  Quality : Nat
  MaxStackSize : Nat
  BuyPrice : Nat
  SellPrice : Nat
  deriving DecidableEq, Repr

/-- The fields of `AuctionEntry` the seller fills in (`Id`, `item_guid`, `owner` and
`auctionHouseEntry` are handles of the host and are left out). -/
structure AuctionEntry where
  houseId : Nat
  item_template : Nat
  itemCount : Nat
  startbid : Nat
  buyout : Nat
  bid : Nat
  deposit : Nat
  expire_time : Nat
  deriving DecidableEq, Repr

/-- The part of `AHBConfig` the seller pass reads, through its getters. -/
structure AHBConfig where
  minItems : Nat
  maxItems : Nat
  maxCounts : Nat → Nat
  itemCounts : Nat → Nat
  AuctionHouseID : Nat
  maxStack : Nat → Nat
  minPrice : Nat → Nat
  maxPrice : Nat → Nat
  minBidPrice : Nat → Nat
  maxBidPrice : Nat → Nat

/-- The members of `AuctionHouseBot` the seller pass reads. -/
structure Bot where
  AHBSeller : Bool
  SellMethod : Bool
  ItemsPerCycle : Nat

/-- What `sAuctionMgr` answers for the venue: whether `GetAuctionHouseEntry` and
`GetAuctionsMap` find it, and `auctionHouse->Getcount()`. -/
structure Venue where
  ahEntry : Bool
  auctionHouse : Bool
  auctions : Nat

/-- The collaborators of the pass: the item store, the catalog index, the deposit rule,
the clock, and the constant `AHB_MAX_DEFAULT_QUALITY` of the configuration header. -/
structure Env where
  GetItemTemplate : Nat → Option ItemTemplate
  GetItemBin : Nat → List Nat
  GetOverridenPrice : Nat → List Nat → Option Nat × List Nat
  GetAuctionDeposit : Nat → Nat → Nat → Nat
  GetGameTime : Nat
  AHB_MAX_DEFAULT_QUALITY : Nat

/-! ## The random source -/

/-- One raw draw of the generator. -/
def draw (rng : List Nat) : Nat × List Nat :=
  match rng with
  | [] => (0, [])
  | r :: rest => (r, rest)

/-- A draw of `std::uniform_int_distribution<uint32>(a, b)`. -/
def uniformInt (a b : Nat) (rng : List Nat) : Nat × List Nat :=
  ((draw rng).1 % (b - a + 1) + a, (draw rng).2)

/-- Inverse-CDF lookup: the first index whose cumulated weight exceeds `u`. -/
def pickIndex : List Nat → Nat → Nat → Option Nat
  | [], _, _ => none
  | w :: ws, u, i => if u < w then some i else pickIndex ws (u - w) (i + 1)

/-- The weights of a `std::discrete_distribution` built from an array, as a list. -/
def weightList (w : Nat → Nat) : List Nat :=
  (List.range AHB_MAX_QUALITY).map w

/-- The outcome of the weighted choice for the uniform value `u` below the total weight. -/
def discreteIndex (w : Nat → Nat) (u : Nat) : Nat :=
  (pickIndex (weightList w) u 0).getD 0

/-- A draw of `std::discrete_distribution<uint32>` with weights `w`: index `i` is hit by
`w i` of the `sum w` equally likely values of `u`. -/
def discreteDraw (w : Nat → Nat) (rng : List Nat) : Nat × List Nat :=
  (discreteIndex w ((draw rng).1 % (weightList w).sum), (draw rng).2)

/-- The probability with which `std::discrete_distribution` with weights `w` yields
index `i`: the share of the equally likely values `u < sum w` that select `i`. -/
def tierProbability (w : Nat → Nat) (i : Nat) : ℚ :=
  (((List.range (weightList w).sum).filter (fun u => discreteIndex w u = i)).length : ℚ)
    / ((weightList w).sum : ℚ)

/-- Selection sampling, the algorithm of `std::sample` for a forward-iterator population
and an output-iterator destination: each element is taken with probability
`n / (number of elements left)`, so the relative order of the population is kept. -/
def sample : List Nat → Nat → List Nat → List Nat × List Nat
  | [], _, rng => ([], rng)
  | x :: xs, n, rng =>
    if n = 0 then ([], rng)
    else if (draw rng).1 % (xs.length + 1) < n then
      (x :: (sample xs (n - 1) (draw rng).2).1, (sample xs (n - 1) (draw rng).2).2)
    else sample xs n (draw rng).2

/-- The outcome of the next `Item::CreateItem` call. -/
def nextCreate (host : List Bool) : Bool × List Bool :=
  match host with
  | [] => (true, [])
  | b :: rest => (b, rest)

/-! ## Pricing and stack size (the two lambdas of `AddNewAuctions`) -/

/-- The lambda `calculateStackSize`. -/
def calculateStackSize (config : AHBConfig) (prototype : ItemTemplate) (rng : List Nat) :
    Nat × List Nat :=
  if prototype.Class = ITEM_CLASS_GLYPH then (1, rng)
  else
    let maxStackSize := max 1 prototype.MaxStackSize
    let maxStackConfig := config.maxStack prototype.Quality
    let maxStackSize := if maxStackConfig ≠ 0 then min maxStackSize maxStackConfig else maxStackSize
    uniformInt 1 maxStackSize rng

/-- The lambda `calculatePrices`: the products are taken in `uint64`, and the pair that is
returned holds two `uint32`. -/
def calculatePrices (env : Env) (config : AHBConfig) (prototype : ItemTemplate)
    (vendorPrice : Nat) (rng : List Nat) : (Nat × Nat) × List Nat :=
  let ov := env.GetOverridenPrice prototype.ItemId rng
  let vendorPrice := match ov.1 with
    | some priceOverride => priceOverride
    | none => vendorPrice
  let buy := uniformInt (config.minPrice prototype.Quality) (config.maxPrice prototype.Quality) ov.2
  let bidm := uniformInt (config.minBidPrice prototype.Quality)
    (config.maxBidPrice prototype.Quality) buy.2
  let buyoutPrice := (vendorPrice * buy.1) % 2 ^ 64 / 100
  let bidPrice := (buyoutPrice * bidm.1) % 2 ^ 64 / 100
  ((buyoutPrice % 2 ^ 32, bidPrice % 2 ^ 32), bidm.2)

/-! ## The loop of `AddNewAuctions` -/

/-- The `for (const auto itemID : itemBatch)` loop: a missing item definition or an
unsupported quality skips the identifier (`continue`), a failed `Item::CreateItem` ends
the loop (`break`); every other identifier yields one listing. The identifiers of a bin
are nonzero (`WPAssert`). -/
def processItems (bot : Bot) (env : Env) (config : AHBConfig) :
    List Nat → List Nat → List Bool → List AuctionEntry × List Nat × List Bool
  | [], rng, host => ([], rng, host)
  | itemID :: rest, rng, host =>
    match env.GetItemTemplate itemID with
    | none => processItems bot env config rest rng host
    | some prototype =>
      if (nextCreate host).1 = false then ([], rng, (nextCreate host).2)
      else if prototype.Quality ≤ env.AHB_MAX_DEFAULT_QUALITY then
        let stack := calculateStackSize config prototype rng
        let prices := calculatePrices env config prototype
          (if bot.SellMethod then prototype.BuyPrice else prototype.SellPrice) stack.2
        let time := uniformInt 0 3 prices.2
        let lifeTime := time.1 * (12 * 3600)
        let auctionEntry : AuctionEntry :=
          { houseId := config.AuctionHouseID
            item_template := itemID
            itemCount := stack.1
            startbid := (prices.1.2 * stack.1) % 2 ^ 32
            buyout := (prices.1.1 * stack.1) % 2 ^ 32
            bid := 0
            deposit := env.GetAuctionDeposit lifeTime itemID stack.1
            expire_time := lifeTime + env.GetGameTime }
        let tail := processItems bot env config rest time.2 (nextCreate host).2
        (auctionEntry :: tail.1, tail.2)
      else processItems bot env config rest rng (nextCreate host).2

/-- The bin an item is counted in, as `LoadValues` classifies the live listings: trade
goods in the bin of their quality, every other item `AHB_MAX_DEFAULT_QUALITY` bins
further. -/
def tierOf (env : Env) (prototype : ItemTemplate) : Nat :=
  if prototype.Class = ITEM_CLASS_TRADE_GOODS then prototype.Quality
  else prototype.Quality + env.AHB_MAX_DEFAULT_QUALITY

/-- Modelled from the spec: `AHBConfig::IncreaseItemCounts(Class, Quality)` of
`AuctionHouseBotConfig.h`, which is not among the sources. The occupancy counter of the
bin the item classifies into is incremented by one. -/
def IncreaseItemCounts (env : Env) (counts : Nat → Nat) (prototype : ItemTemplate) :
    Nat → Nat :=
  Function.update counts (tierOf env prototype) (counts (tierOf env prototype) + 1)

/-- The method `AuctionHouseBot::IncrementItemCounts`, applied to the profile of the
venue the listing belongs to (the backing item was registered by `AddAItem` just before). -/
def IncrementItemCounts (env : Env) (counts : Nat → Nat) (ah : AuctionEntry) : Nat → Nat :=
  match env.GetItemTemplate ah.item_template with
  | none => counts
  | some prototype => IncreaseItemCounts env counts prototype

/-- Modelled from the spec: the listing-add hook of the module's auction-house script,
which is not among the sources. Occupancy counters are "incrementally adjusted on every
listing add": each `auctionHouse->AddAuction` of the insertion loop reaches
`IncrementItemCounts` with the listing that was added. -/
def AddAuctions (env : Env) (counts : Nat → Nat) (auctionBatch : List AuctionEntry) :
    Nat → Nat :=
  auctionBatch.foldl (IncrementItemCounts env) counts

/-- One trip through the loop body, kept as a record: the tier items were sampled for,
`itemBatch`, and `auctionBatch`, which is also the content of the transaction that the
trip commits. -/
structure Batch where
  quality : Nat
  itemBatch : List Nat
  auctionBatch : List AuctionEntry
  deriving DecidableEq, Repr

/-- What a `SaveToDB(trans)` appends to a transaction: the row of the backing item of a
listing (`item->SaveToDB`), or the row of the listing (`auctionEntry->SaveToDB`). The
item is named by the listing it was created for. -/
inductive Write where
  | item (auctionEntry : AuctionEntry)
  | auction (auctionEntry : AuctionEntry)
  deriving DecidableEq, Repr

/-- The block "Insert all auctions" from `BeginTransaction` to `CommitTransaction`: the
transaction starts empty, and every pair of `auctionBatch` appends the row of its item
and then the row of its listing. The result is the content of the transaction that
`CommitTransaction` submits. -/
def insertAuctions (auctionBatch : List AuctionEntry) : List Write :=
  auctionBatch.foldl
    (fun trans auctionEntry => trans ++ [Write.item auctionEntry, Write.auction auctionEntry]) []

/-- The variables of the loop: the locals of `AddNewAuctions`, the weights the
distribution `randomQuality` was built with, the two streams, the occupancy counters
of the venue profile, the record of the completed trips, oldest first, and the
transactions the pass has committed to the character database, oldest first. -/
structure SellerState where
  itemsToCreate : Nat
  itemCountToCreate : Nat → Nat
  itemsCount : Nat → Nat
  randomQuality : Nat → Nat
  rng : List Nat
  host : List Bool
  profileCounts : Nat → Nat
  committed : List Batch
  database : List (List Write)

/-- The search `std::find_if(..., cnt != 0)` over the deficit array. -/
def firstNonZero (d : Nat → Nat) : Option Nat :=
  (List.range AHB_MAX_QUALITY).find? (fun i => d i ≠ 0)

/-- The tier of this trip: the drawn one, or the first with a deficit left when the
drawn one has none; `none` when no tier has a deficit left. -/
def chooseQuality (d : Nat → Nat) (drawn : Nat) : Option Nat :=
  if d drawn = 0 then firstNonZero d else some drawn

/-- The identifiers `std::sample` puts into `itemBatch` for the tier `quality`, with
the generator left after the tier draw and the sampling. -/
def sampleBatch (env : Env) (st : SellerState) (quality : Nat) : List Nat × List Nat :=
  sample (env.GetItemBin quality) (min st.itemsToCreate (st.itemCountToCreate quality))
    (discreteDraw st.randomQuality st.rng).2

/-- The listings built from `itemBatch` (`auctionBatch`), with both streams left after it. -/
def buildBatch (bot : Bot) (env : Env) (config : AHBConfig) (st : SellerState) (quality : Nat) :
    List AuctionEntry × List Nat × List Bool :=
  processItems bot env config (sampleBatch env st quality).1 (sampleBatch env st quality).2 st.host

/-- The rest of the loop body once the tier is chosen: sample, build, insert all
listings in one transaction, and subtract `itemBatch.size()` from the deficit of the tier
and from `itemsToCreate` (neither subtraction can wrap: the sample is never longer than
either), adding it to the local `itemsCount`. -/
def commitBatch (bot : Bot) (env : Env) (config : AHBConfig) (st : SellerState) (quality : Nat) :
    SellerState :=
  { itemsToCreate := st.itemsToCreate - (sampleBatch env st quality).1.length
    itemCountToCreate := Function.update st.itemCountToCreate quality
      (st.itemCountToCreate quality - (sampleBatch env st quality).1.length)
    itemsCount := Function.update st.itemsCount quality
      ((st.itemsCount quality + (sampleBatch env st quality).1.length) % 2 ^ 32)
    randomQuality := st.randomQuality
    rng := (buildBatch bot env config st quality).2.1
    host := (buildBatch bot env config st quality).2.2
    profileCounts := AddAuctions env st.profileCounts (buildBatch bot env config st quality).1
    committed := st.committed ++
      [{ quality := quality
         itemBatch := (sampleBatch env st quality).1
         auctionBatch := (buildBatch bot env config st quality).1 }]
    database := st.database ++ [insertAuctions (buildBatch bot env config st quality).1] }

/-- The body of `while (itemsToCreate)`: draw a tier from `randomQuality`; when no tier has
a deficit left, set `itemsToCreate` to zero and leave. -/
def iteration (bot : Bot) (env : Env) (config : AHBConfig) (st : SellerState) : SellerState :=
  match chooseQuality st.itemCountToCreate (discreteDraw st.randomQuality st.rng).1 with
  | none => { st with itemsToCreate := 0, rng := (discreteDraw st.randomQuality st.rng).2 }
  | some quality => commitBatch bot env config st quality

/-- The loop `while (itemsToCreate)`, with fuel. -/
def sellerLoop (bot : Bot) (env : Env) (config : AHBConfig) : Nat → SellerState → Option SellerState
  | 0, st => if st.itemsToCreate = 0 then some st else none
  | fuel + 1, st =>
    if st.itemsToCreate = 0 then some st
    else sellerLoop bot env config fuel (iteration bot env config st)

/-- The deficit array `itemCountToCreate` computed before the loop. -/
def deficits (config : AHBConfig) : Nat → Nat :=
  fun i => if config.itemCounts i < config.maxCounts i then config.maxCounts i - config.itemCounts i
    else 0

/-- The call `std::accumulate(begin, end, 0u)` over an array: a sum in `unsigned int`. -/
def accumulate (a : Nat → Nat) : Nat :=
  (List.range AHB_MAX_QUALITY).foldl (fun acc i => (acc + a i) % 2 ^ 32) 0

/-- The value of `itemsToCreate` before the clamp to the deficits. -/
def itemsToCreateCap (bot : Bot) (config : AHBConfig) (venue : Venue) : Nat :=
  if config.maxItems - venue.auctions ≥ bot.ItemsPerCycle then bot.ItemsPerCycle
  else config.maxItems - venue.auctions

/-- The value of `itemsToCreate` the loop is entered with. -/
def itemsToCreateInit (bot : Bot) (config : AHBConfig) (venue : Venue) : Nat :=
  min (itemsToCreateCap bot config venue) (accumulate (deficits config))

/-- The state of a pass that has created nothing. -/
def idle (config : AHBConfig) (rng : List Nat) (host : List Bool) : SellerState :=
  { itemsToCreate := 0
    itemCountToCreate := fun _ => 0
    itemsCount := config.itemCounts
    randomQuality := fun _ => 0
    rng := rng
    host := host
    profileCounts := config.itemCounts
    committed := []
    database := [] }

/-- The state in which the loop is entered. -/
def loopEntry (bot : Bot) (config : AHBConfig) (venue : Venue) (rng : List Nat)
    (host : List Bool) : SellerState :=
  { itemsToCreate := itemsToCreateInit bot config venue
    itemCountToCreate := deficits config
    itemsCount := config.itemCounts
    randomQuality := deficits config
    rng := rng
    host := host
    profileCounts := config.itemCounts
    committed := []
    database := [] }

/-- The seller pass `AuctionHouseBot::AddNewAuctions`. The result is the state the pass
ends in; `none` when the fuel does not suffice for the loop to end. -/
def AddNewAuctions (bot : Bot) (env : Env) (config : AHBConfig) (venue : Venue)
    (fuel : Nat) (rng : List Nat) (host : List Bool) : Option SellerState :=
  if bot.AHBSeller = false then some (idle config rng host)
  else if config.maxItems = 0 then some (idle config rng host)
  else if venue.ahEntry = false then some (idle config rng host)
  else if venue.auctionHouse = false then some (idle config rng host)
  else if venue.auctions ≥ config.minItems then some (idle config rng host)
  else if venue.auctions ≥ config.maxItems then some (idle config rng host)
  else if itemsToCreateInit bot config venue = 0 then some (idle config rng host)
  else sellerLoop bot env config fuel (loopEntry bot config venue rng host)

/-! ## What a pass has done -/

/-- The listings created by the recorded trips, oldest first. -/
def listingsOf : List Batch → List AuctionEntry
  | [] => []
  | b :: bs => b.auctionBatch ++ listingsOf bs

/-- The listings a pass has created. -/
def created (st : SellerState) : List AuctionEntry :=
  listingsOf st.committed

/-- The transactions a pass has committed, oldest first: one per completed trip through
the loop body, holding the listings (and backing items) built in that trip. -/
def transactions (st : SellerState) : List (List AuctionEntry) :=
  st.committed.map Batch.auctionBatch

/-- The number of listings created from the bin of tier `t`. -/
def createdInTier (st : SellerState) (t : Nat) : Nat :=
  ((st.committed.filter (fun b => b.quality = t)).map (fun b => b.auctionBatch.length)).sum

/-- The number of identifiers sampled from the bin of tier `t`. -/
def sampledInTier (st : SellerState) (t : Nat) : Nat :=
  ((st.committed.filter (fun b => b.quality = t)).map (fun b => b.itemBatch.length)).sum

/-- The exact sum of an array over the tiers. -/
def total (a : Nat → Nat) : Nat :=
  ∑ i in Finset.range AHB_MAX_QUALITY, a i

/-! ## Properties of the collaborators -/

/-- Every identifier of the list has an item definition of a supported quality. -/
def AllListable (env : Env) (ids : List Nat) : Prop :=
  ∀ id ∈ ids, ∃ p, env.GetItemTemplate id = some p ∧ p.Quality ≤ env.AHB_MAX_DEFAULT_QUALITY

/-- The catalog is a partition of item identifiers: every bin is duplicate-free, two
different bins share no identifier, and every identifier is a nonzero `uint32`. -/
def CatalogWellFormed (env : Env) : Prop :=
  (∀ t, t < AHB_MAX_QUALITY → (env.GetItemBin t).Nodup) ∧
  (∀ s t, s < AHB_MAX_QUALITY → t < AHB_MAX_QUALITY → s ≠ t →
    List.Disjoint (env.GetItemBin s) (env.GetItemBin t)) ∧
  (∀ t, t < AHB_MAX_QUALITY → ∀ id ∈ env.GetItemBin t, 0 < id ∧ id < 2 ^ 32)

/-- The bin the backing item of a listing classifies into, when the item has a definition. -/
def listingTier (env : Env) (a : AuctionEntry) : Option Nat :=
  (env.GetItemTemplate a.item_template).map (tierOf env)

/-- The number of listings of the list whose backing item classifies into bin `t`. -/
def countInTier (env : Env) (l : List AuctionEntry) (t : Nat) : Nat :=
  (l.filter (fun a => listingTier env a = some t)).length

/-- The bins of the catalog follow the classification of the items: every identifier of
bin `t` has a definition that classifies into bin `t`. -/
def CatalogSorted (env : Env) : Prop :=
  ∀ t, t < AHB_MAX_QUALITY → ∀ id ∈ env.GetItemBin t,
    ∃ p, env.GetItemTemplate id = some p ∧ tierOf env p = t

/-- A recorded trip is for a tier of the array, its identifiers are a sample of the bin of
that tier, and its listings are for identifiers of the sample, in order. -/
def BatchOk (env : Env) (b : Batch) : Prop :=
  b.quality < AHB_MAX_QUALITY ∧ List.Sublist b.itemBatch (env.GetItemBin b.quality) ∧
  List.Sublist (b.auctionBatch.map AuctionEntry.item_template) b.itemBatch

/-- The state of a pass in which no tier is sampled twice: the recorded trips are for
different tiers, every tier already sampled has no deficit left unless the pass is over,
and no deficit exceeds the size of its bin. -/
def OncePerTier (env : Env) (st : SellerState) : Prop :=
  (st.committed.map Batch.quality).Nodup ∧
  (st.itemsToCreate = 0 ∨ ∀ b ∈ st.committed, st.itemCountToCreate b.quality = 0) ∧
  (∀ t, t < AHB_MAX_QUALITY → st.itemCountToCreate t ≤ (env.GetItemBin t).length)

/-! ## Example data -/

/-- The definition of item `id` in the examples: the hundreds of `id` give its bin. -/
def exampleTemplate (id : Nat) : ItemTemplate :=
  { ItemId := id, Class := if id / 100 < 7 then ITEM_CLASS_TRADE_GOODS else 2
    Quality := id / 100 % 7, MaxStackSize := 20, BuyPrice := 1000, SellPrice := 250 }

/-- A catalog whose bin `q` holds the identifiers `100 q + 1 .. 100 q + binSize`. -/
def exampleEnv (binSize : Nat) : Env :=
  { GetItemTemplate := fun id => some (exampleTemplate id)
    GetItemBin := fun q => (List.range binSize).map (fun k => q * 100 + k + 1)
    GetOverridenPrice := fun _ rng => (none, rng)
    GetAuctionDeposit := fun _ _ _ => 0
    GetGameTime := 1000
    AHB_MAX_DEFAULT_QUALITY := 7 }

/-- A catalog with no item of the highest quality: bins 6 and 13 are empty, every other
bin holds three identifiers. -/
def starvedEnv : Env :=
  { GetItemTemplate := fun id => some (exampleTemplate id)
    GetItemBin := fun q =>
      if q = 6 ∨ q = 13 then [] else [q * 100 + 1, q * 100 + 2, q * 100 + 3]
    GetOverridenPrice := fun _ rng => (none, rng)
    GetAuctionDeposit := fun _ _ _ => 0
    GetGameTime := 1000
    AHB_MAX_DEFAULT_QUALITY := 7 }

/-- A venue profile with the given bounds, per-tier targets and per-tier counters. -/
def exampleConfig (minItems maxItems : Nat) (targets counts : List Nat) : AHBConfig :=
  { minItems := minItems, maxItems := maxItems
    maxCounts := fun i => targets.getD i 0, itemCounts := fun i => counts.getD i 0
    AuctionHouseID := 2, maxStack := fun _ => 0
    minPrice := fun _ => 120, maxPrice := fun _ => 150
    minBidPrice := fun _ => 70, maxBidPrice := fun _ => 100 }

/-- The scenario max = 100, min = 95 with 90 listings, all in bin 8; bins 1 and 3 lack 5
and 10 listings. -/
def scenarioConfig : AHBConfig :=
  exampleConfig 95 100 [0, 5, 0, 10, 0, 0, 0, 0, 85] [0, 0, 0, 0, 0, 0, 0, 0, 90]

/-- The same targets with 85 listings, all in bin 8: there is room for 15 listings. -/
def roomyConfig : AHBConfig :=
  exampleConfig 95 100 [0, 5, 0, 10, 0, 0, 0, 0, 85] [0, 0, 0, 0, 0, 0, 0, 0, 85]

/-- A venue with `maxItems = 10` that holds 50 listings, all in bin 8. -/
def overfullConfig : AHBConfig :=
  exampleConfig 5 10 [2, 3, 0, 5] [0, 0, 0, 0, 0, 0, 0, 0, 50]

/-- A venue with 90 listings, all in bin 8, where only bin 1 lacks listings: 5 of them. -/
def narrowConfig : AHBConfig :=
  exampleConfig 95 100 [0, 5, 0, 0, 0, 0, 0, 0, 90] [0, 0, 0, 0, 0, 0, 0, 0, 90]

/-- A venue with 90 listings, all in bin 8, where only bin 6 lacks listings: 10 of them. -/
def yellowConfig : AHBConfig :=
  exampleConfig 95 100 [0, 0, 0, 0, 0, 0, 10, 0, 90] [0, 0, 0, 0, 0, 0, 0, 0, 90]

/-- An empty venue with `maxItems = 2^32 - 1` and two targets of `2^31`. -/
def overflowConfig : AHBConfig :=
  { minItems := 1, maxItems := 4294967295
    maxCounts := fun i => if i < 2 then 2147483648 else 0, itemCounts := fun _ => 0
    AuctionHouseID := 2, maxStack := fun _ => 0
    minPrice := fun _ => 120, maxPrice := fun _ => 150
    minBidPrice := fun _ => 70, maxBidPrice := fun _ => 100 }

/-- The seller is enabled, prices start from the vendor buy price, 200 items per cycle. -/
def exampleBot : Bot := { AHBSeller := true, SellMethod := true, ItemsPerCycle := 200 }

/-- A venue that is found and holds `auctions` listings. -/
def exampleVenue (auctions : Nat) : Venue :=
  { ahEntry := true, auctionHouse := true, auctions := auctions }

/-- The state after the single trip of the pass over `scenarioConfig`. -/
def scenarioEnd : SellerState :=
  iteration exampleBot (exampleEnv 12) scenarioConfig
    (loopEntry exampleBot scenarioConfig (exampleVenue 90) [7] [])

/-- The state after the first trip of the pass over `roomyConfig`. -/
def roomyMid : SellerState :=
  iteration exampleBot (exampleEnv 12) roomyConfig
    (loopEntry exampleBot roomyConfig (exampleVenue 85) [7] [])

/-- The state after the two trips of the pass over `narrowConfig` with bins of three. -/
def narrowEnd : SellerState :=
  iteration exampleBot (exampleEnv 3) narrowConfig
    (iteration exampleBot (exampleEnv 3) narrowConfig
      (loopEntry exampleBot narrowConfig (exampleVenue 90) [] []))

/-! ## Example data for the item loop and the prices -/

/-- The catalog of `exampleEnv 12` in which item 302 has lost its definition. -/
def gappyEnv : Env :=
  { GetItemTemplate := fun id => if id = 302 then none else some (exampleTemplate id)
    GetItemBin := fun q => (List.range 12).map (fun k => q * 100 + k + 1)
    GetOverridenPrice := fun _ rng => (none, rng)
    GetAuctionDeposit := fun _ _ _ => 0
    GetGameTime := 1000
    AHB_MAX_DEFAULT_QUALITY := 7 }

/-- The state after the single trip of the pass over `scenarioConfig` and `gappyEnv`. -/
def gappyEnd : SellerState :=
  iteration exampleBot gappyEnv scenarioConfig
    (loopEntry exampleBot scenarioConfig (exampleVenue 90) [7] [])

/-- A venue profile whose buyout multipliers all lie between `lo` and `hi` percent. -/
def pricedConfig (lo hi : Nat) : AHBConfig :=
  { minItems := 95, maxItems := 100
    maxCounts := fun _ => 0, itemCounts := fun _ => 0
    AuctionHouseID := 2, maxStack := fun _ => 0
    minPrice := fun _ => lo, maxPrice := fun _ => hi
    minBidPrice := fun _ => 70, maxBidPrice := fun _ => 100 }

/-- A glyph. -/
def glyphTemplate : ItemTemplate :=
  { ItemId := 40000, Class := ITEM_CLASS_GLYPH, Quality := 1, MaxStackSize := 20,
    BuyPrice := 1000, SellPrice := 250 }

/-! ## The venue, the whole profile and the bot -/

/-- The highest quality of the host's enumeration that has a bin (`ITEM_QUALITY_ARTIFACT`). -/
def ITEM_QUALITY_ARTIFACT : Nat := 6

/-- Item class of ammunition (`case 6` in the buyer). -/
def ITEM_CLASS_PROJECTILE : Nat := 6

/-- The venue identifiers of the host (`AUCTIONHOUSE_ALLIANCE`, `AUCTIONHOUSE_HORDE`,
`AUCTIONHOUSE_NEUTRAL`). -/
def AUCTIONHOUSE_ALLIANCE : Nat := 2

def AUCTIONHOUSE_HORDE : Nat := 6

def AUCTIONHOUSE_NEUTRAL : Nat := 7

/-- An item instance kept by `sAuctionMgr`: `GetCount()` and `GetTemplate()`. -/
structure Item where
  Count : Nat
  Template : Option ItemTemplate
  deriving DecidableEq, Repr

/-- The fields of an `AuctionEntry` of a venue that the buyer, `LoadValues` and `Commands`
read and write. A `bidder` of 0 is no bidder, a `buyout` of 0 is no buyout. -/
structure HouseAuction where
  Id : Nat
  item_guid : Nat
  item_template : Nat
  owner : Nat
  startbid : Nat
  buyout : Nat
  bid : Nat
  bidder : Nat
  expire_time : Nat
  deriving DecidableEq, Repr

/-- An `AuctionHouseObject` with the items `sAuctionMgr` keeps for its auctions. -/
structure AuctionHouse where
  auctions : List HouseAuction
  items : Nat → Option Item

/-- The lookup `auctionHouse->GetAuction(id)`. -/
def AuctionHouse.GetAuction (house : AuctionHouse) (id : Nat) : Option HouseAuction :=
  house.auctions.find? (fun a => a.Id = id)

/-- The whole of `AHBConfig`: the part the seller reads, the percentages, and the
fields of the buyer. The bidding interval is kept in seconds. -/
structure Profile extends AHBConfig where
  percentages : Nat → ℚ
  buyerPrice : Nat → Nat
  biddingInterval : Nat
  bidsPerInterval : Nat

/-- The members of `AuctionHouseBot`. -/
structure AuctionHouseBot extends Bot where
  AHBBuyer : Bool
  BuyMethod : Bool
  AHBplayerGUID : Nat
  AllianceConfig : Profile
  HordeConfig : Profile
  NeutralConfig : Profile

/-- The collaborators of the buyer, of `LoadValues` and of `Commands`: those of the
seller, the host's `AuctionEntry::GetAuctionOutBid`, and `AHBConfig::CalculateMaxCounts`
of the configuration header (the targets as a function of `maxItems` and the
percentages). -/
structure Host extends Env where
  GetAuctionOutBid : HouseAuction → Nat
  CalculateMaxCounts : Nat → (Nat → ℚ) → Nat → Nat

/-- The columns of the table `mod_auctionhousebot` the commands write. -/
inductive Column where
  | minitems
  | maxitems
  | percent (bin : Nat)
  | minprice
  | maxprice
  | minbidprice
  | maxbidprice
  | maxstack
  | buyerprice
  | buyerbiddinginterval
  | buyerbidsperinterval
  deriving DecidableEq, Repr

/-- The statements sent to the databases: an update of one column of
`mod_auctionhousebot` (with the color suffix of the column, when it has one) for the
row of a venue, and the update of the expiry time, the update of the bid and the
deletion of one row of `auctionhouse`. -/
inductive Statement where
  | updateConfig (column : Column) (color : Option Nat) (value : ℚ) (auctionhouse : Nat)
  | updateTime (id : Nat) (time : Nat)
  | updateBid (id : Nat) (buyguid : Nat) (lastbid : Nat)
  | deleteAuction (id : Nat)
  deriving DecidableEq, Repr

/-! ## The buyer: `AddNewAuctionBuyerBotBidCallback` -/

/-- The state the buyer callback works on: the venue, the generator, the raw draws
behind the successive calls of `frand(0.01f, 1.0f)`, the identifiers of the listings
acted on, oldest first, the listings bought out, as they are when the settlement mails
are sent and they are deleted, the statements sent to the character database, and
whether a null item definition was dereferenced. -/
structure BuyerState where
  house : AuctionHouse
  rng : List Nat
  bidrates : List Nat
  acted : List Nat
  won : List HouseAuction
  statements : List Statement
  fault : Bool

/-- The next raw draw of the stream behind `frand`. -/
def nextBidRate (bidrates : List Nat) : Nat × List Nat :=
  match bidrates with
  | [] => (0, [])
  | v :: rest => (v % 2 ^ 32, rest)

/-- The number of low bits a natural number loses when it is cut to 24 bits: the least
`s` with `n / 2 ^ s < 2 ^ 24`, found by halving (the fuel is never exhausted when it is
at least `n`). -/
def shiftOf : Nat → Nat → Nat
  | 0, _ => 0
  | fuel + 1, n => if n < 2 ^ 24 then 0 else shiftOf fuel (n / 2) + 1

/-- Rounding of a nonnegative real number, given as a natural number of units, to a
binary32 value: 24 significant bits are kept, a remainder above half a unit in the last
place rounds up, a remainder of exactly half rounds to the even neighbour. -/
def roundFloat (n : Nat) : Nat :=
  let s := shiftOf n n
  let q := n / 2 ^ s
  let r := n % 2 ^ s
  if 2 * r > 2 ^ s ∨ (2 * r = 2 ^ s ∧ q % 2 = 1) then (q + 1) * 2 ^ s else q * 2 ^ s

/-- The `float` a call `frand(0.01f, 1.0f)` returns, in units of 2^-30: some binary32
value from 0.01f, which is 10737418 units, to 1.0f, which is 2^30 units. -/
def bidRate (v : Nat) : Nat :=
  roundFloat (10737418 + v % (2 ^ 30 - 10737418 + 1))

/-- The `float` variable `bidvalue` of the buyer (lines 406-409), in units of 2^-30, for
the current price, the nonzero `bidMax` and the bid rate (in units of 2^-30):
`overBidAmount = (bidMax - currentprice) * bidrate`, capped at
`static_cast<float>(currentprice) * 1.2f`, is added to the current price. The `uint32`
values are converted to `float` first; 1.2f is 10066330 * 2^-23. The difference is not
negative, because `bidMax` is above the current price and the conversion is monotone. -/
def bidvalue (currentprice bidMax bidrate : Nat) : Nat :=
  let current := roundFloat currentprice
  let overBidAmount := roundFloat (roundFloat (roundFloat bidMax - current) * bidrate)
  let cap := roundFloat (current * 10066330 * 2 ^ 7)
  roundFloat (current * 2 ^ 30 + min overBidAmount cap)

/-- The candidate bid `bidprice = static_cast<uint32>(bidvalue)` (line 412): the integer
part of `bidvalue`. For a value of 2^32 or more the conversion is undefined in C++; the
low 32 bits are taken here. -/
def bidprice (currentprice bidMax bidrate : Nat) : Nat :=
  bidvalue currentprice bidMax bidrate / 2 ^ 30 % 2 ^ 32

/-- The price a bid has to beat: the highest bid if there is one, else the starting bid. -/
def currentPrice (auction : HouseAuction) : Nat :=
  if auction.bid ≠ 0 then auction.bid else auction.startbid

/-- The check "our bid is high enough to be valid": a bid below
`currentprice + GetAuctionOutBid()`, a sum of two `uint32`, is corrected to it. -/
def minimumBid (currentprice outbid bidprice : Nat) : Nat :=
  if (currentprice + outbid) % 2 ^ 32 > bidprice then (currentprice + outbid) % 2 ^ 32
  else bidprice

/-- The product `basePrice * pItem->GetCount() * config->GetBuyerPrice(quality)`, taken in
`uint32`. -/
def acceptablePrice (config : Profile) (prototype : ItemTemplate) (basePrice count : Nat) : Nat :=
  (basePrice * count * config.buyerPrice prototype.Quality) % 2 ^ 32

/-- The value of `bidMax`, as far as the test `bidMax == 0` goes: the acceptable price
when the current price is below it, and 0 otherwise and for ammunition. -/
def bidMax (config : Profile) (prototype : ItemTemplate) (basePrice count currentprice : Nat) :
    Nat :=
  if prototype.Class = ITEM_CLASS_PROJECTILE then 0
  else if currentprice < acceptablePrice config prototype basePrice count then
    acceptablePrice config prototype basePrice count
  else 0

/-- The branch "normal bid, or buyout": a bid below the buyout, or on a listing without
buyout, is recorded on the listing; otherwise the listing is bought at its buyout and
leaves the venue with its item, after its bidder and its bid were set. -/
def settle (bot : AuctionHouseBot) (st : BuyerState) (auction : HouseAuction) (bidprice : Nat) :
    BuyerState :=
  if bidprice < auction.buyout ∨ auction.buyout = 0 then
    { st with
      house := { st.house with
        auctions := st.house.auctions.map (fun a =>
          if a.Id = auction.Id then { a with bidder := bot.AHBplayerGUID, bid := bidprice }
          else a) }
      acted := st.acted ++ [auction.Id]
      statements := st.statements ++ [Statement.updateBid auction.Id bot.AHBplayerGUID bidprice] }
  else
    { st with
      house :=
        { auctions := st.house.auctions.filter (fun a => a.Id ≠ auction.Id)
          items := Function.update st.house.items auction.item_guid none }
      acted := st.acted ++ [auction.Id]
      won := st.won ++ [{ auction with bidder := bot.AHBplayerGUID, bid := auction.buyout }]
      statements := st.statements ++ [Statement.deleteAuction auction.Id] }

/-- The body of the loop over `bidTaskList` once the listing, its item and the item
definition are at hand: the bid rate is drawn, the reference price is chosen, and a
listing that passes the tests is bid on with the candidate bid corrected to the minimum. -/
def bidOnListing (bot : AuctionHouseBot) (host : Host) (config : Profile) (st : BuyerState)
    (auction : HouseAuction) (pItem : Item) (prototype : ItemTemplate) : BuyerState :=
  let bidrate := bidRate (nextBidRate st.bidrates).1
  let priceOverride := host.GetOverridenPrice prototype.ItemId st.rng
  let basePrice := match priceOverride.1 with
    | some price => price
    | none => if bot.BuyMethod then prototype.SellPrice else prototype.BuyPrice
  if prototype.Quality ≤ host.AHB_MAX_DEFAULT_QUALITY then
    if bidMax config prototype basePrice pItem.Count (currentPrice auction) = 0 then
      { st with rng := priceOverride.2, bidrates := (nextBidRate st.bidrates).2 }
    else
      settle bot { st with rng := priceOverride.2, bidrates := (nextBidRate st.bidrates).2 }
        auction
        (minimumBid (currentPrice auction) (host.GetAuctionOutBid auction)
          (bidprice (currentPrice auction)
            (bidMax config prototype basePrice pItem.Count (currentPrice auction)) bidrate))
  else { st with rng := priceOverride.2, bidrates := (nextBidRate st.bidrates).2 }

/-- The body of the loop over `bidTaskList`: a listing that is gone, or whose item is
gone, is skipped; the item definition is read without a null check. -/
def bidOn (bot : AuctionHouseBot) (host : Host) (config : Profile) (st : BuyerState)
    (randomID : Nat) : BuyerState :=
  if st.fault then st
  else
    match st.house.GetAuction randomID with
    | none => st
    | some auction =>
      match st.house.items auction.item_guid with
      | none => st
      | some pItem =>
        match host.GetItemTemplate auction.item_template with
        | none => { st with fault := true }
        | some prototype => bidOnListing bot host config st auction pItem prototype

/-- The callback `AuctionHouseBot::AddNewAuctionBuyerBotBidCallback`: `result` is the
query result, `none` when there is none, else the listing identifiers of its rows. -/
def AddNewAuctionBuyerBotBidCallback (bot : AuctionHouseBot) (host : Host) (config : Profile)
    (result : Option (List Nat)) (st : BuyerState) : BuyerState :=
  match result with
  | none => st
  | some possibleBids =>
    if possibleBids = [] then st
    else
      (sample possibleBids config.bidsPerInterval st.rng).1.foldl (bidOn bot host config)
        { st with rng := (sample possibleBids config.bidsPerInterval st.rng).2 }

/-! ## Loading a profile: `LoadValues` -/

/-- The row of `mod_auctionhousebot` the seller part of `LoadValues` fetches. -/
structure SellerRow where
  minitems : Nat
  maxitems : Nat
  percentages : Nat → ℚ
  minprice : Nat → Nat
  maxprice : Nat → Nat
  minbidprice : Nat → Nat
  maxbidprice : Nat → Nat
  maxstack : Nat → Nat

/-- The row of `mod_auctionhousebot` the buyer part of `LoadValues` fetches. -/
structure BuyerRow where
  buyerprice : Nat → Nat
  buyerbiddinginterval : Nat
  buyerbidsperinterval : Nat

/-- The seven calls of a setter, one per quality from `ITEM_QUALITY_POOR` to
`ITEM_QUALITY_ARTIFACT`. -/
def setQualities (old new : Nat → Nat) : Nat → Nat :=
  fun q => if q ≤ ITEM_QUALITY_ARTIFACT then new q else old q

/-- Modelled from the spec: `AHBConfig::ResetItemCounts` of `AuctionHouseBotConfig.h`,
which is not among the sources; the previous counter values are discarded. -/
def ResetItemCounts : Nat → Nat :=
  fun _ => 0

/-- Modelled from the spec: `AHBConfig::IncreaseItemCounts(index)` of
`AuctionHouseBotConfig.h`, which is not among the sources; the occupancy counter of the
bin is incremented by one. -/
def IncreaseItemCountsAt (counts : Nat → Nat) (index : Nat) : Nat → Nat :=
  Function.update counts index (counts index + 1)

/-- Modelled from the spec: `AHBConfig::SetPercentages` of `AuctionHouseBotConfig.h`,
which is not among the sources; the percentages are stored and the targets derive from
them and from the maximum of the venue. -/
def SetPercentages (host : Host) (config : Profile) (percentages : Nat → ℚ) : Profile :=
  { config with
    percentages := percentages
    maxCounts := host.CalculateMaxCounts config.maxItems percentages }

/-- The body of the loop of `LoadValues` over the auctions of the venue. -/
def countAuction (host : Host) (house : AuctionHouse) (counts : Nat → Nat)
    (auction : HouseAuction) : Nat → Nat :=
  match house.items auction.item_guid with
  | none => counts
  | some item =>
    match item.Template with
    | none => counts
    | some prototype =>
      if prototype.Quality ≤ ITEM_QUALITY_ARTIFACT then
        if prototype.Class = ITEM_CLASS_TRADE_GOODS then
          IncreaseItemCountsAt counts prototype.Quality
        else IncreaseItemCountsAt counts (prototype.Quality + host.AHB_MAX_DEFAULT_QUALITY)
      else counts

/-- The seller part of `LoadValues` for a row that was found. -/
def loadSeller (host : Host) (row : SellerRow) (house : AuctionHouse) (config : Profile) :
    Profile :=
  let sized : Profile := { config with minItems := row.minitems, maxItems := row.maxitems }
  let shared := SetPercentages host sized row.percentages
  { shared with
    minPrice := setQualities shared.minPrice row.minprice
    maxPrice := setQualities shared.maxPrice row.maxprice
    minBidPrice := setQualities shared.minBidPrice row.minbidprice
    maxBidPrice := setQualities shared.maxBidPrice row.maxbidprice
    maxStack := setQualities shared.maxStack row.maxstack
    itemCounts := house.auctions.foldl (countAuction host house) ResetItemCounts }

/-- The buyer part of `LoadValues` for a row that was found. -/
def loadBuyer (row : BuyerRow) (config : Profile) : Profile :=
  { config with
    buyerPrice := setQualities config.buyerPrice row.buyerprice
    biddingInterval := row.buyerbiddinginterval * 60
    bidsPerInterval := row.buyerbidsperinterval }

/-- The method `AuctionHouseBot::LoadValues`: each part runs when its function is enabled,
and a query without result ends the whole load. -/
def LoadValues (bot : AuctionHouseBot) (host : Host) (sellerRow : Option SellerRow)
    (buyerRow : Option BuyerRow) (house : AuctionHouse) (config : Profile) : Profile :=
  if bot.AHBSeller then
    match sellerRow with
    | none => config
    | some row =>
      if bot.AHBBuyer then
        match buyerRow with
        | none => loadSeller host row house config
        | some brow => loadBuyer brow (loadSeller host row house config)
      else loadSeller host row house config
  else if bot.AHBBuyer then
    match buyerRow with
    | none => config
    | some brow => loadBuyer brow config
  else config

/-- The bin `LoadValues` counts a listing in, if any. -/
def loadedBin (host : Host) (house : AuctionHouse) (auction : HouseAuction) : Option Nat :=
  match house.items auction.item_guid with
  | none => none
  | some item =>
    match item.Template with
    | none => none
    | some prototype =>
      if prototype.Quality ≤ ITEM_QUALITY_ARTIFACT then
        if prototype.Class = ITEM_CLASS_TRADE_GOODS then some prototype.Quality
        else some (prototype.Quality + host.AHB_MAX_DEFAULT_QUALITY)
      else none

/-- The backing item of the listing is live and is a trade good (`tradeGood = true`) or
another item (`tradeGood = false`) of quality `q`. -/
def backingItemIs (house : AuctionHouse) (tradeGood : Bool) (q : Nat) (auction : HouseAuction) :
    Bool :=
  match house.items auction.item_guid with
  | none => false
  | some item =>
    match item.Template with
    | none => false
    | some prototype =>
      decide (prototype.Quality = q) &&
        (decide (prototype.Class = ITEM_CLASS_TRADE_GOODS) == tradeGood)

/-! ## The administrative commands: `Commands` -/

/-- The commands of `AHBotCommand` that `Commands` handles, and any other value. -/
inductive AHBotCommand where
  | ahexpire
  | ahexpireclass
  | minitems
  | maxitems
  | percentages
  | minprice
  | maxprice
  | minbidprice
  | maxbidprice
  | maxstack
  | buyerprice
  | bidinterval
  | bidsperinterval
  | other
  deriving DecidableEq, Repr

/-- The three profiles of the bot. -/
inductive VenueKey where
  | alliance
  | horde
  | neutral
  deriving DecidableEq, Repr

/-- The arguments of a command as `strtoul` and `strtof` read them: the number of the
first token, and the fourteen percentages. -/
structure CommandArgs where
  number : Nat
  percents : Nat → ℚ

/-- What `Commands` works on: the bot, the auction house of each venue, the statements
sent to the databases, oldest first, and whether the null profile was dereferenced. -/
structure CommandState where
  bot : AuctionHouseBot
  houses : VenueKey → AuctionHouse
  statements : List Statement
  fault : Bool

/-- The `switch (ahMapID)`: the profile of the venue, or the null pointer. -/
def selectConfig (ahMapID : Nat) : Option VenueKey :=
  if ahMapID = AUCTIONHOUSE_ALLIANCE then some VenueKey.alliance
  else if ahMapID = AUCTIONHOUSE_HORDE then some VenueKey.horde
  else if ahMapID = AUCTIONHOUSE_NEUTRAL then some VenueKey.neutral
  else none

/-- The `switch (col)`: the color suffix of a column, empty for a value that is no quality. -/
def selectColor (col : Nat) : Option Nat :=
  if col ≤ ITEM_QUALITY_ARTIFACT then some col else none

/-- The profile a key stands for. -/
def getConfig (bot : AuctionHouseBot) (key : VenueKey) : Profile :=
  match key with
  | VenueKey.alliance => bot.AllianceConfig
  | VenueKey.horde => bot.HordeConfig
  | VenueKey.neutral => bot.NeutralConfig

/-- The bot with one profile replaced. -/
def setConfig (bot : AuctionHouseBot) (key : VenueKey) (config : Profile) : AuctionHouseBot :=
  match key with
  | VenueKey.alliance => { bot with AllianceConfig := config }
  | VenueKey.horde => { bot with HordeConfig := config }
  | VenueKey.neutral => { bot with NeutralConfig := config }

/-- A call `config->Set...(...)`: the profile is changed, or the null pointer is
dereferenced. -/
def applyToConfig (st : CommandState) (key : Option VenueKey) (change : Profile → Profile) :
    CommandState :=
  match key with
  | none => { st with fault := true }
  | some k => { st with bot := setConfig st.bot k (change (getConfig st.bot k)) }

/-- A setter command: the `UPDATE` is sent first, then the profile is changed. -/
def setterCommand (st : CommandState) (key : Option VenueKey) (statements : List Statement)
    (change : Profile → Profile) : CommandState :=
  applyToConfig { st with statements := st.statements ++ statements } key change

/-- The loop of `ahexpire` and `ahexpireclass` over the auctions of the venue: an auction
of the bot (for `ahexpireclass`: whose item is of the class) expires now, and its row is
updated. -/
def expireAuctions (host : Host) (owner : Nat) (itemClass : Option Nat) :
    List HouseAuction → List HouseAuction × List Statement
  | [] => ([], [])
  | auction :: rest =>
    let tail := expireAuctions host owner itemClass rest
    let hit : Bool :=
      decide (auction.owner = owner) &&
        (match itemClass with
          | none => true
          | some c =>
            match host.GetItemTemplate auction.item_template with
            | none => false
            | some prototype => decide (prototype.Class = c))
    if hit then
      ({ auction with expire_time := host.GetGameTime } :: tail.1,
        Statement.updateTime auction.Id (host.GetGameTime % 2 ^ 32) :: tail.2)
    else (auction :: tail.1, tail.2)

/-- The commands `ahexpire` and `ahexpireclass`: the venue is looked up through the
profile, which is dereferenced first. -/
def expireCommand (host : Host) (st : CommandState) (key : Option VenueKey)
    (itemClass : Option Nat) : CommandState :=
  match key with
  | none => { st with fault := true }
  | some k =>
    { st with
      houses := Function.update st.houses k
        { st.houses k with
          auctions := (expireAuctions host st.bot.AHBplayerGUID itemClass
            (st.houses k).auctions).1 }
      statements := st.statements ++
        (expireAuctions host st.bot.AHBplayerGUID itemClass (st.houses k).auctions).2 }

/-- The method `AuctionHouseBot::Commands`. -/
def Commands (host : Host) (st : CommandState) (command : AHBotCommand) (ahMapID col : Nat)
    (args : CommandArgs) : CommandState :=
  let config := selectConfig ahMapID
  let color := selectColor col
  match command with
  | AHBotCommand.ahexpire => expireCommand host st config none
  | AHBotCommand.ahexpireclass => expireCommand host st config (some args.number)
  | AHBotCommand.minitems =>
    setterCommand st config [Statement.updateConfig Column.minitems none args.number ahMapID]
      (fun c => { c with minItems := args.number })
  | AHBotCommand.maxitems =>
    setterCommand st config [Statement.updateConfig Column.maxitems none args.number ahMapID]
      (fun c => { c with maxItems := args.number
                         maxCounts := host.CalculateMaxCounts args.number c.percentages })
  | AHBotCommand.percentages =>
    setterCommand st config
      ((List.range AHB_MAX_QUALITY).map (fun i =>
        Statement.updateConfig (Column.percent i) none (args.percents i) ahMapID))
      (fun c => SetPercentages host c args.percents)
  | AHBotCommand.minprice =>
    setterCommand st config [Statement.updateConfig Column.minprice color args.number ahMapID]
      (fun c => { c with minPrice := Function.update c.minPrice col args.number })
  | AHBotCommand.maxprice =>
    setterCommand st config [Statement.updateConfig Column.maxprice color args.number ahMapID]
      (fun c => { c with maxPrice := Function.update c.maxPrice col args.number })
  | AHBotCommand.minbidprice =>
    setterCommand st config [Statement.updateConfig Column.minbidprice color args.number ahMapID]
      (fun c => { c with minBidPrice := Function.update c.minBidPrice col args.number })
  | AHBotCommand.maxbidprice =>
    setterCommand st config [Statement.updateConfig Column.maxbidprice color args.number ahMapID]
      (fun c => { c with maxBidPrice := Function.update c.maxBidPrice col args.number })
  | AHBotCommand.maxstack =>
    setterCommand st config [Statement.updateConfig Column.maxstack color args.number ahMapID]
      (fun c => { c with maxStack := Function.update c.maxStack col args.number })
  | AHBotCommand.buyerprice =>
    setterCommand st config [Statement.updateConfig Column.buyerprice color args.number ahMapID]
      (fun c => { c with buyerPrice := Function.update c.buyerPrice col args.number })
  | AHBotCommand.bidinterval =>
    setterCommand st config
      [Statement.updateConfig Column.buyerbiddinginterval none args.number ahMapID]
      (fun c => { c with biddingInterval := args.number * 60 })
  | AHBotCommand.bidsperinterval =>
    setterCommand st config
      [Statement.updateConfig Column.buyerbidsperinterval none args.number ahMapID]
      (fun c => { c with bidsPerInterval := args.number })
  | AHBotCommand.other => st

/-! ## Example data for the buyer, `LoadValues` and `Commands` -/

/-- A host over the catalog `exampleEnv 12` with the given minimum-outbid rule. -/
def exampleHost (outbid : HouseAuction → Nat) : Host :=
  { toEnv := exampleEnv 12
    GetAuctionOutBid := outbid
    CalculateMaxCounts := fun _ _ _ => 0 }

/-- A host in which every item has the vendor price 42949671, with the minimum outbid of
five percent of the highest bid, at least 1. -/
def dearHost : Host :=
  { GetItemTemplate := fun id =>
      some { ItemId := id, Class := ITEM_CLASS_TRADE_GOODS, Quality := 1, MaxStackSize := 1,
             BuyPrice := 42949671, SellPrice := 42949671 }
    GetItemBin := fun _ => []
    GetOverridenPrice := fun _ rng => (none, rng)
    GetAuctionDeposit := fun _ _ _ => 0
    GetGameTime := 1000
    AHB_MAX_DEFAULT_QUALITY := 7
    GetAuctionOutBid := fun a => max 1 (a.bid * 5 / 100)
    CalculateMaxCounts := fun _ _ _ => 0 }

/-- A profile over `scenarioConfig` whose buyer accepts `price` times the vendor price
and bids on `bids` listings per interval. -/
def exampleProfile (price bids : Nat) : Profile :=
  { toAHBConfig := scenarioConfig
    percentages := fun _ => 0
    buyerPrice := fun _ => price
    biddingInterval := 60
    bidsPerInterval := bids }

/-- A bot with seller and buyer enabled, the character 1, and three like profiles. -/
def exampleAuctionHouseBot : AuctionHouseBot :=
  { toBot := exampleBot
    AHBBuyer := true
    BuyMethod := true
    AHBplayerGUID := 1
    AllianceConfig := exampleProfile 2 2
    HordeConfig := exampleProfile 2 2
    NeutralConfig := exampleProfile 2 2 }

/-- A listing of the player 9 for the item 301, kept as item instance `500 + id`. -/
def playerAuction (id startbid buyout bid bidder : Nat) : HouseAuction :=
  { Id := id, item_guid := 500 + id, item_template := 301, owner := 9
    startbid := startbid, buyout := buyout, bid := bid, bidder := bidder, expire_time := 5000 }

/-- A venue holding the given listings, each backed by one item of its template. -/
def exampleHouse (auctions : List HouseAuction) : AuctionHouse :=
  { auctions := auctions
    items := fun guid =>
      match auctions.find? (fun a => a.item_guid = guid) with
      | none => none
      | some a => some { Count := 1, Template := some (exampleTemplate a.item_template) } }

/-- The buyer's state before a callback on the given venue. -/
def buyerStart (auctions : List HouseAuction) (bidrates : List Nat) : BuyerState :=
  { house := exampleHouse auctions, rng := [], bidrates := bidrates, acted := []
    won := [], statements := [], fault := false }

/-- A listing for the item `template`, kept as item instance `guid`. -/
def stockAuction (id guid template : Nat) : HouseAuction :=
  { Id := id, item_guid := guid, item_template := template, owner := 1
    startbid := 100, buyout := 0, bid := 0, bidder := 0, expire_time := 5000 }

/-- A venue with two trade goods of quality 3, one other item of quality 0 (template
701), one listing whose item is gone and one item of quality 7 without a bin. -/
def stockedHouse : AuctionHouse :=
  { auctions := [stockAuction 1 11 301, stockAuction 2 12 302, stockAuction 3 13 701,
      stockAuction 4 14 303, stockAuction 5 15 9000]
    items := fun guid =>
      if guid = 11 then some { Count := 1, Template := some (exampleTemplate 301) }
      else if guid = 12 then some { Count := 1, Template := some (exampleTemplate 302) }
      else if guid = 13 then some { Count := 1, Template := some (exampleTemplate 701) }
      else if guid = 15 then
        some { Count := 1
               Template := some { ItemId := 9000, Class := 2, Quality := 7, MaxStackSize := 1,
                                  BuyPrice := 10, SellPrice := 5 } }
      else none }

/-- A row of `mod_auctionhousebot` for the seller. -/
def exampleSellerRow : SellerRow :=
  { minitems := 95, maxitems := 100, percentages := fun _ => 0
    minprice := fun _ => 120, maxprice := fun _ => 150
    minbidprice := fun _ => 70, maxbidprice := fun _ => 100, maxstack := fun _ => 0 }

/-- The state of the bot before a command. -/
def commandStart : CommandState :=
  { bot := exampleAuctionHouseBot
    houses := fun _ => exampleHouse []
    statements := []
    fault := false }

/-! ## The listing of one item -/

/-- The listing the body of the item loop builds for the identifier `itemID` with the
definition `prototype`, from `calculateStackSize` to `auctionBatch.emplace_back`, with
the generator left after it. -/
def buildAuction (bot : Bot) (env : Env) (config : AHBConfig) (itemID : Nat)
    (prototype : ItemTemplate) (rng : List Nat) : AuctionEntry × List Nat :=
  let stack := calculateStackSize config prototype rng
  let prices := calculatePrices env config prototype
    (if bot.SellMethod then prototype.BuyPrice else prototype.SellPrice) stack.2
  let time := uniformInt 0 3 prices.2
  let lifeTime := time.1 * (12 * 3600)
  ({ houseId := config.AuctionHouseID
     item_template := itemID
     itemCount := stack.1
     startbid := (prices.1.2 * stack.1) % 2 ^ 32
     buyout := (prices.1.1 * stack.1) % 2 ^ 32
     bid := 0
     deposit := env.GetAuctionDeposit lifeTime itemID stack.1
     expire_time := lifeTime + env.GetGameTime }, time.2)

/-- The upper bound of the distribution `stackSize` in `calculateStackSize`. -/
def maxStackSize (config : AHBConfig) (prototype : ItemTemplate) : Nat :=
  if config.maxStack prototype.Quality ≠ 0 then
    min (max 1 prototype.MaxStackSize) (config.maxStack prototype.Quality)
  else max 1 prototype.MaxStackSize

/-- The stack quantity of the listing: `stackCount`. -/
def stackCount (config : AHBConfig) (prototype : ItemTemplate) (rng : List Nat) : Nat :=
  (calculateStackSize config prototype rng).1

/-- The reference price of the listing: `vendorPrice` in `calculatePrices` after the
catalog price override. -/
def vendorPrice (bot : Bot) (env : Env) (config : AHBConfig) (prototype : ItemTemplate)
    (rng : List Nat) : Nat :=
  match (env.GetOverridenPrice prototype.ItemId (calculateStackSize config prototype rng).2).1 with
  | some priceOverride => priceOverride
  | none => if bot.SellMethod then prototype.BuyPrice else prototype.SellPrice

/-- The draw of `buyPriceMultiplier` for the listing. -/
def buyPriceMultiplier (env : Env) (config : AHBConfig) (prototype : ItemTemplate)
    (rng : List Nat) : Nat :=
  (uniformInt (config.minPrice prototype.Quality) (config.maxPrice prototype.Quality)
    (env.GetOverridenPrice prototype.ItemId (calculateStackSize config prototype rng).2).2).1

/-- The draw of `bidPriceMultiplier` for the listing. -/
def bidPriceMultiplier (env : Env) (config : AHBConfig) (prototype : ItemTemplate)
    (rng : List Nat) : Nat :=
  (uniformInt (config.minBidPrice prototype.Quality) (config.maxBidPrice prototype.Quality)
    (uniformInt (config.minPrice prototype.Quality) (config.maxPrice prototype.Quality)
      (env.GetOverridenPrice prototype.ItemId
        (calculateStackSize config prototype rng).2).2).2).1

/-- The weights the distribution `randomQuality` is constructed with; `none` when the pass
returns before the construction. -/
def randomQuality (bot : Bot) (config : AHBConfig) (venue : Venue) : Option (Nat → Nat) :=
  if bot.AHBSeller = false then none
  else if config.maxItems = 0 then none
  else if venue.ahEntry = false then none
  else if venue.auctionHouse = false then none
  else if venue.auctions ≥ config.minItems then none
  else if venue.auctions ≥ config.maxItems then none
  else if itemsToCreateInit bot config venue = 0 then none
  else some (deficits config)

/-- An item that stacks to 20 with a vendor price of 300000000. -/
def bulkTemplate : ItemTemplate :=
  { ItemId := 50000, Class := ITEM_CLASS_TRADE_GOODS, Quality := 1, MaxStackSize := 20,
    BuyPrice := 300000000, SellPrice := 75000000 }

/-- A glyph with a vendor price of 2^30. -/
def dearGlyph : ItemTemplate :=
  { ItemId := 40001, Class := ITEM_CLASS_GLYPH, Quality := 1, MaxStackSize := 1,
    BuyPrice := 1073741824, SellPrice := 1073741824 }

/-- An item whose maximum stack size is 0. -/
def looseTemplate : ItemTemplate :=
  { ItemId := 50001, Class := ITEM_CLASS_TRADE_GOODS, Quality := 1, MaxStackSize := 0,
    BuyPrice := 1000, SellPrice := 250 }

/-- A catalog with the three items above, each alone in the bin 1. -/
def dearEnv : Env :=
  { GetItemTemplate := fun id =>
      if id = 50000 then some bulkTemplate
      else if id = 40001 then some dearGlyph
      else if id = 50001 then some looseTemplate
      else none
    GetItemBin := fun q => if q = 1 then [40001, 50000, 50001] else []
    GetOverridenPrice := fun _ rng => (none, rng)
    GetAuctionDeposit := fun _ _ _ => 0
    GetGameTime := 1000
    AHB_MAX_DEFAULT_QUALITY := 7 }

/-! ## The reference price of the buyer -/

/-- The reference price of the buyer: the vendor price `BuyMethod` selects, or the catalog
price override of the item when there is one. -/
def basePrice (bot : AuctionHouseBot) (host : Host) (prototype : ItemTemplate)
    (rng : List Nat) : Nat :=
  match (host.GetOverridenPrice prototype.ItemId rng).1 with
  | some price => price
  | none => if bot.BuyMethod then prototype.SellPrice else prototype.BuyPrice

/-! ## The tick: `Update` -/

/-- The calls `Update` makes for a venue, and the final `ProcessQueryCallbacks`. -/
inductive Call where
  | seller (venue : VenueKey)
  | buyer (venue : VenueKey)
  | callbacks
  deriving DecidableEq, Repr

/-- The members `Update` works on: the time of the last dispatch of bidding for each
venue (`Seconds`, a signed count), and the calls made so far, oldest first:
`Call.seller` for `AddNewAuctions`, `Call.buyer` for `AddNewAuctionBuyerBotBid`. -/
structure UpdateState where
  lastUpdateAlliance : Int
  lastUpdateHorde : Int
  lastUpdateNeutral : Int
  calls : List Call

/-- The test of `Update` before the dispatch of bidding. -/
def biddingDue (config : Profile) (newUpdate lastUpdate : Int) : Bool :=
  decide (newUpdate - lastUpdate ≥ (config.biddingInterval : Int)) &&
    decide (config.bidsPerInterval > 0)

/-- The two statements of `Update` for one venue: the seller pass, which may not return
(`sellerReturns`), then the dispatch of bidding when it is due. The result is the new
time of the last dispatch and the calls; `none` when the seller pass does not return. -/
def updateVenue (bot : AuctionHouseBot) (sellerReturns : VenueKey → Bool) (key : VenueKey)
    (newUpdate lastUpdate : Int) (calls : List Call) : Option (Int × List Call) :=
  if sellerReturns key = false then none
  else if biddingDue (getConfig bot key) newUpdate lastUpdate = true then
    some (newUpdate, calls ++ [Call.seller key, Call.buyer key])
  else some (lastUpdate, calls ++ [Call.seller key])

/-- The method `AuctionHouseBot::Update` at the game time `newUpdate`; `twoSide` is the
value of `CONFIG_ALLOW_TWO_SIDE_INTERACTION_AUCTION`. -/
def Update (bot : AuctionHouseBot) (AHBplayerAccount : Nat) (twoSide : Bool)
    (sellerReturns : VenueKey → Bool) (newUpdate : Int) (st : UpdateState) :
    Option UpdateState :=
  if bot.AHBSeller = false ∧ bot.AHBBuyer = false then some st
  else if AHBplayerAccount = 0 ∨ bot.AHBplayerGUID = 0 then some st
  else
    let factions : Option UpdateState :=
      if twoSide = false then
        match updateVenue bot sellerReturns VenueKey.alliance newUpdate st.lastUpdateAlliance
            st.calls with
        | none => none
        | some a =>
          match updateVenue bot sellerReturns VenueKey.horde newUpdate st.lastUpdateHorde a.2 with
          | none => none
          | some h => some { st with lastUpdateAlliance := a.1, lastUpdateHorde := h.1,
                                     calls := h.2 }
      else some st
    match factions with
    | none => none
    | some st1 =>
      match updateVenue bot sellerReturns VenueKey.neutral newUpdate st1.lastUpdateNeutral
          st1.calls with
      | none => none
      | some n => some { st1 with lastUpdateNeutral := n.1, calls := n.2 ++ [Call.callbacks] }

/-- The venues one `Update` processes, in order. -/
def processedVenues (twoSide : Bool) : List VenueKey :=
  if twoSide = false then [VenueKey.alliance, VenueKey.horde, VenueKey.neutral]
  else [VenueKey.neutral]

/-- The time of the last dispatch of bidding for a venue. -/
def lastUpdate (st : UpdateState) (key : VenueKey) : Int :=
  match key with
  | VenueKey.alliance => st.lastUpdateAlliance
  | VenueKey.horde => st.lastUpdateHorde
  | VenueKey.neutral => st.lastUpdateNeutral

/-- The state of the tick with the last dispatches at 100, 940 and 1000. -/
def tickStart : UpdateState :=
  { lastUpdateAlliance := 100, lastUpdateHorde := 940, lastUpdateNeutral := 1000, calls := [] }

/-! ## Lemmas -/

theorem sample_sublist (bin : List Nat) : ∀ (n : Nat) (rng : List Nat),
    List.Sublist (sample bin n rng).1 bin := by
  induction bin with
  | nil => intro n rng; simp [sample]
  | cons x xs ih =>
    intro n rng
    unfold sample
    split_ifs with h0 h1
    · simp
    · exact List.Sublist.cons₂ x (ih _ _)
    · exact List.Sublist.cons x (ih _ _)

theorem sample_length (bin : List Nat) : ∀ (n : Nat) (rng : List Nat),
    (sample bin n rng).1.length = min n bin.length := by
  induction bin with
  | nil => intro n rng; simp [sample]
  | cons x xs ih =>
    intro n rng
    have hlt := Nat.mod_lt (draw rng).1 (show 0 < xs.length + 1 by omega)
    unfold sample
    split_ifs with h0 h1
    · simp [h0]
    · simp only [List.length_cons, ih]
      omega
    · rw [ih]
      simp only [List.length_cons]
      omega

theorem sample_nil (n : Nat) (rng : List Nat) : sample [] n rng = ([], rng) := by
  simp [sample]

theorem processItems_sublist (bot : Bot) (env : Env) (config : AHBConfig) (ids : List Nat) :
    ∀ (rng : List Nat) (host : List Bool),
      List.Sublist ((processItems bot env config ids rng host).1.map AuctionEntry.item_template) ids := by
  induction ids with
  | nil => intro rng host; simp [processItems]
  | cons x xs ih =>
    intro rng host
    unfold processItems
    split
    · exact List.Sublist.cons x (ih _ _)
    · by_cases h0 : (nextCreate host).1 = false
      · simp [h0]
      · rename_i prototype hp
        by_cases h1 : prototype.Quality ≤ env.AHB_MAX_DEFAULT_QUALITY
        · simp only [h0, h1, if_true, if_false, List.map_cons]
          exact List.Sublist.cons₂ x (ih _ _)
        · simp only [h0, h1, if_false]
          exact List.Sublist.cons x (ih _ _)

theorem processItems_length_le (bot : Bot) (env : Env) (config : AHBConfig) (ids : List Nat)
    (rng : List Nat) (host : List Bool) :
    (processItems bot env config ids rng host).1.length ≤ ids.length := by
  have h := (processItems_sublist bot env config ids rng host).length_le
  simpa using h

theorem accumulate_eq (a : Nat → Nat) : accumulate a = total a % 2 ^ 32 := by
  have h : ∀ n : Nat, (List.range n).foldl (fun acc i => (acc + a i) % 2 ^ 32) 0
      = (∑ i in Finset.range n, a i) % 2 ^ 32 := by
    intro n
    induction n with
    | zero => simp
    | succ k ih =>
      rw [List.range_succ, List.foldl_append, ih, Finset.sum_range_succ]
      simp [Nat.add_mod]
  exact h AHB_MAX_QUALITY

theorem deficits_eq (config : AHBConfig) (t : Nat) :
    deficits config t = config.maxCounts t - config.itemCounts t := by
  unfold deficits
  split_ifs with h
  · rfl
  · omega

theorem listingsOf_append (l₁ l₂ : List Batch) :
    listingsOf (l₁ ++ l₂) = listingsOf l₁ ++ listingsOf l₂ := by
  induction l₁ with
  | nil => simp [listingsOf]
  | cons b bs ih => simp [listingsOf, ih]

theorem listingsOf_eq_join (l : List Batch) :
    listingsOf l = (l.map Batch.auctionBatch).flatten := by
  induction l with
  | nil => simp [listingsOf]
  | cons b bs ih => simp [listingsOf, ih]

theorem sellerLoop_induct (bot : Bot) (env : Env) (config : AHBConfig) (P : SellerState → Prop)
    (hstep : ∀ st, P st → st.itemsToCreate ≠ 0 → P (iteration bot env config st)) :
    ∀ (fuel : Nat) (st st' : SellerState), P st →
      sellerLoop bot env config fuel st = some st' → P st' ∧ st'.itemsToCreate = 0 := by
  intro fuel
  induction fuel with
  | zero =>
    intro st st' hP h
    unfold sellerLoop at h
    split_ifs at h with h0
    cases h
    exact ⟨hP, h0⟩
  | succ k ih =>
    intro st st' hP h
    unfold sellerLoop at h
    split_ifs at h with h0
    · cases h
      exact ⟨hP, h0⟩
    · exact ih _ _ (hstep st hP h0) h

theorem sampleBatch_length_le (env : Env) (st : SellerState) (quality : Nat) :
    (sampleBatch env st quality).1.length ≤ st.itemsToCreate ∧
    (sampleBatch env st quality).1.length ≤ st.itemCountToCreate quality ∧
    (sampleBatch env st quality).1.length ≤ (env.GetItemBin quality).length := by
  unfold sampleBatch
  rw [sample_length]
  omega

theorem buildBatch_length_le (bot : Bot) (env : Env) (config : AHBConfig) (st : SellerState)
    (quality : Nat) :
    (buildBatch bot env config st quality).1.length ≤ (sampleBatch env st quality).1.length :=
  processItems_length_le bot env config _ _ _

theorem created_commitBatch (bot : Bot) (env : Env) (config : AHBConfig) (st : SellerState)
    (quality : Nat) :
    created (commitBatch bot env config st quality)
      = created st ++ (buildBatch bot env config st quality).1 := by
  simp [created, commitBatch, listingsOf_append, listingsOf]

theorem iteration_created_bound (bot : Bot) (env : Env) (config : AHBConfig) (st : SellerState) :
    (created (iteration bot env config st)).length + (iteration bot env config st).itemsToCreate
      ≤ (created st).length + st.itemsToCreate := by
  unfold iteration
  split
  · simp [created]
  · rename_i quality hq
    rw [created_commitBatch, List.length_append]
    have h1 := buildBatch_length_le bot env config st quality
    have h2 := sampleBatch_length_le env st quality
    simp only [commitBatch]
    omega

theorem createdInTier_append (st : SellerState) (b : Batch) (t : Nat) (st' : SellerState)
    (h : st'.committed = st.committed ++ [b]) :
    createdInTier st' t
      = createdInTier st t + (if b.quality = t then b.auctionBatch.length else 0) := by
  unfold createdInTier
  rw [h, List.filter_append, List.map_append, List.sum_append]
  by_cases hb : b.quality = t <;> simp [List.filter, hb]

theorem iteration_tier_bound (bot : Bot) (env : Env) (config : AHBConfig) (st : SellerState)
    (t : Nat) :
    createdInTier (iteration bot env config st) t + (iteration bot env config st).itemCountToCreate t
      ≤ createdInTier st t + st.itemCountToCreate t := by
  unfold iteration
  split
  · simp [createdInTier]
  · rename_i quality hq
    rw [createdInTier_append st _ t (commitBatch bot env config st quality) rfl]
    have h1 := buildBatch_length_le bot env config st quality
    have h2 := sampleBatch_length_le env st quality
    by_cases hqt : quality = t
    · subst hqt
      simp only [commitBatch, if_true, Function.update_same]
      omega
    · simp only [commitBatch, hqt, if_false, Function.update_noteq (Ne.symm hqt)]
      omega

theorem created_idle (config : AHBConfig) (rng : List Nat) (host : List Bool) :
    created (idle config rng host) = [] := rfl

theorem itemsToCreateCap_le (bot : Bot) (config : AHBConfig) (venue : Venue) :
    itemsToCreateCap bot config venue ≤ config.maxItems - venue.auctions := by
  unfold itemsToCreateCap
  split_ifs with h <;> omega

theorem itemsToCreateCap_eq (bot : Bot) (config : AHBConfig) (venue : Venue) :
    itemsToCreateCap bot config venue = min bot.ItemsPerCycle (config.maxItems - venue.auctions) := by
  unfold itemsToCreateCap
  split_ifs with h <;> omega

theorem total_deficits (config : AHBConfig) :
    total (deficits config)
      = ∑ t in Finset.range AHB_MAX_QUALITY, (config.maxCounts t - config.itemCounts t) := by
  unfold total
  exact Finset.sum_congr rfl (fun t _ => deficits_eq config t)

/-- The pass ends at once, in the state `idle`, when a guard fires. -/
theorem AddNewAuctions_guard (bot : Bot) (env : Env) (config : AHBConfig) (venue : Venue)
    (fuel : Nat) (rng : List Nat) (host : List Bool)
    (h : bot.AHBSeller = false ∨ config.maxItems = 0 ∨ venue.auctions ≥ config.minItems ∨
      venue.auctions ≥ config.maxItems) :
    AddNewAuctions bot env config venue fuel rng host = some (idle config rng host) := by
  unfold AddNewAuctions
  split_ifs <;> first | rfl | omega | simp_all

theorem pickIndex_bounds : ∀ (ws : List Nat) (u i j : Nat),
    pickIndex ws u i = some j → i ≤ j ∧ j < i + ws.length := by
  intro ws
  induction ws with
  | nil => intro u i j h; simp [pickIndex] at h
  | cons w ws ih =>
    intro u i j h
    unfold pickIndex at h
    split_ifs at h with hlt
    · cases h
      simp
    · have := ih _ _ _ h
      simp only [List.length_cons]
      omega

theorem discreteIndex_lt (w : Nat → Nat) (u : Nat) : discreteIndex w u < AHB_MAX_QUALITY := by
  unfold discreteIndex
  cases h : pickIndex (weightList w) u 0 with
  | none => simp [AHB_MAX_QUALITY]
  | some j =>
    have := (pickIndex_bounds _ _ _ _ h).2
    simpa [weightList] using this

theorem chooseQuality_some (d : Nat → Nat) (drawn q : Nat) (hd : drawn < AHB_MAX_QUALITY)
    (h : chooseQuality d drawn = some q) : d q ≠ 0 ∧ q < AHB_MAX_QUALITY := by
  unfold chooseQuality at h
  split_ifs at h with h0
  · unfold firstNonZero at h
    have h1 := List.find?_some h
    have h2 := List.mem_of_find?_eq_some h
    simp only [List.mem_range] at h2
    exact ⟨by simpa using h1, h2⟩
  · cases h
    exact ⟨h0, hd⟩

theorem chooseQuality_none (d : Nat → Nat) (drawn : Nat) (h : chooseQuality d drawn = none) :
    ∀ i, i < AHB_MAX_QUALITY → d i = 0 := by
  unfold chooseQuality at h
  split_ifs at h with h0
  unfold firstNonZero at h
  intro i hi
  have := List.find?_eq_none.mp h i (List.mem_range.mpr hi)
  simpa using this

theorem total_update (d : Nat → Nat) (q v : Nat) (hq : q < AHB_MAX_QUALITY) :
    total (Function.update d q v) + d q = total d + v := by
  unfold total
  have hmem : q ∈ Finset.range AHB_MAX_QUALITY := Finset.mem_range.mpr hq
  rw [Finset.sum_update_of_mem hmem, ← Finset.add_sum_erase _ d hmem]
  have : Finset.range AHB_MAX_QUALITY \ {q} = (Finset.range AHB_MAX_QUALITY).erase q := by
    ext x; simp [Finset.mem_sdiff, Finset.mem_erase, and_comm]
  rw [this]
  omega

theorem total_eq_zero (d : Nat → Nat) (h : ∀ i, i < AHB_MAX_QUALITY → d i = 0) : total d = 0 := by
  unfold total
  exact Finset.sum_eq_zero (fun i hi => h i (Finset.mem_range.mp hi))

theorem nextCreate_of_all (host : List Bool) (h : ∀ b ∈ host, b = true) :
    (nextCreate host).1 = true ∧ ∀ b ∈ (nextCreate host).2, b = true := by
  cases host with
  | nil => simp [nextCreate]
  | cons b rest =>
    simp only [nextCreate]
    exact ⟨h b (List.mem_cons_self _ _), fun c hc => h c (List.mem_cons_of_mem _ hc)⟩

theorem processItems_all (bot : Bot) (env : Env) (config : AHBConfig) (ids : List Nat) :
    ∀ (rng : List Nat) (host : List Bool), AllListable env ids → (∀ b ∈ host, b = true) →
      (processItems bot env config ids rng host).1.length = ids.length ∧
      ∀ b ∈ (processItems bot env config ids rng host).2.2, b = true := by
  induction ids with
  | nil => intro rng host _ hh; simpa [processItems] using hh
  | cons x xs ih =>
    intro rng host hall hh
    obtain ⟨p, hp, hq⟩ := hall x (List.mem_cons_self _ _)
    have hrest : AllListable env xs := fun id hid => hall id (List.mem_cons_of_mem _ hid)
    obtain ⟨hc1, hc2⟩ := nextCreate_of_all host hh
    unfold processItems
    simp only [hp, hc1, hq, if_true, Bool.true_eq_false, if_false, List.length_cons]
    have := ih (uniformInt 0 3 (calculatePrices env config p
      (if bot.SellMethod then p.BuyPrice else p.SellPrice)
      (calculateStackSize config p rng).2).2).2 (nextCreate host).2 hrest hc2
    exact ⟨by simpa using this.1, this.2⟩

theorem sellerLoop_exact (bot : Bot) (env : Env) (config : AHBConfig)
    (hitems : ∀ t, t < AHB_MAX_QUALITY → AllListable env (env.GetItemBin t)) :
    ∀ (fuel : Nat) (st : SellerState),
      st.itemsToCreate ≤ total st.itemCountToCreate →
      (∀ t, t < AHB_MAX_QUALITY → st.itemCountToCreate t ≤ (env.GetItemBin t).length) →
      (∀ b ∈ st.host, b = true) →
      st.itemsToCreate ≤ fuel →
      ∃ st', sellerLoop bot env config fuel st = some st' ∧
        (created st').length = (created st).length + st.itemsToCreate := by
  intro fuel
  induction fuel with
  | zero =>
    intro st _ _ _ hf
    have h0 : st.itemsToCreate = 0 := by omega
    exact ⟨st, by simp [sellerLoop, h0], by omega⟩
  | succ k ih =>
    intro st hsum hbin hhost hf
    by_cases h0 : st.itemsToCreate = 0
    · exact ⟨st, by simp [sellerLoop, h0], by omega⟩
    · have hloop : sellerLoop bot env config (k + 1) st
          = sellerLoop bot env config k (iteration bot env config st) := by
        simp [sellerLoop, h0]
      rw [hloop]
      cases hc : chooseQuality st.itemCountToCreate (discreteDraw st.randomQuality st.rng).1 with
      | none =>
        have := total_eq_zero _ (chooseQuality_none _ _ hc)
        omega
      | some q =>
        obtain ⟨hdq, hq⟩ := chooseQuality_some _ _ _ (discreteIndex_lt _ _) hc
        have hit : iteration bot env config st = commitBatch bot env config st q := by
          unfold iteration
          rw [hc]
        rw [hit]
        have hlen : (sampleBatch env st q).1.length
            = min st.itemsToCreate (st.itemCountToCreate q) := by
          unfold sampleBatch
          rw [sample_length]
          have := hbin q hq
          omega
        have hsub : AllListable env (sampleBatch env st q).1 := by
          intro id hid
          exact hitems q hq id ((sample_sublist _ _ _).subset hid)
        obtain ⟨hb1, hb2⟩ := processItems_all bot env config (sampleBatch env st q).1
          (sampleBatch env st q).2 st.host hsub hhost
        have hbuilt : (buildBatch bot env config st q).1.length
            = (sampleBatch env st q).1.length := hb1
        have htot := total_update st.itemCountToCreate q
          (st.itemCountToCreate q - (sampleBatch env st q).1.length) hq
        obtain ⟨st', hst', hcr⟩ := ih (commitBatch bot env config st q)
          (by simp only [commitBatch]; omega)
          (by
            intro t ht
            simp only [commitBatch]
            by_cases hqt : t = q
            · subst hqt
              simp only [Function.update_same]
              have := hbin t ht
              omega
            · simp only [Function.update_noteq hqt]
              exact hbin t ht)
          hb2
          (by simp only [commitBatch]; omega)
        refine ⟨st', hst', ?_⟩
        rw [hcr, created_commitBatch, List.length_append, hbuilt]
        simp only [commitBatch]
        omega

theorem catalog_size (env : Env) (h : CatalogWellFormed env) :
    ∑ t in Finset.range AHB_MAX_QUALITY, (env.GetItemBin t).length < 2 ^ 32 := by
  obtain ⟨hnd, hdis, hid⟩ := h
  have h1 : ∑ t in Finset.range AHB_MAX_QUALITY, (env.GetItemBin t).length
      = ((Finset.range AHB_MAX_QUALITY).biUnion (fun t => (env.GetItemBin t).toFinset)).card := by
    rw [Finset.card_biUnion]
    · apply Finset.sum_congr rfl
      intro t ht
      exact (List.toFinset_card_of_nodup (hnd t (Finset.mem_range.mp ht))).symm
    · intro s hs t ht hst
      rw [Finset.disjoint_left]
      intro a ha hb
      exact hdis s t (Finset.mem_range.mp hs) (Finset.mem_range.mp ht) hst
        (List.mem_toFinset.mp ha) (List.mem_toFinset.mp hb)
  have h2 : (Finset.range AHB_MAX_QUALITY).biUnion (fun t => (env.GetItemBin t).toFinset)
      ⊆ Finset.Ico 1 (2 ^ 32) := by
    intro a ha
    obtain ⟨t, ht, hat⟩ := Finset.mem_biUnion.mp ha
    have := hid t (Finset.mem_range.mp ht) a (List.mem_toFinset.mp hat)
    exact Finset.mem_Ico.mpr ⟨this.1, this.2⟩
  have h3 := Finset.card_le_card h2
  rw [Nat.card_Ico] at h3
  omega

theorem IncrementItemCounts_apply (env : Env) (counts : Nat → Nat) (a : AuctionEntry) (t : Nat) :
    IncrementItemCounts env counts a t
      = counts t + (if listingTier env a = some t then 1 else 0) := by
  unfold IncrementItemCounts listingTier
  cases h : env.GetItemTemplate a.item_template with
  | none => simp
  | some p =>
    simp only [IncreaseItemCounts, Option.map_some', Option.some.injEq]
    by_cases ht : tierOf env p = t
    · subst ht
      simp
    · simp [ht, Function.update_noteq (Ne.symm ht)]

theorem AddAuctions_apply (env : Env) (l : List AuctionEntry) :
    ∀ (counts : Nat → Nat) (t : Nat),
      AddAuctions env counts l t = counts t + countInTier env l t := by
  induction l with
  | nil => intro counts t; simp [AddAuctions, countInTier]
  | cons a l ih =>
    intro counts t
    have h := ih (IncrementItemCounts env counts a) t
    unfold AddAuctions at h ⊢
    rw [List.foldl_cons, h, IncrementItemCounts_apply]
    unfold countInTier
    by_cases ha : listingTier env a = some t
    · simp [List.filter, ha]; omega
    · simp [List.filter, ha]

theorem countInTier_append (env : Env) (l₁ l₂ : List AuctionEntry) (t : Nat) :
    countInTier env (l₁ ++ l₂) t = countInTier env l₁ t + countInTier env l₂ t := by
  simp [countInTier, List.filter_append]

theorem iteration_profile (bot : Bot) (env : Env) (config : AHBConfig) (st : SellerState)
    (base : Nat → Nat) (t : Nat)
    (h : st.profileCounts t = base t + countInTier env (created st) t) :
    (iteration bot env config st).profileCounts t
      = base t + countInTier env (created (iteration bot env config st)) t := by
  unfold iteration
  split
  · simpa [created] using h
  · rename_i quality hq
    rw [created_commitBatch, countInTier_append]
    simp only [commitBatch]
    rw [AddAuctions_apply, h]
    omega

theorem iteration_batches (bot : Bot) (env : Env) (config : AHBConfig) (st : SellerState)
    (h : ∀ b ∈ st.committed, BatchOk env b) :
    ∀ b ∈ (iteration bot env config st).committed, BatchOk env b := by
  unfold iteration
  cases hc : chooseQuality st.itemCountToCreate (discreteDraw st.randomQuality st.rng).1 with
  | none => simpa using h
  | some q =>
    obtain ⟨_, hq⟩ := chooseQuality_some _ _ _ (discreteIndex_lt _ _) hc
    intro b hb
    simp only [commitBatch, List.mem_append, List.mem_singleton] at hb
    rcases hb with hb | hb
    · exact h b hb
    · subst hb
      exact ⟨hq, sample_sublist _ _ _, processItems_sublist _ _ _ _ _ _⟩

theorem AddNewAuctions_batches (bot : Bot) (env : Env) (config : AHBConfig) (venue : Venue)
    (fuel : Nat) (rng : List Nat) (host : List Bool) (st : SellerState)
    (h : AddNewAuctions bot env config venue fuel rng host = some st) :
    ∀ b ∈ st.committed, BatchOk env b := by
  unfold AddNewAuctions at h
  split_ifs at h
  all_goals first
    | (cases h; simp [idle])
    | skip
  exact (sellerLoop_induct bot env config (fun s => ∀ b ∈ s.committed, BatchOk env b)
    (fun s hs _ => iteration_batches bot env config s hs) fuel _ st
    (by simp [loopEntry]) h).1

theorem countInTier_of_sorted (env : Env) (hcat : CatalogSorted env) (b : Batch)
    (hb : BatchOk env b) (t : Nat) :
    countInTier env b.auctionBatch t = if b.quality = t then b.auctionBatch.length else 0 := by
  have hall : ∀ a ∈ b.auctionBatch, listingTier env a = some b.quality := by
    intro a ha
    have h1 : a.item_template ∈ b.auctionBatch.map AuctionEntry.item_template :=
      List.mem_map_of_mem _ ha
    have h2 := hb.2.1.subset (hb.2.2.subset h1)
    obtain ⟨p, hp, hpt⟩ := hcat b.quality hb.1 _ h2
    simp [listingTier, hp, hpt]
  unfold countInTier
  by_cases hq : b.quality = t
  · rw [if_pos hq, List.filter_eq_self.mpr]
    intro a ha
    simp [hall a ha, hq]
  · rw [if_neg hq, List.filter_eq_nil_iff.mpr]
    · rfl
    · intro a ha
      simp [hall a ha, hq]

theorem countInTier_listingsOf (env : Env) (hcat : CatalogSorted env) (t : Nat) :
    ∀ (l : List Batch), (∀ b ∈ l, BatchOk env b) →
      countInTier env (listingsOf l) t
        = ((l.filter (fun b => b.quality = t)).map (fun b => b.auctionBatch.length)).sum := by
  intro l
  induction l with
  | nil => intro _; simp [listingsOf, countInTier]
  | cons b bs ih =>
    intro h
    have hb := h b (List.mem_cons_self _ _)
    have hbs := ih (fun c hc => h c (List.mem_cons_of_mem _ hc))
    rw [listingsOf, countInTier_append, hbs, countInTier_of_sorted env hcat b hb]
    by_cases hq : b.quality = t <;> simp [List.filter, hq]

theorem sellerLoop_starved (bot : Bot) (env : Env) (config : AHBConfig) :
    ∀ (fuel : Nat) (st : SellerState),
      st.itemsToCreate ≠ 0 →
      (∃ t, t < AHB_MAX_QUALITY ∧ st.itemCountToCreate t ≠ 0) →
      (∀ t, t < AHB_MAX_QUALITY → st.itemCountToCreate t ≠ 0 → env.GetItemBin t = []) →
      sellerLoop bot env config fuel st = none := by
  intro fuel
  induction fuel with
  | zero => intro st h0 _ _; simp [sellerLoop, h0]
  | succ k ih =>
    intro st h0 hex hbin
    have hloop : sellerLoop bot env config (k + 1) st
        = sellerLoop bot env config k (iteration bot env config st) := by
      simp [sellerLoop, h0]
    rw [hloop]
    cases hc : chooseQuality st.itemCountToCreate (discreteDraw st.randomQuality st.rng).1 with
    | none =>
      obtain ⟨t, ht, hne⟩ := hex
      exact absurd (chooseQuality_none _ _ hc t ht) hne
    | some q =>
      obtain ⟨hdq, hq⟩ := chooseQuality_some _ _ _ (discreteIndex_lt _ _) hc
      have hit : iteration bot env config st = commitBatch bot env config st q := by
        unfold iteration
        rw [hc]
      have hs : (sampleBatch env st q).1 = [] := by
        unfold sampleBatch
        rw [hbin q hq hdq, sample_nil]
      have hd : (commitBatch bot env config st q).itemCountToCreate = st.itemCountToCreate := by
        simp [commitBatch, hs]
      have hi : (commitBatch bot env config st q).itemsToCreate = st.itemsToCreate := by
        simp [commitBatch, hs]
      rw [hit]
      apply ih
      · rw [hi]; exact h0
      · rw [hd]; exact hex
      · rw [hd]; exact hbin

theorem pickIndex_isSome : ∀ (ws : List Nat) (u i : Nat), u < ws.sum →
    ∃ j, pickIndex ws u i = some j := by
  intro ws
  induction ws with
  | nil => intro u i h; simp at h
  | cons w ws ih =>
    intro u i h
    unfold pickIndex
    split_ifs with hlt
    · exact ⟨i, rfl⟩
    · apply ih
      simp only [List.sum_cons] at h
      omega

theorem pickIndex_countP : ∀ (ws : List Nat) (i j : Nat),
    (List.range ws.sum).countP (fun u => pickIndex ws u i = some j)
      = if i ≤ j then ws.getD (j - i) 0 else 0 := by
  intro ws
  induction ws with
  | nil => intro i j; simp
  | cons w ws ih =>
    intro i j
    rw [List.sum_cons, List.range_add, List.countP_append, List.countP_map]
    have h1 : (List.range w).countP (fun u => pickIndex (w :: ws) u i = some j)
        = if i = j then w else 0 := by
      by_cases hij : i = j
      · rw [if_pos hij]
        have : (List.range w).countP (fun u => pickIndex (w :: ws) u i = some j)
            = (List.range w).countP (fun _ => true) := by
          apply List.countP_congr
          intro u hu
          have hu' : u < w := List.mem_range.mp hu
          simp [pickIndex, hu', hij]
        rw [this, List.countP_true, List.length_range]
      · rw [if_neg hij]
        have : (List.range w).countP (fun u => pickIndex (w :: ws) u i = some j)
            = (List.range w).countP (fun _ => false) := by
          apply List.countP_congr
          intro u hu
          have hu' : u < w := List.mem_range.mp hu
          simp [pickIndex, hu', hij]
        rw [this, List.countP_false]
        rfl
    have h2 : (List.range ws.sum).countP
          ((fun u => decide (pickIndex (w :: ws) u i = some j)) ∘ fun x => w + x)
        = (List.range ws.sum).countP (fun u => pickIndex ws u (i + 1) = some j) := by
      apply List.countP_congr
      intro v _
      simp [pickIndex]
    rw [h1, h2, ih]
    by_cases hij : i = j
    · subst hij
      simp
    · by_cases hlt : i ≤ j
      · have h3 : j - i = (j - (i + 1)) + 1 := by omega
        have h4 : i + 1 ≤ j := by omega
        rw [if_neg hij, if_pos h4, if_pos hlt, h3]
        simp
      · have h4 : ¬ i + 1 ≤ j := by omega
        rw [if_neg hij, if_neg h4, if_neg hlt]

theorem weightList_getD (w : Nat → Nat) (i : Nat) (hi : i < AHB_MAX_QUALITY) :
    (weightList w).getD i 0 = w i := by
  simp [weightList, List.getD, List.getElem?_map, List.getElem?_range hi]

theorem weightList_sum (w : Nat → Nat) : (weightList w).sum = total w := by
  have h : ∀ n : Nat, ((List.range n).map w).sum = ∑ i in Finset.range n, w i := by
    intro n
    induction n with
    | zero => simp
    | succ k ih => rw [List.range_succ, List.map_append, List.sum_append, ih,
        Finset.sum_range_succ]; simp
  exact h AHB_MAX_QUALITY

theorem discreteIndex_count (w : Nat → Nat) (i : Nat) (hi : i < AHB_MAX_QUALITY) :
    ((List.range (weightList w).sum).filter (fun u => discreteIndex w u = i)).length = w i := by
  rw [← List.countP_eq_length_filter]
  have h : (List.range (weightList w).sum).countP (fun u => discreteIndex w u = i)
      = (List.range (weightList w).sum).countP
          (fun u => pickIndex (weightList w) u 0 = some i) := by
    apply List.countP_congr
    intro u hu
    obtain ⟨j, hj⟩ := pickIndex_isSome (weightList w) u 0 (List.mem_range.mp hu)
    simp [discreteIndex, hj]
  rw [h, pickIndex_countP]
  have := weightList_getD w i hi
  simpa using this

theorem tierProbability_eq (w : Nat → Nat) (i : Nat) (hi : i < AHB_MAX_QUALITY) :
    tierProbability w i = (w i : ℚ) / (total w : ℚ) := by
  unfold tierProbability
  rw [discreteIndex_count w i hi, weightList_sum]

theorem iteration_randomQuality (bot : Bot) (env : Env) (config : AHBConfig) (st : SellerState) :
    (iteration bot env config st).randomQuality = st.randomQuality := by
  unfold iteration
  split <;> rfl

theorem iterate_randomQuality (bot : Bot) (env : Env) (config : AHBConfig) (n : Nat)
    (st : SellerState) :
    ((iteration bot env config)^[n] st).randomQuality = st.randomQuality := by
  induction n generalizing st with
  | zero => rfl
  | succ k ih => rw [Function.iterate_succ_apply, ih, iteration_randomQuality]

theorem exampleEnv_listable (binSize : Nat) (ids : List Nat) :
    AllListable (exampleEnv binSize) ids := by
  intro id _
  refine ⟨exampleTemplate id, rfl, ?_⟩
  have := Nat.mod_lt (id / 100) (show 0 < 7 by omega)
  simp only [exampleTemplate, exampleEnv]
  omega

theorem exampleEnv_nodup (binSize t : Nat) : ((exampleEnv binSize).GetItemBin t).Nodup := by
  simp only [exampleEnv]
  apply List.Nodup.map
  · intro a b hab
    simp only at hab
    omega
  · exact List.nodup_range binSize

theorem AddNewAuctions_creates (bot : Bot) (env : Env) (config : AHBConfig) (venue : Venue)
    (fuel : Nat) (rng : List Nat) (host : List Bool)
    (hseller : bot.AHBSeller = true) (hmax : 0 < config.maxItems)
    (hentry : venue.ahEntry = true) (hhouse : venue.auctionHouse = true)
    (hmin : venue.auctions < config.minItems) (hroom : venue.auctions < config.maxItems)
    (hbins : ∀ t, t < AHB_MAX_QUALITY →
      config.maxCounts t - config.itemCounts t ≤ (env.GetItemBin t).length)
    (hitems : ∀ t, t < AHB_MAX_QUALITY → AllListable env (env.GetItemBin t))
    (hhost : ∀ b ∈ host, b = true)
    (hfuel : bot.ItemsPerCycle ≤ fuel) :
    ∃ st, AddNewAuctions bot env config venue fuel rng host = some st ∧
      (created st).length
        = min (min bot.ItemsPerCycle (config.maxItems - venue.auctions))
            ((∑ t in Finset.range AHB_MAX_QUALITY, (config.maxCounts t - config.itemCounts t))
              % 2 ^ 32) := by
  have hN : itemsToCreateInit bot config venue
      = min (min bot.ItemsPerCycle (config.maxItems - venue.auctions))
          ((∑ t in Finset.range AHB_MAX_QUALITY, (config.maxCounts t - config.itemCounts t))
            % 2 ^ 32) := by
    simp only [itemsToCreateInit, itemsToCreateCap_eq, accumulate_eq, total_deficits]
  rw [← hN]
  by_cases h0 : itemsToCreateInit bot config venue = 0
  · refine ⟨idle config rng host, ?_, by simp [created_idle, h0]⟩
    unfold AddNewAuctions
    simp [hseller, hentry, hhouse, h0, Nat.not_le.mpr hmin, Nat.not_le.mpr hroom,
      Nat.pos_iff_ne_zero.mp hmax]
  · have hrun : AddNewAuctions bot env config venue fuel rng host
        = sellerLoop bot env config fuel (loopEntry bot config venue rng host) := by
      unfold AddNewAuctions
      simp [hseller, hentry, hhouse, h0, Nat.not_le.mpr hmin, Nat.not_le.mpr hroom,
        Nat.pos_iff_ne_zero.mp hmax]
    rw [hrun]
    have hle : itemsToCreateInit bot config venue ≤ total (deficits config) := by
      have h1 : itemsToCreateInit bot config venue ≤ accumulate (deficits config) :=
        min_le_right _ _
      rw [accumulate_eq] at h1
      exact le_trans h1 (Nat.mod_le _ _)
    have hcap : itemsToCreateInit bot config venue ≤ bot.ItemsPerCycle := by
      have h1 : itemsToCreateInit bot config venue ≤ itemsToCreateCap bot config venue :=
        min_le_left _ _
      rw [itemsToCreateCap_eq] at h1
      exact le_trans h1 (min_le_left _ _)
    obtain ⟨st', hst', hcr⟩ := sellerLoop_exact bot env config hitems fuel
      (loopEntry bot config venue rng host) hle
      (by intro t ht; simp only [loopEntry, deficits_eq]; exact hbins t ht)
      hhost (le_trans hcap hfuel)
    exact ⟨st', hst', by simpa [loopEntry, created, listingsOf] using hcr⟩

theorem exampleEnv_wellFormed : CatalogWellFormed (exampleEnv 12) := by
  refine ⟨fun t _ => exampleEnv_nodup 12 t, ?_, ?_⟩
  · intro s t _ _ hst a ha hb
    simp only [exampleEnv, List.mem_map, List.mem_range] at ha hb
    obtain ⟨k, hk, rfl⟩ := ha
    obtain ⟨j, hj, hjk⟩ := hb
    omega
  · intro t ht id hid
    simp only [exampleEnv, List.mem_map, List.mem_range] at hid
    obtain ⟨k, hk, rfl⟩ := hid
    simp only [AHB_MAX_QUALITY] at ht
    omega


theorem iteration_oncePerTier (bot : Bot) (env : Env) (config : AHBConfig) (st : SellerState)
    (h : OncePerTier env st) (h0 : st.itemsToCreate ≠ 0) :
    OncePerTier env (iteration bot env config st) := by
  obtain ⟨hnd, hdone, hbin⟩ := h
  have hzero : ∀ b ∈ st.committed, st.itemCountToCreate b.quality = 0 := by
    rcases hdone with h1 | h1
    · exact absurd h1 h0
    · exact h1
  unfold iteration
  cases hc : chooseQuality st.itemCountToCreate (discreteDraw st.randomQuality st.rng).1 with
  | none => exact ⟨hnd, Or.inl rfl, hbin⟩
  | some q =>
    obtain ⟨hdq, hq⟩ := chooseQuality_some _ _ _ (discreteIndex_lt _ _) hc
    have hlen : (sampleBatch env st q).1.length
        = min st.itemsToCreate (st.itemCountToCreate q) := by
      unfold sampleBatch
      rw [sample_length]
      have := hbin q hq
      omega
    have hfresh : q ∉ st.committed.map Batch.quality := by
      intro hmem
      obtain ⟨b, hb, hbq⟩ := List.mem_map.mp hmem
      have := hzero b hb
      rw [hbq] at this
      exact hdq this
    refine ⟨?_, ?_, ?_⟩
    · simp only [commitBatch, List.map_append, List.map_cons, List.map_nil]
      rw [List.nodup_append]
      refine ⟨hnd, List.nodup_singleton q, ?_⟩
      intro a ha hb
      rw [List.mem_singleton] at hb
      subst hb
      exact hfresh ha
    · by_cases hcase : st.itemsToCreate ≤ st.itemCountToCreate q
      · left
        simp only [commitBatch]
        omega
      · right
        intro b hb
        simp only [commitBatch, List.mem_append, List.mem_singleton] at hb ⊢
        rcases hb with hb | hb
        · by_cases hbq : b.quality = q
          · rw [hbq, Function.update_same]
            omega
          · rw [Function.update_noteq hbq]
            exact hzero b hb
        · subst hb
          simp only [Function.update_same]
          omega
    · intro t ht
      simp only [commitBatch]
      by_cases hqt : t = q
      · subst hqt
        simp only [Function.update_same]
        have := hbin t ht
        omega
      · simp only [Function.update_noteq hqt]
        exact hbin t ht

theorem listingsOf_mem_bin (env : Env) : ∀ (l : List Batch), (∀ b ∈ l, BatchOk env b) →
    ∀ id ∈ (listingsOf l).map AuctionEntry.item_template,
      ∃ b ∈ l, id ∈ env.GetItemBin b.quality := by
  intro l
  induction l with
  | nil => intro _ id hid; simp [listingsOf] at hid
  | cons b bs ih =>
    intro h id hid
    rw [listingsOf, List.map_append, List.mem_append] at hid
    rcases hid with hid | hid
    · have hb := h b (List.mem_cons_self _ _)
      exact ⟨b, List.mem_cons_self _ _, hb.2.1.subset (hb.2.2.subset hid)⟩
    · obtain ⟨c, hc, hcid⟩ := ih (fun c hc => h c (List.mem_cons_of_mem _ hc)) id hid
      exact ⟨c, List.mem_cons_of_mem _ hc, hcid⟩

theorem listingsOf_nodup (env : Env)
    (hbins : ∀ t, t < AHB_MAX_QUALITY → (env.GetItemBin t).Nodup)
    (hdis : ∀ s t, s < AHB_MAX_QUALITY → t < AHB_MAX_QUALITY → s ≠ t →
      List.Disjoint (env.GetItemBin s) (env.GetItemBin t)) :
    ∀ (l : List Batch), (∀ b ∈ l, BatchOk env b) → (l.map Batch.quality).Nodup →
      ((listingsOf l).map AuctionEntry.item_template).Nodup := by
  intro l
  induction l with
  | nil => intro _ _; simp [listingsOf]
  | cons b bs ih =>
    intro h hnd
    have hb := h b (List.mem_cons_self _ _)
    have hbs : ∀ c ∈ bs, BatchOk env c := fun c hc => h c (List.mem_cons_of_mem _ hc)
    rw [List.map_cons, List.nodup_cons] at hnd
    rw [listingsOf, List.map_append, List.nodup_append]
    refine ⟨((hbins b.quality hb.1).sublist hb.2.1).sublist hb.2.2, ih hbs hnd.2, ?_⟩
    intro id h1 h2
    obtain ⟨c, hc, hcid⟩ := listingsOf_mem_bin env bs hbs id h2
    have hne : b.quality ≠ c.quality := by
      intro heq
      exact hnd.1 (heq ▸ List.mem_map_of_mem Batch.quality hc)
    exact hdis b.quality c.quality hb.1 (hbs c hc).1 hne
      (hb.2.1.subset (hb.2.2.subset h1)) hcid

theorem AddNewAuctions_oncePerTier (bot : Bot) (env : Env) (config : AHBConfig) (venue : Venue)
    (fuel : Nat) (rng : List Nat) (host : List Bool) (st : SellerState)
    (hfit : ∀ t, t < AHB_MAX_QUALITY →
      config.maxCounts t - config.itemCounts t ≤ (env.GetItemBin t).length)
    (h : AddNewAuctions bot env config venue fuel rng host = some st) :
    (st.committed.map Batch.quality).Nodup := by
  unfold AddNewAuctions at h
  split_ifs at h
  all_goals first
    | (cases h; simp [idle])
    | skip
  exact (sellerLoop_induct bot env config (OncePerTier env)
    (fun s hs h0 => iteration_oncePerTier bot env config s hs h0) fuel _ st
    ⟨by simp [loopEntry], Or.inr (by simp [loopEntry]),
      by intro t ht; simp only [loopEntry, deficits_eq]; exact hfit t ht⟩ h).1.1

/-- The array `itemsCount` is the pass's own copy of the profile's counters: a trip adds
the number of sampled identifiers to the entry of its tier in that copy, whether or not
every identifier yields a listing. -/
theorem commitBatch_itemsCount (bot : Bot) (env : Env) (config : AHBConfig) (st : SellerState)
    (quality : Nat) :
    (commitBatch bot env config st quality).itemsCount quality
      = (st.itemsCount quality + (sampleBatch env st quality).1.length) % 2 ^ 32 ∧
    (buildBatch bot env config st quality).1.length ≤ (sampleBatch env st quality).1.length := by
  exact ⟨by simp [commitBatch], buildBatch_length_le bot env config st quality⟩

/-! ## The claims -/

/-- C1 (as stated) fails: with `maxItems = 10` and 50 listings in the venue the pass ends
at the guard, and 50 + 0 is not at most 10. -/
theorem C1_counterexample :
    ∃ st, AddNewAuctions exampleBot (exampleEnv 12) overfullConfig (exampleVenue 50) 0 [] []
        = some st ∧
      ¬ ((exampleVenue 50).auctions + (created st).length ≤ overfullConfig.maxItems) :=
  ⟨_, rfl, by decide⟩

/-- C1 (amended): a pass that ends has created at most `maxItems - auctions` listings
(none when the venue already holds `maxItems` listings or more); so a venue that held at
most `maxItems` listings before the pass holds at most `maxItems` after it. -/
theorem C1_created_within_room (bot : Bot) (env : Env) (config : AHBConfig) (venue : Venue)
    (fuel : Nat) (rng : List Nat) (host : List Bool) (st : SellerState)
    (h : AddNewAuctions bot env config venue fuel rng host = some st) :
    (created st).length ≤ config.maxItems - venue.auctions ∧
    (venue.auctions ≤ config.maxItems →
      venue.auctions + (created st).length ≤ config.maxItems) := by
  have key : (created st).length ≤ config.maxItems - venue.auctions := by
    unfold AddNewAuctions at h
    split_ifs at h
    all_goals first
      | (cases h; simp [created_idle])
      | skip
    have hres := sellerLoop_induct bot env config
      (fun s => (created s).length + s.itemsToCreate ≤ config.maxItems - venue.auctions)
      (fun s hs _ => le_trans (iteration_created_bound bot env config s) hs)
      fuel _ st
      (by
        have h1 := itemsToCreateCap_le bot config venue
        have h2 : itemsToCreateInit bot config venue ≤ itemsToCreateCap bot config venue :=
          min_le_left _ _
        simp only [loopEntry, created, listingsOf, List.length_nil]
        omega) h
    have := hres.1
    simp only at this
    omega
  exact ⟨key, fun hle => by omega⟩

theorem C1_created_within_room_witness :
    AddNewAuctions exampleBot (exampleEnv 12) scenarioConfig (exampleVenue 90) 20 [7] []
      = some scenarioEnd ∧
    (created scenarioEnd).length ≤ scenarioConfig.maxItems - (exampleVenue 90).auctions ∧
    (created scenarioEnd).length = 10 :=
  ⟨by rfl, (C1_created_within_room exampleBot (exampleEnv 12) scenarioConfig (exampleVenue 90)
    20 [7] [] scenarioEnd (by rfl)).1, by rfl⟩

/-- C2 (as stated) fails: two targets of 2^31 over empty tiers give deficits whose sum,
taken by `std::accumulate` in `unsigned int`, is 0, so the pass sets out to create
nothing, where min(200, 2^32 - 1, 2^32) is 200. -/
theorem C2_counterexample :
    exampleBot.AHBSeller = true ∧ 0 < overflowConfig.maxItems ∧
    (exampleVenue 0).auctions < overflowConfig.minItems ∧
    (exampleVenue 0).auctions < overflowConfig.maxItems ∧
    (loopEntry exampleBot overflowConfig (exampleVenue 0) [] []).itemsToCreate = 0 ∧
    min (min exampleBot.ItemsPerCycle (overflowConfig.maxItems - (exampleVenue 0).auctions))
      (∑ t in Finset.range AHB_MAX_QUALITY,
        (overflowConfig.maxCounts t - overflowConfig.itemCounts t)) = 200 := by
  refine ⟨rfl, by decide, by decide, by decide, by decide, ?_⟩
  decide

/-- C2 (amended): past the guards, the number of listings the pass sets out to create is
the least of `ItemsPerCycle`, `maxItems - auctions` and the sum of the tier deficits
`max(0, target - count)` taken in 32-bit unsigned arithmetic; when it is zero the pass
ends at once with nothing created, otherwise the loop is entered with it. -/
theorem C2_itemsToCreate (bot : Bot) (env : Env) (config : AHBConfig) (venue : Venue)
    (fuel : Nat) (rng : List Nat) (host : List Bool)
    (hseller : bot.AHBSeller = true) (hmax : 0 < config.maxItems)
    (hentry : venue.ahEntry = true) (hhouse : venue.auctionHouse = true)
    (hmin : venue.auctions < config.minItems) (hroom : venue.auctions < config.maxItems) :
    (loopEntry bot config venue rng host).itemsToCreate
      = min (min bot.ItemsPerCycle (config.maxItems - venue.auctions))
          ((∑ t in Finset.range AHB_MAX_QUALITY, (config.maxCounts t - config.itemCounts t))
            % 2 ^ 32) ∧
    ((loopEntry bot config venue rng host).itemsToCreate = 0 →
      AddNewAuctions bot env config venue fuel rng host = some (idle config rng host) ∧
      created (idle config rng host) = []) ∧
    ((loopEntry bot config venue rng host).itemsToCreate ≠ 0 →
      AddNewAuctions bot env config venue fuel rng host
        = sellerLoop bot env config fuel (loopEntry bot config venue rng host)) := by
  refine ⟨?_, ?_, ?_⟩
  · simp only [loopEntry, itemsToCreateInit, itemsToCreateCap_eq, accumulate_eq, total_deficits]
  · intro h0
    refine ⟨?_, rfl⟩
    simp only [loopEntry] at h0
    unfold AddNewAuctions
    simp [hseller, hentry, hhouse, h0, Nat.not_le.mpr hmin, Nat.not_le.mpr hroom,
      Nat.pos_iff_ne_zero.mp hmax]
  · intro h0
    simp only [loopEntry] at h0
    unfold AddNewAuctions
    simp [hseller, hentry, hhouse, h0, Nat.not_le.mpr hmin, Nat.not_le.mpr hroom,
      Nat.pos_iff_ne_zero.mp hmax]

theorem C2_itemsToCreate_witness :
    (exampleVenue 90).auctions < scenarioConfig.minItems ∧
    (exampleVenue 90).auctions < scenarioConfig.maxItems ∧
    (loopEntry exampleBot scenarioConfig (exampleVenue 90) [7] []).itemsToCreate = 10 ∧
    (loopEntry exampleBot scenarioConfig (exampleVenue 90) [7] []).itemsToCreate
      = min (min exampleBot.ItemsPerCycle
          (scenarioConfig.maxItems - (exampleVenue 90).auctions))
          ((∑ t in Finset.range AHB_MAX_QUALITY,
            (scenarioConfig.maxCounts t - scenarioConfig.itemCounts t)) % 2 ^ 32) :=
  ⟨by decide, by decide, by decide,
    (C2_itemsToCreate exampleBot (exampleEnv 12) scenarioConfig (exampleVenue 90) 20 [7] []
      rfl (by decide) rfl rfl (by decide) (by decide)).1⟩

/-- C3: when the seller is disabled, or `maxItems` is zero, or the venue holds at least
`minItems` listings, or at least `maxItems`, the pass ends at once, whatever the fuel,
having created no listing and committed no transaction, with the occupancy counters of
the profile as they were. -/
theorem C3_guards_create_nothing (bot : Bot) (env : Env) (config : AHBConfig) (venue : Venue)
    (fuel : Nat) (rng : List Nat) (host : List Bool)
    (h : bot.AHBSeller = false ∨ config.maxItems = 0 ∨ venue.auctions ≥ config.minItems ∨
      venue.auctions ≥ config.maxItems) :
    ∃ st, AddNewAuctions bot env config venue fuel rng host = some st ∧
      created st = [] ∧ transactions st = [] ∧ st.profileCounts = config.itemCounts :=
  ⟨idle config rng host, AddNewAuctions_guard bot env config venue fuel rng host h, rfl, rfl, rfl⟩

theorem C3_guards_create_nothing_witness :
    (exampleVenue 97).auctions ≥ scenarioConfig.minItems ∧
    ∃ st, AddNewAuctions exampleBot (exampleEnv 12) scenarioConfig (exampleVenue 97) 0 [7] []
        = some st ∧
      created st = [] ∧ transactions st = [] ∧ st.profileCounts = scenarioConfig.itemCounts :=
  ⟨by decide, C3_guards_create_nothing exampleBot (exampleEnv 12) scenarioConfig
    (exampleVenue 97) 0 [7] [] (Or.inr (Or.inr (Or.inl (by decide))))⟩

/-- C4 (as stated) fails: every bin holds 12 identifiers, no tier lacks more than 10
listings and every identifier yields a listing, but the venue holds 97 listings, which
is not below `minItems` = 95: the pass returns at that guard and creates nothing, where
min(`ItemsPerCycle`, `maxItems - auctions`, sum of the deficits) = min(200, 3, 15) = 3. -/
theorem C4_counterexample :
    (∀ t, t < AHB_MAX_QUALITY →
      scenarioConfig.maxCounts t - scenarioConfig.itemCounts t
        ≤ ((exampleEnv 12).GetItemBin t).length) ∧
    (∀ t, t < AHB_MAX_QUALITY → AllListable (exampleEnv 12) ((exampleEnv 12).GetItemBin t)) ∧
    AddNewAuctions exampleBot (exampleEnv 12) scenarioConfig (exampleVenue 97) 200 [7] []
      = some (idle scenarioConfig [7] []) ∧
    (created (idle scenarioConfig [7] [])).length = 0 ∧
    min (min exampleBot.ItemsPerCycle (scenarioConfig.maxItems - (exampleVenue 97).auctions))
      (∑ t in Finset.range AHB_MAX_QUALITY,
        (scenarioConfig.maxCounts t - scenarioConfig.itemCounts t)) = 3 :=
  ⟨by decide, fun _ _ => exampleEnv_listable 12 _, by rfl, by rfl, by decide⟩

/-- C4 (amended): for a pass that gets past the guards (seller enabled, `maxItems` not
zero, venue found, fewer listings than `minItems` and than `maxItems`), over a catalog
that is a partition of nonzero 32-bit identifiers, when every bin holds at least as many
identifiers as the deficit of its tier, every identifier of a bin has a definition of a
supported quality, and every item creation succeeds, the pass ends (a fuel of
`ItemsPerCycle` suffices) and creates exactly
min(`ItemsPerCycle`, `maxItems - auctions`, sum of the deficits) listings. -/
theorem C4_creates_exactly (bot : Bot) (env : Env) (config : AHBConfig) (venue : Venue)
    (fuel : Nat) (rng : List Nat) (host : List Bool)
    (hseller : bot.AHBSeller = true) (hmax : 0 < config.maxItems)
    (hentry : venue.ahEntry = true) (hhouse : venue.auctionHouse = true)
    (hmin : venue.auctions < config.minItems) (hroom : venue.auctions < config.maxItems)
    (hcat : CatalogWellFormed env)
    (hbins : ∀ t, t < AHB_MAX_QUALITY →
      config.maxCounts t - config.itemCounts t ≤ (env.GetItemBin t).length)
    (hitems : ∀ t, t < AHB_MAX_QUALITY → AllListable env (env.GetItemBin t))
    (hhost : ∀ b ∈ host, b = true)
    (hfuel : bot.ItemsPerCycle ≤ fuel) :
    ∃ st, AddNewAuctions bot env config venue fuel rng host = some st ∧
      (created st).length
        = min (min bot.ItemsPerCycle (config.maxItems - venue.auctions))
            (∑ t in Finset.range AHB_MAX_QUALITY, (config.maxCounts t - config.itemCounts t)) := by
  have hsmall : (∑ t in Finset.range AHB_MAX_QUALITY, (config.maxCounts t - config.itemCounts t))
      < 2 ^ 32 :=
    lt_of_le_of_lt
      (Finset.sum_le_sum (fun t ht => hbins t (Finset.mem_range.mp ht)))
      (catalog_size env hcat)
  obtain ⟨st, hst, hlen⟩ := AddNewAuctions_creates bot env config venue fuel rng host
    hseller hmax hentry hhouse hmin hroom hbins hitems hhost hfuel
  rw [Nat.mod_eq_of_lt hsmall] at hlen
  exact ⟨st, hst, hlen⟩

theorem C4_creates_exactly_witness :
    CatalogWellFormed (exampleEnv 12) ∧
    (∀ t, t < AHB_MAX_QUALITY →
      scenarioConfig.maxCounts t - scenarioConfig.itemCounts t
        ≤ ((exampleEnv 12).GetItemBin t).length) ∧
    (∀ t, t < AHB_MAX_QUALITY → AllListable (exampleEnv 12) ((exampleEnv 12).GetItemBin t)) ∧
    ∃ st, AddNewAuctions exampleBot (exampleEnv 12) scenarioConfig (exampleVenue 90) 200 [7] []
        = some st ∧ (created st).length = 10 :=
  ⟨exampleEnv_wellFormed, by decide, fun _ _ => exampleEnv_listable 12 _,
    (C4_creates_exactly exampleBot (exampleEnv 12) scenarioConfig (exampleVenue 90) 200 [7] []
      rfl (by decide) rfl rfl (by decide) (by decide) exampleEnv_wellFormed (by decide)
      (fun _ _ => exampleEnv_listable 12 _) (by simp) (by decide)).imp
      (fun _ h => ⟨h.1, h.2.trans (by decide)⟩)⟩

/-- C5: in a pass that ends, the number of listings created from the bin of a tier is at
most the deficit the tier had when the pass began, `max(0, target - count)`; so a tier
that was at or below its target before the pass is not above it after the pass. -/
theorem C5_tier_within_deficit (bot : Bot) (env : Env) (config : AHBConfig) (venue : Venue)
    (fuel : Nat) (rng : List Nat) (host : List Bool) (st : SellerState)
    (h : AddNewAuctions bot env config venue fuel rng host = some st) (t : Nat) :
    createdInTier st t ≤ config.maxCounts t - config.itemCounts t ∧
    (config.itemCounts t ≤ config.maxCounts t →
      config.itemCounts t + createdInTier st t ≤ config.maxCounts t) := by
  have key : createdInTier st t ≤ config.maxCounts t - config.itemCounts t := by
    unfold AddNewAuctions at h
    split_ifs at h
    all_goals first
      | (cases h; simp [createdInTier, idle])
      | skip
    have hres := sellerLoop_induct bot env config
      (fun s => createdInTier s t + s.itemCountToCreate t
        ≤ config.maxCounts t - config.itemCounts t)
      (fun s hs _ => le_trans (iteration_tier_bound bot env config s t) hs)
      fuel _ st
      (by simp [loopEntry, createdInTier, deficits_eq]) h
    have := hres.1
    simp only at this
    omega
  exact ⟨key, fun hle => by omega⟩

theorem C5_tier_within_deficit_witness :
    AddNewAuctions exampleBot (exampleEnv 12) roomyConfig (exampleVenue 85) 20 [7] []
      = some (iteration exampleBot (exampleEnv 12) roomyConfig roomyMid) ∧
    createdInTier (iteration exampleBot (exampleEnv 12) roomyConfig roomyMid) 3
      ≤ roomyConfig.maxCounts 3 - roomyConfig.itemCounts 3 ∧
    createdInTier (iteration exampleBot (exampleEnv 12) roomyConfig roomyMid) 3 = 10 ∧
    createdInTier (iteration exampleBot (exampleEnv 12) roomyConfig roomyMid) 1 = 5 :=
  ⟨by rfl, (C5_tier_within_deficit exampleBot (exampleEnv 12) roomyConfig (exampleVenue 85)
    20 [7] [] _ (by rfl) 3).1, by rfl, by rfl⟩

/-- C6: after a pass that ends, the occupancy counter of every tier of the venue profile
has grown by exactly the number of listings the pass created whose backing item
classifies into that tier, and is unchanged for a tier with no such listing; for a
catalog whose bins follow the classification this is the number of listings created
from the bin of the tier. -/
theorem C6_occupancy_counters (bot : Bot) (env : Env) (config : AHBConfig) (venue : Venue)
    (fuel : Nat) (rng : List Nat) (host : List Bool) (st : SellerState)
    (h : AddNewAuctions bot env config venue fuel rng host = some st) (t : Nat) :
    st.profileCounts t = config.itemCounts t + countInTier env (created st) t ∧
    (countInTier env (created st) t = 0 → st.profileCounts t = config.itemCounts t) ∧
    (CatalogSorted env → st.profileCounts t = config.itemCounts t + createdInTier st t) := by
  have key : st.profileCounts t = config.itemCounts t + countInTier env (created st) t := by
    have h' := h
    unfold AddNewAuctions at h'
    split_ifs at h'
    all_goals first
      | (cases h'; simp [idle, created, listingsOf, countInTier])
      | skip
    exact (sellerLoop_induct bot env config
      (fun s => s.profileCounts t = config.itemCounts t + countInTier env (created s) t)
      (fun s hs _ => iteration_profile bot env config s config.itemCounts t hs) fuel _ st
      (by simp [loopEntry, created, listingsOf, countInTier]) h').1
  refine ⟨key, fun h0 => by omega, fun hcat => ?_⟩
  rw [key]
  unfold created createdInTier
  rw [countInTier_listingsOf env hcat t _
    (AddNewAuctions_batches bot env config venue fuel rng host st h)]

theorem C6_occupancy_counters_witness :
    AddNewAuctions exampleBot (exampleEnv 12) scenarioConfig (exampleVenue 90) 20 [7] []
      = some scenarioEnd ∧
    scenarioEnd.profileCounts 3
      = scenarioConfig.itemCounts 3 + countInTier (exampleEnv 12) (created scenarioEnd) 3 ∧
    scenarioEnd.profileCounts 3 = 10 ∧ scenarioEnd.profileCounts 8 = 90 :=
  ⟨by rfl, (C6_occupancy_counters exampleBot (exampleEnv 12) scenarioConfig (exampleVenue 90)
    20 [7] [] scenarioEnd (by rfl) 3).1, by rfl, by rfl⟩

theorem insertAuctions_eq (auctionBatch : List AuctionEntry) :
    insertAuctions auctionBatch
      = auctionBatch.flatMap (fun a => [Write.item a, Write.auction a]) := by
  have h : ∀ (l : List AuctionEntry) (acc : List Write),
      l.foldl (fun trans a => trans ++ [Write.item a, Write.auction a]) acc
        = acc ++ l.flatMap (fun a => [Write.item a, Write.auction a]) := by
    intro l
    induction l with
    | nil => intro acc; simp
    | cons x xs ih =>
      intro acc
      rw [List.foldl_cons, ih]
      simp
  simpa [insertAuctions] using h auctionBatch []

theorem iteration_database (bot : Bot) (env : Env) (config : AHBConfig) (st : SellerState)
    (h : st.database = st.committed.map (fun b => insertAuctions b.auctionBatch)) :
    (iteration bot env config st).database
      = (iteration bot env config st).committed.map (fun b => insertAuctions b.auctionBatch) := by
  unfold iteration
  cases hc : chooseQuality st.itemCountToCreate (discreteDraw st.randomQuality st.rng).1 with
  | none => simpa using h
  | some q => simp [commitBatch, h]

theorem AddNewAuctions_database (bot : Bot) (env : Env) (config : AHBConfig) (venue : Venue)
    (fuel : Nat) (rng : List Nat) (host : List Bool) (st : SellerState)
    (h : AddNewAuctions bot env config venue fuel rng host = some st) :
    st.database = st.committed.map (fun b => insertAuctions b.auctionBatch) := by
  unfold AddNewAuctions at h
  split_ifs at h
  all_goals first
    | (cases h; simp [idle])
    | skip
  exact (sellerLoop_induct bot env config
    (fun s => s.database = s.committed.map (fun b => insertAuctions b.auctionBatch))
    (fun s hs _ => iteration_database bot env config s hs) fuel _ st
    (by simp [loopEntry]) h).1

theorem flatten_insertAuctions (l : List Batch) :
    (l.map (fun b => insertAuctions b.auctionBatch)).flatten
      = (listingsOf l).flatMap (fun a => [Write.item a, Write.auction a]) := by
  induction l with
  | nil => simp [listingsOf]
  | cons b bs ih =>
    simp only [List.map_cons, List.flatten_cons, listingsOf, List.flatMap_append]
    rw [ih, insertAuctions_eq]

/-- C7 (as stated) fails: with deficits 5 and 10 in two tiers and room for 15 listings the
pass makes two trips and commits two transactions to the database, one with the 20 rows
of 10 listings and their items and one with the 10 rows of 5 listings and their items;
neither holds the 15 listings of the pass. -/
theorem C7_counterexample :
    ∃ st, AddNewAuctions exampleBot (exampleEnv 12) roomyConfig (exampleVenue 85) 20 [7] []
        = some st ∧
      st.database.map List.length = [20, 10] ∧
      st.committed.map (fun b => b.auctionBatch.length) = [10, 5] ∧
      (created st).length = 15 :=
  ⟨_, by rfl, by rfl, by rfl, by rfl⟩

/-- C7 (amended): every completed trip through the loop body commits exactly one
transaction, after the batch of that trip has been built, and that transaction holds,
for every listing of the trip and for no other, the row of its backing item and the row
of the listing; a pass that ends has committed one transaction per completed trip, in
order, and the rows of the pass are the row of the item and the row of the listing of
each listing it has created, each in the transaction of its trip. -/
theorem C7_one_transaction_per_trip (bot : Bot) (env : Env) (config : AHBConfig) (venue : Venue)
    (fuel : Nat) (rng : List Nat) (host : List Bool) (st : SellerState)
    (h : AddNewAuctions bot env config venue fuel rng host = some st) :
    st.database
      = st.committed.map (fun b =>
          b.auctionBatch.flatMap (fun a => [Write.item a, Write.auction a])) ∧
    st.database.length = st.committed.length ∧
    st.database.flatten = (created st).flatMap (fun a => [Write.item a, Write.auction a]) ∧
    (∀ b ∈ st.committed, b.quality < AHB_MAX_QUALITY ∧
      List.Sublist (b.auctionBatch.map AuctionEntry.item_template) (env.GetItemBin b.quality)) ∧
    (∀ s q, (commitBatch bot env config s q).database
      = s.database ++ [(buildBatch bot env config s q).1.flatMap
          (fun a => [Write.item a, Write.auction a])]) := by
  have hdb := AddNewAuctions_database bot env config venue fuel rng host st h
  refine ⟨?_, ?_, ?_, ?_, ?_⟩
  · rw [hdb]
    exact List.map_congr_left (fun b _ => insertAuctions_eq b.auctionBatch)
  · rw [hdb, List.length_map]
  · rw [hdb, flatten_insertAuctions]
    rfl
  · intro b hb
    have := AddNewAuctions_batches bot env config venue fuel rng host st h b hb
    exact ⟨this.1, this.2.2.trans this.2.1⟩
  · intro s q
    simp [commitBatch, insertAuctions_eq]

theorem C7_one_transaction_per_trip_witness :
    AddNewAuctions exampleBot (exampleEnv 12) scenarioConfig (exampleVenue 90) 20 [7] []
      = some scenarioEnd ∧
    scenarioEnd.database
      = scenarioEnd.committed.map (fun b =>
          b.auctionBatch.flatMap (fun a => [Write.item a, Write.auction a])) ∧
    scenarioEnd.database.map List.length = [20] ∧
    (created scenarioEnd).length = 10 :=
  ⟨by rfl, (C7_one_transaction_per_trip exampleBot (exampleEnv 12) scenarioConfig
    (exampleVenue 90) 20 [7] [] scenarioEnd (by rfl)).1, by rfl, by rfl⟩

/-- C8 (the code at the failing input): bin 6 is the only tier with a deficit and its bin
is empty; whatever the generator yields and however long the loop runs, the pass has
not ended. -/
theorem C8_starved_pass_never_ends (fuel : Nat) (rng : List Nat) (host : List Bool) :
    AddNewAuctions exampleBot starvedEnv yellowConfig (exampleVenue 90) fuel rng host = none := by
  have h0 : itemsToCreateInit exampleBot yellowConfig (exampleVenue 90) ≠ 0 := by decide
  have h1 : ∃ t, t < AHB_MAX_QUALITY ∧ deficits yellowConfig t ≠ 0 := ⟨6, by decide, by decide⟩
  have h2 : ∀ t, t < AHB_MAX_QUALITY → deficits yellowConfig t ≠ 0 →
      starvedEnv.GetItemBin t = [] := by decide
  unfold AddNewAuctions
  rw [if_neg (by decide), if_neg (by decide), if_neg (by decide), if_neg (by decide),
    if_neg (by decide), if_neg (by decide), if_neg h0]
  exact sellerLoop_starved exampleBot starvedEnv yellowConfig fuel _ h0 h1 h2

/-- C9 (as stated) fails: with deficits [0, 5, 0, 10] and room for 15 listings, the first
trip fills tier 3; at the second draw (`itemsToCreate` is 5) the remaining deficits are
[0, 5, 0, 0], but the weights are still [0, 5, 0, 10]: tier 3 is drawn with probability
2/3, not 0. -/
theorem C9_counterexample :
    roomyMid.itemsToCreate = 5 ∧ roomyMid.itemCountToCreate 3 = 0 ∧
    roomyMid.randomQuality 3 = 10 ∧ tierProbability roomyMid.randomQuality 3 = 2 / 3 := by
  refine ⟨by rfl, by rfl, by rfl, ?_⟩
  rw [tierProbability_eq _ 3 (by decide)]
  have h1 : roomyMid.randomQuality 3 = 10 := by rfl
  have h2 : total roomyMid.randomQuality = 15 := by
    unfold roomyMid
    rw [iteration_randomQuality]
    decide
  rw [h1, h2]
  norm_num

/-- C9 (amended): the weights of the weighted choice are the deficits the tiers had when
the pass began (the distribution is built once, before the loop), at every draw of the
loop; they are the remaining deficits at the first draw; and tier `i` is drawn with
probability initial deficit of `i` over the sum of the initial deficits. -/
theorem C9_weights_are_initial_deficits (bot : Bot) (env : Env) (config : AHBConfig)
    (venue : Venue) (rng : List Nat) (host : List Bool) (n i : Nat)
    (hi : i < AHB_MAX_QUALITY) :
    ((iteration bot env config)^[n] (loopEntry bot config venue rng host)).randomQuality
      = deficits config ∧
    (loopEntry bot config venue rng host).randomQuality
      = (loopEntry bot config venue rng host).itemCountToCreate ∧
    tierProbability
        ((iteration bot env config)^[n] (loopEntry bot config venue rng host)).randomQuality i
      = ((config.maxCounts i - config.itemCounts i : Nat) : ℚ)
        / ((∑ t in Finset.range AHB_MAX_QUALITY, (config.maxCounts t - config.itemCounts t) : Nat)
            : ℚ) := by
  refine ⟨iterate_randomQuality bot env config n _, rfl, ?_⟩
  rw [iterate_randomQuality, tierProbability_eq _ i hi]
  simp only [loopEntry, deficits_eq, total_deficits]

theorem C9_weights_are_initial_deficits_witness :
    tierProbability (loopEntry exampleBot roomyConfig (exampleVenue 85) [7] []).randomQuality 0
      = 0 ∧
    tierProbability (loopEntry exampleBot roomyConfig (exampleVenue 85) [7] []).randomQuality 1
      = 5 / 15 ∧
    tierProbability (loopEntry exampleBot roomyConfig (exampleVenue 85) [7] []).randomQuality 2
      = 0 ∧
    tierProbability (loopEntry exampleBot roomyConfig (exampleVenue 85) [7] []).randomQuality 3
      = 10 / 15 := by
  have h : (∑ t in Finset.range AHB_MAX_QUALITY,
      (roomyConfig.maxCounts t - roomyConfig.itemCounts t)) = 15 := by decide
  have p := fun i hi => (C9_weights_are_initial_deficits exampleBot (exampleEnv 12)
    roomyConfig (exampleVenue 85) [7] [] 0 i hi).2.2
  simp only [Function.iterate_zero, id_eq, h] at p
  refine ⟨?_, ?_, ?_, ?_⟩
  · rw [p 0 (by decide)]; simp [roomyConfig, exampleConfig]
  · rw [p 1 (by decide)]; simp [roomyConfig, exampleConfig]
  · rw [p 2 (by decide)]; simp [roomyConfig, exampleConfig]
  · rw [p 3 (by decide)]; simp [roomyConfig, exampleConfig]

/-- C10 (the code at the failing input): the bins are duplicate-free, the bin of tier 1
holds the three identifiers 101, 102, 103 and the tier lacks 5 listings; the first trip
lists all three, the second trip samples the same bin again, and the pass lists 101 and
102 twice. -/
theorem C10_short_bin_listed_twice :
    (∀ t, ((exampleEnv 3).GetItemBin t).Nodup) ∧
    AddNewAuctions exampleBot (exampleEnv 3) narrowConfig (exampleVenue 90) 20 [] []
      = some narrowEnd ∧
    (created narrowEnd).map AuctionEntry.item_template = [101, 102, 103, 101, 102] ∧
    ¬ ((created narrowEnd).map AuctionEntry.item_template).Nodup :=
  ⟨exampleEnv_nodup 3, by rfl, by rfl, by decide⟩

/-- Over duplicate-free bins, no item identifier is sampled twice, nor listed twice,
within the batch of one trip through the loop; and when the bins are also pairwise
disjoint and every bin holds at least as many identifiers as the deficit of its tier, no
tier is sampled twice and no item identifier is listed twice within the whole pass. -/
theorem no_duplicates_in_a_batch (bot : Bot) (env : Env) (config : AHBConfig)
    (venue : Venue) (fuel : Nat) (rng : List Nat) (host : List Bool) (st : SellerState)
    (hbins : ∀ t, t < AHB_MAX_QUALITY → (env.GetItemBin t).Nodup)
    (h : AddNewAuctions bot env config venue fuel rng host = some st) :
    (∀ b ∈ st.committed,
      b.itemBatch.Nodup ∧ (b.auctionBatch.map AuctionEntry.item_template).Nodup) ∧
    ((∀ s t, s < AHB_MAX_QUALITY → t < AHB_MAX_QUALITY → s ≠ t →
        List.Disjoint (env.GetItemBin s) (env.GetItemBin t)) →
      (∀ t, t < AHB_MAX_QUALITY →
        config.maxCounts t - config.itemCounts t ≤ (env.GetItemBin t).length) →
      ((created st).map AuctionEntry.item_template).Nodup) := by
  have hok := AddNewAuctions_batches bot env config venue fuel rng host st h
  refine ⟨?_, ?_⟩
  · intro b hb
    have h1 : b.itemBatch.Nodup := (hbins b.quality (hok b hb).1).sublist (hok b hb).2.1
    exact ⟨h1, h1.sublist (hok b hb).2.2⟩
  · intro hdis hfit
    exact listingsOf_nodup env hbins hdis st.committed hok
      (AddNewAuctions_oncePerTier bot env config venue fuel rng host st hfit h)

/-- The pass over the short bin: each of its two trips is duplicate-free by itself. -/
theorem no_duplicates_in_a_batch_narrow :
    (∀ t, t < AHB_MAX_QUALITY → ((exampleEnv 3).GetItemBin t).Nodup) ∧
    AddNewAuctions exampleBot (exampleEnv 3) narrowConfig (exampleVenue 90) 20 [] []
      = some narrowEnd ∧
    (narrowEnd.committed.map Batch.itemBatch = [[101, 102, 103], [101, 102]]) ∧
    ∀ b ∈ narrowEnd.committed,
      b.itemBatch.Nodup ∧ (b.auctionBatch.map AuctionEntry.item_template).Nodup :=
  ⟨fun t _ => exampleEnv_nodup 3 t, by rfl, by rfl,
    (no_duplicates_in_a_batch exampleBot (exampleEnv 3) narrowConfig (exampleVenue 90)
      20 [] [] narrowEnd (fun t _ => exampleEnv_nodup 3 t) (by rfl)).1⟩

/-! ## The claims on sampling, prices and stack sizes -/

/-- C11: in every trip through the loop the identifiers sampled for the chosen tier are
the `itemBatch` of the trip; there are exactly
min(min(`itemsToCreate`, remaining deficit of the tier), size of the bin) of them, every
one of them occurs in the bin of the tier, and none occurs more often than in the bin. -/
theorem C11_sample_of_the_bin (bot : Bot) (env : Env) (config : AHBConfig) (st : SellerState)
    (q : Nat)
    (hq : chooseQuality st.itemCountToCreate (discreteDraw st.randomQuality st.rng).1 = some q) :
    (iteration bot env config st).committed
      = st.committed ++ [{ quality := q, itemBatch := (sampleBatch env st q).1,
                           auctionBatch := (buildBatch bot env config st q).1 }] ∧
    (sampleBatch env st q).1.length
      = min (min st.itemsToCreate (st.itemCountToCreate q)) (env.GetItemBin q).length ∧
    (∀ id ∈ (sampleBatch env st q).1, id ∈ env.GetItemBin q) ∧
    (∀ id, (sampleBatch env st q).1.count id ≤ (env.GetItemBin q).count id) := by
  have hsub : List.Sublist (sampleBatch env st q).1 (env.GetItemBin q) := sample_sublist _ _ _
  refine ⟨?_, ?_, fun id hid => hsub.subset hid, fun id => hsub.count_le id⟩
  · unfold iteration
    rw [hq]
    rfl
  · unfold sampleBatch
    rw [sample_length]

theorem C11_sample_of_the_bin_witness :
    chooseQuality (loopEntry exampleBot roomyConfig (exampleVenue 85) [7] []).itemCountToCreate
      (discreteDraw (loopEntry exampleBot roomyConfig (exampleVenue 85) [7] []).randomQuality
        (loopEntry exampleBot roomyConfig (exampleVenue 85) [7] []).rng).1 = some 3 ∧
    (sampleBatch (exampleEnv 12) (loopEntry exampleBot roomyConfig (exampleVenue 85) [7] []) 3).1
      = [301, 302, 303, 304, 305, 306, 307, 308, 309, 310] ∧
    (sampleBatch (exampleEnv 12) (loopEntry exampleBot roomyConfig (exampleVenue 85) [7] [])
        3).1.length
      = min (min (loopEntry exampleBot roomyConfig (exampleVenue 85) [7] []).itemsToCreate
          ((loopEntry exampleBot roomyConfig (exampleVenue 85) [7] []).itemCountToCreate 3))
          ((exampleEnv 12).GetItemBin 3).length :=
  ⟨by rfl, by rfl, (C11_sample_of_the_bin exampleBot (exampleEnv 12) roomyConfig
    (loopEntry exampleBot roomyConfig (exampleVenue 85) [7] []) 3 (by rfl)).2.1⟩

theorem uniformInt_mem (a b : Nat) (rng : List Nat) (h : a ≤ b) :
    a ≤ (uniformInt a b rng).1 ∧ (uniformInt a b rng).1 ≤ b := by
  have := Nat.mod_lt (draw rng).1 (show 0 < b - a + 1 by omega)
  simp only [uniformInt]
  omega

/-- C12 (as stated) fails: with a reference price of 200000000 and the multiplier range
[2200, 2200] the unit buyout is floor(200000000 * 2200 / 100) = 4400000000 in `uint64`,
and the `std::pair<uint32, uint32>` the lambda returns holds 105032704. -/
theorem C12_counterexample :
    ((exampleEnv 12).GetOverridenPrice glyphTemplate.ItemId []).1 = none ∧
    (uniformInt ((pricedConfig 2200 2200).minPrice glyphTemplate.Quality)
      ((pricedConfig 2200 2200).maxPrice glyphTemplate.Quality) []).1 = 2200 ∧
    (calculatePrices (exampleEnv 12) (pricedConfig 2200 2200) glyphTemplate 200000000 []).1.1
      = 105032704 ∧
    200000000 * 2200 / 100 = 4400000000 := by
  refine ⟨rfl, by decide, by decide, by decide⟩

/-- C12 (amended): for a reference price `P` with no catalog price override and the
buyout multiplier `m` drawn from the range [`minPrice`, `maxPrice`] of the quality, the
unit buyout the seller computes is floor(`P * m / 100`) reduced modulo 2^32; whenever
floor(`P * m / 100`) fits in 32 bits it is floor(`P * m / 100`) and lies between
floor(`P * minPrice / 100`) and floor(`P * maxPrice / 100`). -/
theorem C12_unit_buyout (env : Env) (config : AHBConfig) (prototype : ItemTemplate)
    (P : Nat) (rng : List Nat)
    (hP : P < 2 ^ 32) (hmax : config.maxPrice prototype.Quality < 2 ^ 32)
    (hno : (env.GetOverridenPrice prototype.ItemId rng).1 = none)
    (hrange : config.minPrice prototype.Quality ≤ config.maxPrice prototype.Quality) :
    ∃ m, m = (uniformInt (config.minPrice prototype.Quality)
          (config.maxPrice prototype.Quality) (env.GetOverridenPrice prototype.ItemId rng).2).1 ∧
      config.minPrice prototype.Quality ≤ m ∧ m ≤ config.maxPrice prototype.Quality ∧
      (calculatePrices env config prototype P rng).1.1 = (P * m / 100) % 2 ^ 32 ∧
      (P * m / 100 < 2 ^ 32 →
        (calculatePrices env config prototype P rng).1.1 = P * m / 100 ∧
        P * config.minPrice prototype.Quality / 100
          ≤ (calculatePrices env config prototype P rng).1.1 ∧
        (calculatePrices env config prototype P rng).1.1
          ≤ P * config.maxPrice prototype.Quality / 100) := by
  obtain ⟨hlo, hhi⟩ := uniformInt_mem (config.minPrice prototype.Quality)
    (config.maxPrice prototype.Quality) (env.GetOverridenPrice prototype.ItemId rng).2 hrange
  refine ⟨_, rfl, hlo, hhi, ?_⟩
  have hm : (uniformInt (config.minPrice prototype.Quality)
      (config.maxPrice prototype.Quality) (env.GetOverridenPrice prototype.ItemId rng).2).1
      < 2 ^ 32 := lt_of_le_of_lt hhi hmax
  have hprod : P * (uniformInt (config.minPrice prototype.Quality)
      (config.maxPrice prototype.Quality) (env.GetOverridenPrice prototype.ItemId rng).2).1
      < 2 ^ 64 := by
    calc P * _ < 2 ^ 32 * 2 ^ 32 := Nat.mul_lt_mul'' hP hm
      _ = 2 ^ 64 := by norm_num
  have hval : (calculatePrices env config prototype P rng).1.1
      = (P * (uniformInt (config.minPrice prototype.Quality)
          (config.maxPrice prototype.Quality)
          (env.GetOverridenPrice prototype.ItemId rng).2).1 / 100) % 2 ^ 32 := by
    simp only [calculatePrices, hno, Nat.mod_eq_of_lt hprod]
  refine ⟨hval, fun hfit => ?_⟩
  rw [hval, Nat.mod_eq_of_lt hfit]
  exact ⟨rfl, Nat.div_le_div_right (Nat.mul_le_mul_left P hlo),
    Nat.div_le_div_right (Nat.mul_le_mul_left P hhi)⟩

theorem C12_unit_buyout_witness :
    ((exampleEnv 12).GetOverridenPrice glyphTemplate.ItemId [10]).1 = none ∧
    (pricedConfig 120 150).minPrice glyphTemplate.Quality = 120 ∧
    (pricedConfig 120 150).maxPrice glyphTemplate.Quality = 150 ∧
    (uniformInt 120 150 [10]).1 = 130 ∧
    (calculatePrices (exampleEnv 12) (pricedConfig 120 150) glyphTemplate 1000 [10]).1.1 = 1300 ∧
    ∃ m, m = (uniformInt ((pricedConfig 120 150).minPrice glyphTemplate.Quality)
          ((pricedConfig 120 150).maxPrice glyphTemplate.Quality)
          ((exampleEnv 12).GetOverridenPrice glyphTemplate.ItemId [10]).2).1 ∧
      (pricedConfig 120 150).minPrice glyphTemplate.Quality ≤ m ∧
      m ≤ (pricedConfig 120 150).maxPrice glyphTemplate.Quality ∧
      (calculatePrices (exampleEnv 12) (pricedConfig 120 150) glyphTemplate 1000 [10]).1.1
        = (1000 * m / 100) % 2 ^ 32 ∧
      (1000 * m / 100 < 2 ^ 32 →
        (calculatePrices (exampleEnv 12) (pricedConfig 120 150) glyphTemplate 1000 [10]).1.1
          = 1000 * m / 100 ∧
        1000 * (pricedConfig 120 150).minPrice glyphTemplate.Quality / 100
          ≤ (calculatePrices (exampleEnv 12) (pricedConfig 120 150) glyphTemplate 1000 [10]).1.1 ∧
        (calculatePrices (exampleEnv 12) (pricedConfig 120 150) glyphTemplate 1000 [10]).1.1
          ≤ 1000 * (pricedConfig 120 150).maxPrice glyphTemplate.Quality / 100) :=
  ⟨rfl, rfl, rfl, by decide, by decide,
    C12_unit_buyout (exampleEnv 12) (pricedConfig 120 150) glyphTemplate 1000 [10]
      (by norm_num) (by decide) rfl (by decide)⟩

/-- C13: for an item of class glyph the stack size the seller computes is exactly 1,
whatever the stack cap of the quality (0 included) and whatever the maximum stack size
of the item, and no random draw is made; the listing built for it holds one item. -/
theorem C13_glyph_stack_is_one (bot : Bot) (env : Env) (config : AHBConfig)
    (prototype : ItemTemplate) (itemID : Nat) (rng : List Nat) (host : List Bool)
    (hglyph : prototype.Class = ITEM_CLASS_GLYPH) :
    calculateStackSize config prototype rng = (1, rng) ∧
    (env.GetItemTemplate itemID = some prototype →
      ∀ a ∈ (processItems bot env config [itemID] rng host).1, a.itemCount = 1) := by
  have h1 : calculateStackSize config prototype rng = (1, rng) := by
    simp [calculateStackSize, hglyph]
  refine ⟨h1, fun htpl a ha => ?_⟩
  unfold processItems at ha
  simp only [htpl] at ha
  by_cases hc : (nextCreate host).1 = false
  · simp [hc] at ha
  · by_cases hq : prototype.Quality ≤ env.AHB_MAX_DEFAULT_QUALITY
    · simp only [hc, hq, if_true, if_false, processItems, h1] at ha
      simp at ha
      rw [ha]
    · simp [hc, hq, processItems] at ha

theorem C13_glyph_stack_is_one_witness :
    glyphTemplate.Class = ITEM_CLASS_GLYPH ∧
    calculateStackSize (pricedConfig 120 150) glyphTemplate [5, 6] = (1, [5, 6]) :=
  ⟨rfl, (C13_glyph_stack_is_one exampleBot (exampleEnv 12) (pricedConfig 120 150)
    glyphTemplate 40000 [5, 6] [] rfl).1⟩

theorem find?_range' (p : Nat → Bool) : ∀ (n s q : Nat), s ≤ q → q < s + n → p q = true →
    (∀ j, s ≤ j → j < q → p j = false) → (List.range' s n).find? p = some q := by
  intro n
  induction n with
  | zero => intro s q h1 h2; omega
  | succ k ih =>
    intro s q h1 h2 hp hlow
    rw [List.range'_succ, List.find?_cons]
    by_cases hsq : s = q
    · subst hsq
      rw [hp]
    · rw [hlow s (le_refl s) (by omega)]
      exact ih (s + 1) q (by omega) (by omega) hp (fun j hj1 hj2 => hlow j (by omega) hj2)

theorem firstNonZero_least (d : Nat → Nat) (q : Nat) (hq : q < AHB_MAX_QUALITY)
    (hne : d q ≠ 0) (hlow : ∀ j, j < q → d j = 0) : firstNonZero d = some q := by
  unfold firstNonZero
  rw [List.range_eq_range']
  apply find?_range' _ AHB_MAX_QUALITY 0 q (Nat.zero_le q) (by omega)
  · simpa using hne
  · intro j _ hj
    simpa using hlow j hj

/-- C19: in every trip through the loop the tier items are sampled for is the drawn tier
when its remaining deficit is nonzero, and otherwise the lowest-index tier whose
remaining deficit is nonzero; when no tier has a deficit left, the trip sets
`itemsToCreate` to zero without sampling or committing anything and the loop stops. So
the tier sampled for always has a nonzero remaining deficit. -/
theorem C19_tier_of_the_trip (bot : Bot) (env : Env) (config : AHBConfig) (st : SellerState) :
    (st.itemCountToCreate (discreteDraw st.randomQuality st.rng).1 ≠ 0 →
      iteration bot env config st
        = commitBatch bot env config st (discreteDraw st.randomQuality st.rng).1) ∧
    (st.itemCountToCreate (discreteDraw st.randomQuality st.rng).1 = 0 →
      ∀ q, q < AHB_MAX_QUALITY → st.itemCountToCreate q ≠ 0 →
        (∀ j, j < q → st.itemCountToCreate j = 0) →
        iteration bot env config st = commitBatch bot env config st q) ∧
    ((∀ i, i < AHB_MAX_QUALITY → st.itemCountToCreate i = 0) →
      (iteration bot env config st).itemsToCreate = 0 ∧
      (iteration bot env config st).committed = st.committed ∧
      ∀ fuel, sellerLoop bot env config fuel (iteration bot env config st)
        = some (iteration bot env config st)) ∧
    (∀ q, chooseQuality st.itemCountToCreate (discreteDraw st.randomQuality st.rng).1 = some q →
      iteration bot env config st = commitBatch bot env config st q ∧
      st.itemCountToCreate q ≠ 0 ∧ q < AHB_MAX_QUALITY) := by
  refine ⟨?_, ?_, ?_, ?_⟩
  · intro h
    unfold iteration
    simp [chooseQuality, h]
  · intro h q hq hne hlow
    unfold iteration
    simp [chooseQuality, h, firstNonZero_least _ q hq hne hlow]
  · intro hall
    have hz : st.itemCountToCreate (discreteDraw st.randomQuality st.rng).1 = 0 :=
      hall _ (discreteIndex_lt _ _)
    have hnone : chooseQuality st.itemCountToCreate (discreteDraw st.randomQuality st.rng).1
        = none := by
      cases hc : chooseQuality st.itemCountToCreate (discreteDraw st.randomQuality st.rng).1 with
      | none => rfl
      | some q =>
        obtain ⟨h1, h2⟩ := chooseQuality_some _ _ _ (discreteIndex_lt _ _) hc
        exact absurd (hall q h2) h1
    have hit : iteration bot env config st
        = { st with itemsToCreate := 0, rng := (discreteDraw st.randomQuality st.rng).2 } := by
      unfold iteration
      rw [hnone]
    refine ⟨by rw [hit], by rw [hit], fun fuel => ?_⟩
    rw [hit]
    cases fuel <;> simp [sellerLoop]
  · intro q hq
    refine ⟨?_, chooseQuality_some _ _ _ (discreteIndex_lt _ _) hq⟩
    unfold iteration
    rw [hq]

theorem C19_tier_of_the_trip_witness :
    (discreteDraw roomyMid.randomQuality [12]).1 = 3 ∧ roomyMid.itemCountToCreate 3 = 0 ∧
    roomyMid.itemCountToCreate 0 = 0 ∧ roomyMid.itemCountToCreate 1 = 5 ∧
    iteration exampleBot (exampleEnv 12) roomyConfig { roomyMid with rng := [12] }
      = commitBatch exampleBot (exampleEnv 12) roomyConfig { roomyMid with rng := [12] } 1 :=
  ⟨by rfl, by rfl, by rfl, by rfl,
    (C19_tier_of_the_trip exampleBot (exampleEnv 12) roomyConfig
      { roomyMid with rng := [12] }).2.1 (by rfl) 1 (by decide) (by decide)
      (fun j hj => by
        have h0 : j = 0 := by omega
        subst h0
        rfl)⟩

/-- C20 (as stated) fails: in the trip for tier 3 ten identifiers are sampled and item 302
has no definition, so nine listings are created; the deficit of the tier goes from 10
to 0 and `itemsToCreate` from 10 to 0, a decrement of ten, not of nine. -/
theorem C20_counterexample :
    (loopEntry exampleBot scenarioConfig (exampleVenue 90) [7] []).itemsToCreate = 10 ∧
    (loopEntry exampleBot scenarioConfig (exampleVenue 90) [7] []).itemCountToCreate 3 = 10 ∧
    gappyEnd.committed.map (fun b => (b.quality, b.itemBatch.length, b.auctionBatch.length))
      = [(3, 10, 9)] ∧
    gappyEnd.itemsToCreate = 0 ∧ gappyEnd.itemCountToCreate 3 = 0 :=
  ⟨by rfl, by rfl, by rfl, by rfl, by rfl⟩

/-- C20 (amended): after each tier batch of the loop, the remaining deficit of the tier
and `itemsToCreate` are each decremented by exactly the number of identifiers sampled
for that batch (`itemBatch.size()`); sampled items that were skipped are counted, so
the decrement is at least the number of listings created in the batch, and it is that
number when every sampled identifier has a definition of a supported quality and every
item creation succeeds. -/
theorem C20_decrement_is_the_sample (bot : Bot) (env : Env) (config : AHBConfig)
    (st : SellerState) (q : Nat) :
    (commitBatch bot env config st q).itemCountToCreate q + (sampleBatch env st q).1.length
      = st.itemCountToCreate q ∧
    (commitBatch bot env config st q).itemsToCreate + (sampleBatch env st q).1.length
      = st.itemsToCreate ∧
    (∀ t, t ≠ q →
      (commitBatch bot env config st q).itemCountToCreate t = st.itemCountToCreate t) ∧
    (buildBatch bot env config st q).1.length ≤ (sampleBatch env st q).1.length ∧
    (AllListable env (sampleBatch env st q).1 → (∀ b ∈ st.host, b = true) →
      (buildBatch bot env config st q).1.length = (sampleBatch env st q).1.length) := by
  have hs := sampleBatch_length_le env st q
  refine ⟨?_, ?_, ?_, buildBatch_length_le bot env config st q, ?_⟩
  · simp only [commitBatch, Function.update_same]
    omega
  · simp only [commitBatch]
    omega
  · intro t ht
    simp only [commitBatch, Function.update_noteq ht]
  · intro hall hhost
    exact (processItems_all bot env config _ _ _ hall hhost).1

theorem C20_decrement_is_the_sample_witness :
    (commitBatch exampleBot gappyEnv scenarioConfig
        (loopEntry exampleBot scenarioConfig (exampleVenue 90) [7] []) 3).itemsToCreate
      + (sampleBatch gappyEnv (loopEntry exampleBot scenarioConfig (exampleVenue 90) [7] []) 3
          ).1.length
      = (loopEntry exampleBot scenarioConfig (exampleVenue 90) [7] []).itemsToCreate ∧
    (sampleBatch gappyEnv (loopEntry exampleBot scenarioConfig (exampleVenue 90) [7] []) 3
      ).1.length = 10 ∧
    (buildBatch exampleBot gappyEnv scenarioConfig
      (loopEntry exampleBot scenarioConfig (exampleVenue 90) [7] []) 3).1.length = 9 :=
  ⟨(C20_decrement_is_the_sample exampleBot gappyEnv scenarioConfig
      (loopEntry exampleBot scenarioConfig (exampleVenue 90) [7] []) 3).2.1,
    by rfl, by rfl⟩

/-! ## The claims on the buyer -/

/-- C14 (as stated) fails: a listing whose highest bid is 4294967000 has a minimum outbid
of 214748350; the `uint32` sum of the two is 214748054, which does not exceed the
candidate bid 4294967040, so the bid placed is 4294967040: below
`currentPrice + minimumOutbid`, which is 4509715350. The candidate is the one the
source computes: the acceptable price 4294967100 and the current price both convert
to the `float` 4294967040, so the raise is 0. -/
theorem C14_counterexample :
    currentPrice (playerAuction 11 100 0 4294967000 77) = 4294967000 ∧
    dearHost.GetAuctionOutBid (playerAuction 11 100 0 4294967000 77) = 214748350 ∧
    minimumBid 4294967000 214748350 4294967040 = 4294967040 ∧
    ((AddNewAuctionBuyerBotBidCallback exampleAuctionHouseBot dearHost (exampleProfile 100 2)
        (some [11]) (buyerStart [playerAuction 11 100 0 4294967000 77] [4294967040])
      ).house.auctions.map (fun a => (a.Id, a.bid, a.bidder))) = [(11, 4294967040, 1)] ∧
    4294967040 < 4294967000 + 214748350 := by
  refine ⟨by decide, by decide, by decide, by rfl, by decide⟩

/-- C14 (amended): with currentPrice the highest bid of the listing if nonzero and else
its starting bid, whenever `currentPrice + minimumOutbid` fits in 32 bits the final bid
equals max(candidate bid, `currentPrice + minimumOutbid`), so it is not below
`currentPrice + minimumOutbid`; it is the bid the buyer settles the listing with. -/
theorem C14_minimum_outbid (bot : AuctionHouseBot) (host : Host) (config : Profile)
    (st : BuyerState) (auction : HouseAuction) (pItem : Item) (prototype : ItemTemplate)
    (bidvalue : Nat)
    (hfit : currentPrice auction + host.GetAuctionOutBid auction < 2 ^ 32) :
    minimumBid (currentPrice auction) (host.GetAuctionOutBid auction) bidvalue
      = max bidvalue (currentPrice auction + host.GetAuctionOutBid auction) ∧
    currentPrice auction + host.GetAuctionOutBid auction
      ≤ minimumBid (currentPrice auction) (host.GetAuctionOutBid auction) bidvalue ∧
    (auction.bid ≠ 0 → currentPrice auction = auction.bid) ∧
    (auction.bid = 0 → currentPrice auction = auction.startbid) ∧
    (prototype.Quality ≤ host.AHB_MAX_DEFAULT_QUALITY →
      bidMax config prototype
        (match (host.GetOverridenPrice prototype.ItemId st.rng).1 with
          | some price => price
          | none => if bot.BuyMethod then prototype.SellPrice else prototype.BuyPrice)
        pItem.Count (currentPrice auction) ≠ 0 →
      bidOnListing bot host config st auction pItem prototype
        = settle bot
            { st with rng := (host.GetOverridenPrice prototype.ItemId st.rng).2
                      bidrates := (nextBidRate st.bidrates).2 }
            auction
            (minimumBid (currentPrice auction) (host.GetAuctionOutBid auction)
              (bidprice (currentPrice auction)
                (bidMax config prototype
                  (match (host.GetOverridenPrice prototype.ItemId st.rng).1 with
                    | some price => price
                    | none => if bot.BuyMethod then prototype.SellPrice
                              else prototype.BuyPrice)
                  pItem.Count (currentPrice auction))
                (bidRate (nextBidRate st.bidrates).1)))) := by
  refine ⟨?_, ?_, ?_, ?_, ?_⟩
  · unfold minimumBid
    rw [Nat.mod_eq_of_lt hfit]
    split_ifs with h
    · rw [max_eq_right (le_of_lt h)]
    · rw [max_eq_left (by omega)]
  · unfold minimumBid
    rw [Nat.mod_eq_of_lt hfit]
    split_ifs with h <;> omega
  · intro h
    simp [currentPrice, h]
  · intro h
    simp [currentPrice, h]
  · intro hq hmax
    unfold bidOnListing
    simp only [hq, if_true, hmax, if_false]

theorem C14_minimum_outbid_witness :
    currentPrice (playerAuction 11 100 0 0 0) + (exampleHost (fun _ => 5)).GetAuctionOutBid
      (playerAuction 11 100 0 0 0) < 2 ^ 32 ∧
    minimumBid (currentPrice (playerAuction 11 100 0 0 0))
      ((exampleHost (fun _ => 5)).GetAuctionOutBid (playerAuction 11 100 0 0 0)) 103
      = max 103 (currentPrice (playerAuction 11 100 0 0 0)
          + (exampleHost (fun _ => 5)).GetAuctionOutBid (playerAuction 11 100 0 0 0)) ∧
    minimumBid 100 5 103 = 105 ∧
    ((AddNewAuctionBuyerBotBidCallback exampleAuctionHouseBot (exampleHost (fun _ => 5))
        (exampleProfile 2 2) (some [11]) (buyerStart [playerAuction 11 100 0 0 0] [103])
      ).house.auctions.map (fun a => (a.Id, a.bid, a.bidder))) = [(11, 105, 1)] :=
  ⟨by decide,
    (C14_minimum_outbid exampleAuctionHouseBot (exampleHost (fun _ => 5)) (exampleProfile 2 2)
      (buyerStart [playerAuction 11 100 0 0 0] [103]) (playerAuction 11 100 0 0 0)
      { Count := 1, Template := none } (exampleTemplate 301) 103 (by decide)).1,
    by decide, by rfl⟩

theorem shiftOf_spec : ∀ (fuel n : Nat), n ≤ fuel →
    n / 2 ^ shiftOf fuel n < 2 ^ 24 ∧
    (shiftOf fuel n ≠ 0 → 2 ^ 23 ≤ n / 2 ^ shiftOf fuel n) := by
  intro fuel
  induction fuel with
  | zero =>
    intro n hn
    have : n = 0 := by omega
    subst this
    simp [shiftOf]
  | succ k ih =>
    intro n hn
    unfold shiftOf
    by_cases hlt : n < 2 ^ 24
    · rw [if_pos hlt]
      exact ⟨by simpa using hlt, fun h => absurd rfl h⟩
    · rw [if_neg hlt]
      have hk : n / 2 ≤ k := by omega
      obtain ⟨h1, h2⟩ := ih (n / 2) hk
      have hdiv : n / 2 ^ (shiftOf k (n / 2) + 1) = n / 2 / 2 ^ shiftOf k (n / 2) := by
        rw [pow_succ, mul_comm, Nat.div_div_eq_div_mul]
      rw [hdiv]
      refine ⟨h1, fun _ => ?_⟩
      by_cases hs : shiftOf k (n / 2) = 0
      · rw [hs]
        simp
        omega
      · exact h2 hs

theorem roundFloat_le (n : Nat) : 2 ^ 24 * roundFloat n ≤ (2 ^ 24 + 1) * n := by
  obtain ⟨h1, h2⟩ := shiftOf_spec n n (le_refl n)
  unfold roundFloat
  simp only
  have hn := Nat.div_add_mod n (2 ^ shiftOf n n)
  have hr := Nat.mod_lt n (show 0 < 2 ^ shiftOf n n by positivity)
  generalize hP : 2 ^ shiftOf n n = P at *
  generalize hq : n / P = q at *
  generalize hrr : n % P = r at *
  by_cases hs : shiftOf n n = 0
  · rw [hs] at hP
    simp at hP
    subst hP
    have : r = 0 := by omega
    subst this
    simp
    omega
  · have hq23 := h2 hs
    have hX : 2 ^ 23 * P ≤ q * P := Nat.mul_le_mul_right P hq23
    have hcomm : P * q = q * P := Nat.mul_comm _ _
    split_ifs with hup
    · have h2r : P ≤ 2 * r := by
        rcases hup with h | h
        · omega
        · omega
      rw [Nat.add_mul]
      omega
    · omega

theorem bidprice_le (currentprice bidMax bidrate : Nat) :
    10 ^ 7 * bidprice currentprice bidMax bidrate ≤ 22000004 * currentprice := by
  unfold bidprice bidvalue
  simp only
  have h1 := roundFloat_le currentprice
  have h2 := roundFloat_le (roundFloat currentprice * 10066330 * 2 ^ 7)
  have h3 := roundFloat_le (roundFloat currentprice * 2 ^ 30 +
    min (roundFloat (roundFloat (roundFloat bidMax - roundFloat currentprice) * bidrate))
      (roundFloat (roundFloat currentprice * 10066330 * 2 ^ 7)))
  have h4 : min (roundFloat (roundFloat (roundFloat bidMax - roundFloat currentprice) * bidrate))
      (roundFloat (roundFloat currentprice * 10066330 * 2 ^ 7))
      ≤ roundFloat (roundFloat currentprice * 10066330 * 2 ^ 7) := min_le_right _ _
  generalize roundFloat currentprice = a at *
  generalize roundFloat (a * 10066330 * 2 ^ 7) = cap at *
  generalize min (roundFloat (roundFloat (roundFloat bidMax - a) * bidrate)) cap = m at *
  generalize roundFloat (a * 2 ^ 30 + m) = v at *
  have h5 : v / 2 ^ 30 % 2 ^ 32 ≤ v / 2 ^ 30 := Nat.mod_le _ _
  have h6 : v / 2 ^ 30 * 2 ^ 30 ≤ v := Nat.div_mul_le_self _ _
  generalize v / 2 ^ 30 % 2 ^ 32 = c at *
  generalize v / 2 ^ 30 = g at *
  norm_num at h1 h2 h3 h6 ⊢
  linarith


theorem roundFloat_between (n : Nat) :
    n / 2 ^ shiftOf n n * 2 ^ shiftOf n n ≤ roundFloat n ∧
    roundFloat n ≤ (n / 2 ^ shiftOf n n + 1) * 2 ^ shiftOf n n := by
  unfold roundFloat
  simp only
  split_ifs
  · exact ⟨Nat.mul_le_mul_right _ (Nat.le_succ _), le_refl _⟩
  · exact ⟨le_refl _, Nat.mul_le_mul_right _ (Nat.le_succ _)⟩

theorem shiftOf_mono (n m : Nat) (h : n ≤ m) : shiftOf n n ≤ shiftOf m m := by
  obtain ⟨h1, h2⟩ := shiftOf_spec n n (le_refl n)
  obtain ⟨h3, h4⟩ := shiftOf_spec m m (le_refl m)
  by_contra hlt
  push_neg at hlt
  have hs : shiftOf n n ≠ 0 := by omega
  have hn : 2 ^ 23 * 2 ^ shiftOf n n ≤ n :=
    le_trans (Nat.mul_le_mul_right _ (h2 hs)) (Nat.div_mul_le_self _ _)
  have hm : m < 2 ^ 24 * 2 ^ shiftOf m m := by
    rw [Nat.div_lt_iff_lt_mul (by positivity)] at h3
    exact h3
  have hpow : 2 ^ 24 * 2 ^ shiftOf m m ≤ 2 ^ 23 * 2 ^ shiftOf n n := by
    have : 2 ^ (shiftOf m m + 1) ≤ 2 ^ shiftOf n n :=
      Nat.pow_le_pow_right (by norm_num) hlt
    calc 2 ^ 24 * 2 ^ shiftOf m m = 2 ^ 23 * 2 ^ (shiftOf m m + 1) := by ring
      _ ≤ 2 ^ 23 * 2 ^ shiftOf n n := Nat.mul_le_mul_left _ this
  omega

/-- The conversion of a natural number to `float` is monotone. -/
theorem roundFloat_mono (n m : Nat) (h : n ≤ m) : roundFloat n ≤ roundFloat m := by
  have hst := shiftOf_mono n m h
  rcases Nat.lt_or_eq_of_le hst with hlt | heq
  · -- the exponent of `m` is larger
    obtain ⟨h1, _⟩ := shiftOf_spec n n (le_refl n)
    obtain ⟨_, h4⟩ := shiftOf_spec m m (le_refl m)
    have hm0 : shiftOf m m ≠ 0 := by omega
    have hup := (roundFloat_between n).2
    have hlow := (roundFloat_between m).1
    have hq : (n / 2 ^ shiftOf n n + 1) * 2 ^ shiftOf n n ≤ 2 ^ 24 * 2 ^ shiftOf n n :=
      Nat.mul_le_mul_right _ h1
    have hq' : 2 ^ 23 * 2 ^ shiftOf m m ≤ m / 2 ^ shiftOf m m * 2 ^ shiftOf m m :=
      Nat.mul_le_mul_right _ (h4 hm0)
    have hpow : 2 ^ 24 * 2 ^ shiftOf n n ≤ 2 ^ 23 * 2 ^ shiftOf m m := by
      have : 2 ^ (shiftOf n n + 1) ≤ 2 ^ shiftOf m m :=
        Nat.pow_le_pow_right (by norm_num) hlt
      calc 2 ^ 24 * 2 ^ shiftOf n n = 2 ^ 23 * 2 ^ (shiftOf n n + 1) := by ring
        _ ≤ 2 ^ 23 * 2 ^ shiftOf m m := Nat.mul_le_mul_left _ this
    omega
  · -- the same exponent
    have hqle : n / 2 ^ shiftOf n n ≤ m / 2 ^ shiftOf n n := Nat.div_le_div_right h
    rcases Nat.lt_or_eq_of_le hqle with hq | hq
    · have hup := (roundFloat_between n).2
      have hlow := (roundFloat_between m).1
      rw [← heq] at hlow
      have : (n / 2 ^ shiftOf n n + 1) * 2 ^ shiftOf n n
          ≤ m / 2 ^ shiftOf n n * 2 ^ shiftOf n n := Nat.mul_le_mul_right _ hq
      omega
    · have hn := Nat.div_add_mod n (2 ^ shiftOf n n)
      have hm := Nat.div_add_mod m (2 ^ shiftOf n n)
      have hr : n % 2 ^ shiftOf n n ≤ m % 2 ^ shiftOf n n := by
        rw [hq] at hn
        omega
      unfold roundFloat
      simp only
      rw [← heq, ← hq]
      generalize 2 ^ shiftOf n n = P at *
      generalize n / P = q at *
      generalize n % P = r at *
      generalize m % P = r' at *
      by_cases hup : 2 * r > P ∨ (2 * r = P ∧ q % 2 = 1)
      · have hup' : 2 * r' > P ∨ (2 * r' = P ∧ q % 2 = 1) := by
          rcases hup with h1 | ⟨h1, h2⟩
          · left; omega
          · by_cases h3 : 2 * r' = P
            · right; exact ⟨h3, h2⟩
            · left; omega
        rw [if_pos hup, if_pos hup']
      · rw [if_neg hup]
        split_ifs
        · exact Nat.mul_le_mul_right _ (Nat.le_succ _)
        · exact le_refl _

theorem bidRate_bounds (v : Nat) : 10737418 ≤ bidRate v ∧ bidRate v ≤ 2 ^ 30 := by
  have h0 : roundFloat 10737418 = 10737418 := by decide
  have h1 : roundFloat (2 ^ 30) = 2 ^ 30 := by decide
  have hv : v % (2 ^ 30 - 10737418 + 1) < 2 ^ 30 - 10737418 + 1 :=
    Nat.mod_lt _ (by norm_num)
  have hlow := roundFloat_mono 10737418 (10737418 + v % (2 ^ 30 - 10737418 + 1)) (by omega)
  have hhigh := roundFloat_mono (10737418 + v % (2 ^ 30 - 10737418 + 1)) (2 ^ 30) (by omega)
  rw [h0] at hlow
  rw [h1] at hhigh
  exact ⟨hlow, hhigh⟩

/-- C15 (as stated) fails, in two ways. On a listing without a bid whose starting bid is
0 the cap is 0, the candidate bid is 0, and the minimum outbid (five percent of the
highest bid, at least 1), which is 1, is the bid placed: 1 above currentPrice = 0. On a
listing whose highest bid is 60883773, with a bid rate of 0.5 and an acceptable price of
4294967100, the raise is the cap `static_cast<float>(currentprice) * 1.2f`, the `float`
sum is 133944304, and the bid placed exceeds currentPrice by 73060531, more than
1.2 * 60883773 = 73060527.6. -/
theorem C15_counterexample :
    currentPrice (playerAuction 11 0 0 0 0) = 0 ∧
    ((AddNewAuctionBuyerBotBidCallback exampleAuctionHouseBot
        (exampleHost (fun a => max 1 (a.bid * 5 / 100))) (exampleProfile 2 2)
        (some [11]) (buyerStart [playerAuction 11 0 0 0 0] [0])
      ).house.auctions.map (fun a => (a.Id, a.bid, a.bidder))) = [(11, 1, 1)] ∧
    ¬ 5 * (1 - currentPrice (playerAuction 11 0 0 0 0))
        ≤ 6 * currentPrice (playerAuction 11 0 0 0 0) ∧
    currentPrice (playerAuction 11 100 0 60883773 77) = 60883773 ∧
    bidRate 526133494 = 2 ^ 29 ∧
    bidprice 60883773 4294967100 (bidRate 526133494) = 133944304 ∧
    ((AddNewAuctionBuyerBotBidCallback exampleAuctionHouseBot dearHost (exampleProfile 100 2)
        (some [11]) (buyerStart [playerAuction 11 100 0 60883773 77] [526133494])
      ).house.auctions.map (fun a => (a.Id, a.bid, a.bidder))) = [(11, 133944304, 1)] ∧
    ¬ 5 * (133944304 - currentPrice (playerAuction 11 100 0 60883773 77))
        ≤ 6 * currentPrice (playerAuction 11 100 0 60883773 77) := by
  refine ⟨by decide, by rfl, by decide, by decide, by decide, by decide, by rfl, by decide⟩

/-- C15 (amended): for every listing the buyer bids on, whenever
`currentPrice + minimumOutbid` fits in 32 bits, the final bid is the larger of the
candidate bid and `currentPrice + minimumOutbid`; the candidate bid, computed in
binary32 with the raise capped at `static_cast<float>(currentprice) * 1.2f`, exceeds
currentPrice by at most 1.2000004 times currentPrice; so the final bid exceeds
currentPrice either by at most 1.2000004 times currentPrice or by exactly the minimum
outbid, which is applied after the cap and is not capped. -/
theorem C15_raise_within_cap (bot : AuctionHouseBot) (host : Host) (config : Profile)
    (st : BuyerState) (auction : HouseAuction) (pItem : Item) (prototype : ItemTemplate)
    (hfit : currentPrice auction + host.GetAuctionOutBid auction < 2 ^ 32)
    (hq : prototype.Quality ≤ host.AHB_MAX_DEFAULT_QUALITY)
    (hmax : bidMax config prototype (basePrice bot host prototype st.rng) pItem.Count
      (currentPrice auction) ≠ 0) :
    ∃ finalBid,
      bidOnListing bot host config st auction pItem prototype
        = settle bot
            { st with rng := (host.GetOverridenPrice prototype.ItemId st.rng).2
                      bidrates := (nextBidRate st.bidrates).2 }
            auction finalBid ∧
      finalBid
        = max (bidprice (currentPrice auction)
                (bidMax config prototype (basePrice bot host prototype st.rng) pItem.Count
                  (currentPrice auction))
                (bidRate (nextBidRate st.bidrates).1))
            (currentPrice auction + host.GetAuctionOutBid auction) ∧
      10 ^ 7 * (bidprice (currentPrice auction)
          (bidMax config prototype (basePrice bot host prototype st.rng) pItem.Count
            (currentPrice auction))
          (bidRate (nextBidRate st.bidrates).1) - currentPrice auction)
        ≤ 12000004 * currentPrice auction ∧
      (10 ^ 7 * (finalBid - currentPrice auction) ≤ 12000004 * currentPrice auction ∨
        finalBid - currentPrice auction = host.GetAuctionOutBid auction) := by
  have hle := bidprice_le (currentPrice auction)
    (bidMax config prototype (basePrice bot host prototype st.rng) pItem.Count
      (currentPrice auction))
    (bidRate (nextBidRate st.bidrates).1)
  refine ⟨minimumBid (currentPrice auction) (host.GetAuctionOutBid auction)
    (bidprice (currentPrice auction)
      (bidMax config prototype (basePrice bot host prototype st.rng) pItem.Count
        (currentPrice auction))
      (bidRate (nextBidRate st.bidrates).1)), ?_, ?_, ?_, ?_⟩
  · unfold bidOnListing
    unfold basePrice at hmax
    simp only [hq, if_true, hmax, if_false]
    rfl
  · unfold minimumBid
    rw [Nat.mod_eq_of_lt hfit]
    split_ifs with h
    · rw [max_eq_right (le_of_lt h)]
    · rw [max_eq_left (by omega)]
  · omega
  · unfold minimumBid
    rw [Nat.mod_eq_of_lt hfit]
    split_ifs with h
    · right; omega
    · left; omega

theorem C15_raise_within_cap_witness :
    currentPrice (playerAuction 11 100 0 60883773 77)
      + dearHost.GetAuctionOutBid (playerAuction 11 100 0 60883773 77) < 2 ^ 32 ∧
    bidMax (exampleProfile 100 2)
      { ItemId := 301, Class := ITEM_CLASS_TRADE_GOODS, Quality := 1, MaxStackSize := 1,
        BuyPrice := 42949671, SellPrice := 42949671 }
      (basePrice exampleAuctionHouseBot dearHost
        { ItemId := 301, Class := ITEM_CLASS_TRADE_GOODS, Quality := 1, MaxStackSize := 1,
          BuyPrice := 42949671, SellPrice := 42949671 } [])
      1 (currentPrice (playerAuction 11 100 0 60883773 77)) = 4294967100 ∧
    10 ^ 7 * (133944304 - 60883773) ≤ 12000004 * 60883773 ∧
    ∃ finalBid,
      bidOnListing exampleAuctionHouseBot dearHost (exampleProfile 100 2)
          (buyerStart [playerAuction 11 100 0 60883773 77] [526133494])
          (playerAuction 11 100 0 60883773 77) { Count := 1, Template := none }
          { ItemId := 301, Class := ITEM_CLASS_TRADE_GOODS, Quality := 1, MaxStackSize := 1,
            BuyPrice := 42949671, SellPrice := 42949671 }
        = settle exampleAuctionHouseBot
            { buyerStart [playerAuction 11 100 0 60883773 77] [526133494] with
              rng := (dearHost.GetOverridenPrice 301 []).2
              bidrates := (nextBidRate [526133494]).2 }
            (playerAuction 11 100 0 60883773 77) finalBid ∧
      10 ^ 7 * (finalBid - 60883773) ≤ 12000004 * 60883773 :=
  ⟨by decide, by decide, by decide,
    (C15_raise_within_cap exampleAuctionHouseBot dearHost (exampleProfile 100 2)
      (buyerStart [playerAuction 11 100 0 60883773 77] [526133494])
      (playerAuction 11 100 0 60883773 77) { Count := 1, Template := none }
      { ItemId := 301, Class := ITEM_CLASS_TRADE_GOODS, Quality := 1, MaxStackSize := 1,
        BuyPrice := 42949671, SellPrice := 42949671 }
      (by decide) (by decide) (by decide)).imp
      (fun finalBid h => ⟨h.1, by
        have h2 := h.2.1
        have h3 : bidprice (currentPrice (playerAuction 11 100 0 60883773 77))
            (bidMax (exampleProfile 100 2)
              { ItemId := 301, Class := ITEM_CLASS_TRADE_GOODS, Quality := 1,
                MaxStackSize := 1, BuyPrice := 42949671, SellPrice := 42949671 }
              (basePrice exampleAuctionHouseBot dearHost
                { ItemId := 301, Class := ITEM_CLASS_TRADE_GOODS, Quality := 1,
                  MaxStackSize := 1, BuyPrice := 42949671, SellPrice := 42949671 }
                (buyerStart [playerAuction 11 100 0 60883773 77] [526133494]).rng)
              1 (currentPrice (playerAuction 11 100 0 60883773 77)))
            (bidRate (nextBidRate
              (buyerStart [playerAuction 11 100 0 60883773 77] [526133494]).bidrates).1)
            = 133944304 := by decide
        have h4 : currentPrice (playerAuction 11 100 0 60883773 77)
            + dearHost.GetAuctionOutBid (playerAuction 11 100 0 60883773 77) = 63927961 := by
          decide
        rw [h3, h4] at h2
        rw [h2]
        decide⟩)⟩

theorem settle_acted (bot : AuctionHouseBot) (st : BuyerState) (auction : HouseAuction)
    (bidprice : Nat) :
    (settle bot st auction bidprice).acted = st.acted ++ [auction.Id] ∧
    (settle bot st auction bidprice).statements.length = st.statements.length + 1 := by
  unfold settle
  split_ifs <;> simp

theorem bidOnListing_acted (bot : AuctionHouseBot) (host : Host) (config : Profile)
    (st : BuyerState) (auction : HouseAuction) (pItem : Item) (prototype : ItemTemplate) :
    ((bidOnListing bot host config st auction pItem prototype).acted = st.acted ∧
      (bidOnListing bot host config st auction pItem prototype).statements = st.statements) ∨
    ((bidOnListing bot host config st auction pItem prototype).acted
        = st.acted ++ [auction.Id] ∧
      (bidOnListing bot host config st auction pItem prototype).statements.length
        = st.statements.length + 1) := by
  unfold bidOnListing
  simp only
  split_ifs <;>
    first
    | exact Or.inl ⟨rfl, rfl⟩
    | exact Or.inr (settle_acted bot _ auction _)

theorem GetAuction_Id (house : AuctionHouse) (id : Nat) (auction : HouseAuction)
    (h : house.GetAuction id = some auction) : auction.Id = id := by
  unfold AuctionHouse.GetAuction at h
  have := List.find?_some h
  simpa using this

theorem bidOn_acted (bot : AuctionHouseBot) (host : Host) (config : Profile)
    (st : BuyerState) (randomID : Nat) :
    ((bidOn bot host config st randomID).acted = st.acted ∧
      (bidOn bot host config st randomID).statements = st.statements) ∨
    ((bidOn bot host config st randomID).acted = st.acted ++ [randomID] ∧
      (bidOn bot host config st randomID).statements.length = st.statements.length + 1) := by
  unfold bidOn
  split_ifs
  · exact Or.inl ⟨rfl, rfl⟩
  · split
    · exact Or.inl ⟨rfl, rfl⟩
    · rename_i auction ha
      split
      · exact Or.inl ⟨rfl, rfl⟩
      · rename_i pItem _
        split
        · exact Or.inl ⟨rfl, rfl⟩
        · rename_i prototype _
          have h := bidOnListing_acted bot host config st auction pItem prototype
          rw [GetAuction_Id st.house randomID auction ha] at h
          exact h

theorem foldl_bidOn_acted (bot : AuctionHouseBot) (host : Host) (config : Profile) :
    ∀ (ids : List Nat) (st : BuyerState),
      ∃ new : List Nat, new.Sublist ids ∧
        (ids.foldl (bidOn bot host config) st).acted = st.acted ++ new ∧
        (ids.foldl (bidOn bot host config) st).statements.length
          = st.statements.length + new.length := by
  intro ids
  induction ids with
  | nil => intro st; exact ⟨[], List.Sublist.refl _, by simp, by simp⟩
  | cons id rest ih =>
    intro st
    obtain ⟨new, hsub, hacted, hlen⟩ := ih (bidOn bot host config st id)
    rcases bidOn_acted bot host config st id with ⟨h1, h2⟩ | ⟨h1, h2⟩
    · refine ⟨new, List.Sublist.cons _ hsub, ?_, ?_⟩
      · rw [List.foldl_cons, hacted, h1]
      · rw [List.foldl_cons, hlen, h2]
    · refine ⟨id :: new, List.Sublist.cons₂ _ hsub, ?_, ?_⟩
      · rw [List.foldl_cons, hacted, h1]; simp
      · rw [List.foldl_cons, hlen, h2]; simp; omega

/-- C16: a missing or empty query result leaves the whole state of the buyer as it was;
for a result with rows the listings acted on (a bid or a buyout, one statement each) are
a sub-list of the rows, so they are at most min(bidsPerInterval, number of rows), each is
a member of the result set, and they are distinct when the rows are. -/
theorem C16_acts_within_the_sample (bot : AuctionHouseBot) (host : Host) (config : Profile)
    (st : BuyerState) :
    AddNewAuctionBuyerBotBidCallback bot host config none st = st ∧
    AddNewAuctionBuyerBotBidCallback bot host config (some []) st = st ∧
    ∀ rows : List Nat, ∃ new : List Nat,
      (AddNewAuctionBuyerBotBidCallback bot host config (some rows) st).acted
        = st.acted ++ new ∧
      (AddNewAuctionBuyerBotBidCallback bot host config (some rows) st).statements.length
        = st.statements.length + new.length ∧
      new.length ≤ min config.bidsPerInterval rows.length ∧
      new.Sublist rows ∧
      (∀ id ∈ new, id ∈ rows) ∧
      (rows.Nodup → new.Nodup) := by
  refine ⟨rfl, by simp [AddNewAuctionBuyerBotBidCallback], ?_⟩
  intro rows
  by_cases hrows : rows = []
  · refine ⟨[], ?_⟩
    subst hrows
    simp [AddNewAuctionBuyerBotBidCallback]
  · obtain ⟨new, hsub, hacted, hlen⟩ :=
      foldl_bidOn_acted bot host config (sample rows config.bidsPerInterval st.rng).1
        { st with rng := (sample rows config.bidsPerInterval st.rng).2 }
    have hs : new.Sublist rows := hsub.trans (sample_sublist rows config.bidsPerInterval st.rng)
    have hl : new.length ≤ min config.bidsPerInterval rows.length := by
      have h1 := hsub.length_le
      have h2 := sample_length rows config.bidsPerInterval st.rng
      omega
    refine ⟨new, ?_, ?_, hl, hs, fun id hid => hs.subset hid, fun hn => hn.sublist hs⟩
    · simp only [AddNewAuctionBuyerBotBidCallback, hrows, if_false]
      exact hacted
    · simp only [AddNewAuctionBuyerBotBidCallback, hrows, if_false]
      exact hlen

theorem C16_acts_within_the_sample_witness :
    (AddNewAuctionBuyerBotBidCallback exampleAuctionHouseBot (exampleHost (fun _ => 5))
      (exampleProfile 2 2) (some [11, 12, 13])
      { buyerStart [playerAuction 11 100 0 0 0, playerAuction 13 100 104 0 0] [103, 200]
        with rng := [5, 1, 0] }).acted = [13] ∧
    AddNewAuctionBuyerBotBidCallback exampleAuctionHouseBot (exampleHost (fun _ => 5))
      (exampleProfile 2 2) none
      { buyerStart [playerAuction 11 100 0 0 0, playerAuction 13 100 104 0 0] [103, 200]
        with rng := [5, 1, 0] }
      = { buyerStart [playerAuction 11 100 0 0 0, playerAuction 13 100 104 0 0] [103, 200]
          with rng := [5, 1, 0] } :=
  ⟨by rfl,
    (C16_acts_within_the_sample exampleAuctionHouseBot (exampleHost (fun _ => 5))
      (exampleProfile 2 2)
      { buyerStart [playerAuction 11 100 0 0 0, playerAuction 13 100 104 0 0] [103, 200]
        with rng := [5, 1, 0] }).1⟩

/-! ## The claims on `LoadValues` and `Commands` -/

theorem countAuction_apply (host : Host) (house : AuctionHouse) (counts : Nat → Nat)
    (auction : HouseAuction) (i : Nat) :
    countAuction host house counts auction i
      = counts i + if loadedBin host house auction = some i then 1 else 0 := by
  unfold countAuction loadedBin
  cases h1 : house.items auction.item_guid with
  | none => simp
  | some item =>
    dsimp only
    cases h2 : item.Template with
    | none => simp
    | some prototype =>
      by_cases hq : prototype.Quality ≤ ITEM_QUALITY_ARTIFACT
      · by_cases hc : prototype.Class = ITEM_CLASS_TRADE_GOODS
        · simp only [hq, hc, if_true, IncreaseItemCountsAt, Option.some.injEq]
          by_cases hi : prototype.Quality = i
          · subst hi; simp
          · rw [Function.update_noteq (Ne.symm hi)]; simp [hi]
        · simp only [hq, hc, if_true, if_false, IncreaseItemCountsAt, Option.some.injEq]
          by_cases hi : prototype.Quality + host.AHB_MAX_DEFAULT_QUALITY = i
          · subst hi; simp
          · rw [Function.update_noteq (Ne.symm hi)]; simp [hi]
      · simp [hq]

theorem foldl_countAuction (host : Host) (house : AuctionHouse) (i : Nat) :
    ∀ (auctions : List HouseAuction) (counts : Nat → Nat),
      auctions.foldl (countAuction host house) counts i
        = counts i + auctions.countP (fun a => decide (loadedBin host house a = some i)) := by
  intro auctions
  induction auctions with
  | nil => intro counts; simp
  | cons a rest ih =>
    intro counts
    rw [List.foldl_cons, ih, countAuction_apply, List.countP_cons]
    by_cases h : loadedBin host house a = some i
    · simp [h]; omega
    · simp [h]

theorem loadedBin_tradeGood (host : Host) (house : AuctionHouse) (auction : HouseAuction)
    (q : Nat) (hK : host.AHB_MAX_DEFAULT_QUALITY = 7) (hq : q ≤ 6) :
    decide (loadedBin host house auction = some q) = backingItemIs house true q auction := by
  unfold loadedBin backingItemIs
  cases h1 : house.items auction.item_guid with
  | none => simp
  | some item =>
    dsimp only
    cases h2 : item.Template with
    | none => simp
    | some prototype =>
      by_cases hc : prototype.Class = ITEM_CLASS_TRADE_GOODS
      · by_cases hp : prototype.Quality = q
        · simp [hc, hp, ITEM_QUALITY_ARTIFACT, hq]
        · by_cases hle : prototype.Quality ≤ ITEM_QUALITY_ARTIFACT <;> simp [hc, hp, hle]
      · have hne : ¬ prototype.Quality + 7 = q := by omega
        by_cases hle : prototype.Quality ≤ ITEM_QUALITY_ARTIFACT <;> simp [hc, hK, hle, hne]

theorem loadedBin_other (host : Host) (house : AuctionHouse) (auction : HouseAuction)
    (q : Nat) (hK : host.AHB_MAX_DEFAULT_QUALITY = 7) (hq : q ≤ 6) :
    decide (loadedBin host house auction = some (q + 7))
      = backingItemIs house false q auction := by
  unfold loadedBin backingItemIs
  cases h1 : house.items auction.item_guid with
  | none => simp
  | some item =>
    dsimp only
    cases h2 : item.Template with
    | none => simp
    | some prototype =>
      by_cases hc : prototype.Class = ITEM_CLASS_TRADE_GOODS
      · by_cases hle : prototype.Quality ≤ ITEM_QUALITY_ARTIFACT
        · have hne : ¬ prototype.Quality = q + 7 := by
            unfold ITEM_QUALITY_ARTIFACT at hle; omega
          simp [hc, hle, hne]
        · simp [hc, hle]
      · by_cases hp : prototype.Quality = q
        · simp [hc, hp, hK, ITEM_QUALITY_ARTIFACT, hq]
        · by_cases hle : prototype.Quality ≤ ITEM_QUALITY_ARTIFACT <;> simp [hc, hK, hp, hle]

theorem LoadValues_itemCounts (bot : AuctionHouseBot) (host : Host) (row : SellerRow)
    (buyerRow : Option BuyerRow) (house : AuctionHouse) (config : Profile)
    (hseller : bot.AHBSeller = true) :
    (LoadValues bot host (some row) buyerRow house config).itemCounts
      = house.auctions.foldl (countAuction host house) ResetItemCounts := by
  unfold LoadValues
  simp only [hseller, if_true]
  split_ifs
  · cases buyerRow <;> rfl
  · rfl

/-- C17: after `LoadValues` with the seller enabled and the row of the venue found, with
the standard bins `AHB_MAX_DEFAULT_QUALITY = 7` places above the trade-good bins, for
every quality q in 0..6 the counter of bin q is the number of listings of the venue whose
live backing item is a trade good of quality q, the counter of bin q + 7 is the number of
those whose live backing item is another item of quality q, these 14 bins are pairwise
distinct bins of the array, and the counters do not depend on the profile before the load. -/
theorem C17_counters_recounted (bot : AuctionHouseBot) (host : Host) (row : SellerRow)
    (buyerRow : Option BuyerRow) (house : AuctionHouse) (config : Profile)
    (hseller : bot.AHBSeller = true) (hK : host.AHB_MAX_DEFAULT_QUALITY = 7) :
    (∀ q, q ≤ 6 →
      (LoadValues bot host (some row) buyerRow house config).itemCounts q
        = house.auctions.countP (backingItemIs house true q) ∧
      (LoadValues bot host (some row) buyerRow house config).itemCounts (q + 7)
        = house.auctions.countP (backingItemIs house false q)) ∧
    (∀ q r, q ≤ 6 → r ≤ 6 →
      q + 7 < AHB_MAX_QUALITY ∧ q ≠ r + host.AHB_MAX_DEFAULT_QUALITY) ∧
    (∀ previous : Profile,
      (LoadValues bot host (some row) buyerRow house previous).itemCounts
        = (LoadValues bot host (some row) buyerRow house config).itemCounts) := by
  refine ⟨?_, ?_, ?_⟩
  · intro q hq
    rw [LoadValues_itemCounts bot host row buyerRow house config hseller]
    rw [foldl_countAuction, foldl_countAuction]
    constructor
    · simp only [ResetItemCounts, Nat.zero_add]
      exact List.countP_congr (fun a _ => by
        rw [loadedBin_tradeGood host house a q hK hq])
    · simp only [ResetItemCounts, Nat.zero_add]
      exact List.countP_congr (fun a _ => by
        rw [loadedBin_other host house a q hK hq])
  · intro q r hq hr
    rw [hK]
    unfold AHB_MAX_QUALITY
    omega
  · intro previous
    rw [LoadValues_itemCounts bot host row buyerRow house config hseller,
      LoadValues_itemCounts bot host row buyerRow house previous hseller]

theorem C17_counters_recounted_witness :
    exampleAuctionHouseBot.AHBSeller = true ∧
    (exampleHost (fun _ => 5)).AHB_MAX_DEFAULT_QUALITY = 7 ∧
    (LoadValues exampleAuctionHouseBot (exampleHost (fun _ => 5)) (some exampleSellerRow) none
        stockedHouse (exampleProfile 2 2)).itemCounts 3
      = stockedHouse.auctions.countP (backingItemIs stockedHouse true 3) ∧
    stockedHouse.auctions.countP (backingItemIs stockedHouse true 3) = 2 ∧
    (LoadValues exampleAuctionHouseBot (exampleHost (fun _ => 5)) (some exampleSellerRow) none
        stockedHouse (exampleProfile 2 2)).itemCounts (0 + 7)
      = stockedHouse.auctions.countP (backingItemIs stockedHouse false 0) ∧
    stockedHouse.auctions.countP (backingItemIs stockedHouse false 0) = 1 :=
  ⟨rfl, rfl,
    ((C17_counters_recounted exampleAuctionHouseBot (exampleHost (fun _ => 5)) exampleSellerRow
      none stockedHouse (exampleProfile 2 2) rfl rfl).1 3 (by decide)).1,
    by decide,
    ((C17_counters_recounted exampleAuctionHouseBot (exampleHost (fun _ => 5)) exampleSellerRow
      none stockedHouse (exampleProfile 2 2) rfl rfl).1 0 (by decide)).2,
    by decide⟩

/-- C18 (the code at the failing input): the command `minitems 5` for the venue
identifier 1, which is none of the three venues, sends the `UPDATE` of
`mod_auctionhousebot` and then dereferences the null profile; `ahexpire` for the same
identifier dereferences the null profile at once, and sends nothing. -/
theorem C18_unknown_venue_is_written :
    selectConfig 1 = none ∧
    (Commands (exampleHost (fun _ => 5)) commandStart AHBotCommand.minitems 1 0
        { number := 5, percents := fun _ => 0 }).statements
      = [Statement.updateConfig Column.minitems none 5 1] ∧
    (Commands (exampleHost (fun _ => 5)) commandStart AHBotCommand.minitems 1 0
        { number := 5, percents := fun _ => 0 }).fault = true ∧
    (Commands (exampleHost (fun _ => 5)) commandStart AHBotCommand.ahexpire 1 0
        { number := 5, percents := fun _ => 0 }).statements = [] ∧
    (Commands (exampleHost (fun _ => 5)) commandStart AHBotCommand.ahexpire 1 0
        { number := 5, percents := fun _ => 0 }).fault = true := by
  refine ⟨by decide, ?_, rfl, rfl, rfl⟩
  simp [Commands, setterCommand, applyToConfig, selectConfig, commandStart,
    AUCTIONHOUSE_ALLIANCE, AUCTIONHOUSE_HORDE, AUCTIONHOUSE_NEUTRAL]

/-! ## The claims on the listings of the seller -/

theorem processItems_mem (bot : Bot) (env : Env) (config : AHBConfig) (ids : List Nat) :
    ∀ (rng : List Nat) (host : List Bool) (a : AuctionEntry),
      a ∈ (processItems bot env config ids rng host).1 →
      ∃ itemID prototype rng', itemID ∈ ids ∧ env.GetItemTemplate itemID = some prototype ∧
        prototype.Quality ≤ env.AHB_MAX_DEFAULT_QUALITY ∧
        a = (buildAuction bot env config itemID prototype rng').1 := by
  induction ids with
  | nil => intro rng host a ha; simp [processItems] at ha
  | cons x xs ih =>
    intro rng host a ha
    unfold processItems at ha
    cases hx : env.GetItemTemplate x with
    | none =>
      simp only [hx] at ha
      obtain ⟨i, p, r, hi, hp, hq, hb⟩ := ih _ _ a ha
      exact ⟨i, p, r, List.mem_cons_of_mem _ hi, hp, hq, hb⟩
    | some prototype =>
      simp only [hx] at ha
      by_cases hc : (nextCreate host).1 = false
      · simp [hc] at ha
      · by_cases hq : prototype.Quality ≤ env.AHB_MAX_DEFAULT_QUALITY
        · simp only [hc, hq, if_true, if_false, List.mem_cons] at ha
          cases ha with
          | head => exact ⟨x, prototype, rng, List.mem_cons_self _ _, hx, hq, rfl⟩
          | tail _ h2 =>
            obtain ⟨i, p, r, hi, hp, hq', hb⟩ := ih _ _ a h2
            exact ⟨i, p, r, List.mem_cons_of_mem _ hi, hp, hq', hb⟩
        · simp only [hc, hq, if_false] at ha
          obtain ⟨i, p, r, hi, hp, hq', hb⟩ := ih _ _ a ha
          exact ⟨i, p, r, List.mem_cons_of_mem _ hi, hp, hq', hb⟩

/-- Every listing of a pass that has ended was built by the body of the item loop for an
identifier with a definition of a supported quality. -/
theorem created_built (bot : Bot) (env : Env) (config : AHBConfig) (venue : Venue)
    (fuel : Nat) (rng : List Nat) (host : List Bool) (st : SellerState)
    (h : AddNewAuctions bot env config venue fuel rng host = some st) :
    ∀ a ∈ created st, ∃ itemID prototype rng',
      env.GetItemTemplate itemID = some prototype ∧
      prototype.Quality ≤ env.AHB_MAX_DEFAULT_QUALITY ∧
      a = (buildAuction bot env config itemID prototype rng').1 := by
  have step : ∀ s : SellerState,
      (∀ a ∈ created s, ∃ itemID prototype rng',
        env.GetItemTemplate itemID = some prototype ∧
        prototype.Quality ≤ env.AHB_MAX_DEFAULT_QUALITY ∧
        a = (buildAuction bot env config itemID prototype rng').1) →
      s.itemsToCreate ≠ 0 →
      ∀ a ∈ created (iteration bot env config s), ∃ itemID prototype rng',
        env.GetItemTemplate itemID = some prototype ∧
        prototype.Quality ≤ env.AHB_MAX_DEFAULT_QUALITY ∧
        a = (buildAuction bot env config itemID prototype rng').1 := by
    intro s hs _
    unfold iteration
    cases hc : chooseQuality s.itemCountToCreate (discreteDraw s.randomQuality s.rng).1 with
    | none => simpa [created] using hs
    | some q =>
      intro a ha
      simp only [created_commitBatch, List.mem_append] at ha
      rcases ha with ha | ha
      · exact hs a ha
      · obtain ⟨i, p, r, _, hp, hq, hb⟩ := processItems_mem bot env config _ _ _ a ha
        exact ⟨i, p, r, hp, hq, hb⟩
  unfold AddNewAuctions at h
  split_ifs at h
  all_goals first
    | (cases h; simp [idle, created, listingsOf])
    | skip
  exact (sellerLoop_induct bot env config _ step fuel _ st
    (by simp [loopEntry, created, listingsOf]) h).1

theorem buildAuction_expire_time (bot : Bot) (env : Env) (config : AHBConfig) (itemID : Nat)
    (prototype : ItemTemplate) (rng : List Nat) :
    ∃ n, n ≤ 3 ∧
      (buildAuction bot env config itemID prototype rng).1.expire_time
        = n * (12 * 3600) + env.GetGameTime := by
  refine ⟨(uniformInt 0 3 (calculatePrices env config prototype
    (if bot.SellMethod then prototype.BuyPrice else prototype.SellPrice)
    (calculateStackSize config prototype rng).2).2).1, ?_, rfl⟩
  exact (uniformInt_mem 0 3 _ (by omega)).2

/-- C21 (the code at the failing input): in the scenario max = 100, min = 95 with 90
listings, with a generator whose draws for `randomTime` are 0, the pass ends and each of
its ten listings expires at the current game time, 1000: a duration of 0 hours. In every
pass that ends, the expiry of a listing is the game time plus 0, 12, 24 or 36 hours. -/
theorem C21_listing_without_duration :
    AddNewAuctions exampleBot (exampleEnv 12) scenarioConfig (exampleVenue 90) 20 [7] []
      = some scenarioEnd ∧
    (exampleEnv 12).GetGameTime = 1000 ∧
    (created scenarioEnd).map (fun a => (a.item_template, a.expire_time))
      = [(301, 1000), (302, 1000), (303, 1000), (304, 1000), (305, 1000), (306, 1000),
         (307, 1000), (308, 1000), (309, 1000), (310, 1000)] ∧
    ∀ (bot : Bot) (env : Env) (config : AHBConfig) (venue : Venue) (fuel : Nat)
      (rng : List Nat) (host : List Bool) (st : SellerState),
      AddNewAuctions bot env config venue fuel rng host = some st →
      ∀ a ∈ created st, ∃ n, n ≤ 3 ∧ a.expire_time = env.GetGameTime + n * (12 * 3600) := by
  refine ⟨by rfl, rfl, by rfl, ?_⟩
  intro bot env config venue fuel rng host st h a ha
  obtain ⟨i, p, r, _, _, hb⟩ := created_built bot env config venue fuel rng host st h a ha
  obtain ⟨n, hn, he⟩ := buildAuction_expire_time bot env config i p r
  exact ⟨n, hn, by rw [hb, he]; omega⟩

theorem stackCount_bounds (config : AHBConfig) (prototype : ItemTemplate) (rng : List Nat) :
    1 ≤ stackCount config prototype rng ∧
    (prototype.Class ≠ ITEM_CLASS_GLYPH →
      stackCount config prototype rng ≤ maxStackSize config prototype) := by
  unfold stackCount calculateStackSize maxStackSize
  by_cases hc : prototype.Class = ITEM_CLASS_GLYPH
  · simp [hc]
  · simp only [hc, if_false]
    have h1 : 1 ≤ max 1 prototype.MaxStackSize := le_max_left _ _
    by_cases hm : config.maxStack prototype.Quality = 0
    · simp only [hm, ne_eq, not_true_eq_false, if_false]
      exact ⟨(uniformInt_mem 1 _ rng h1).1, fun _ => (uniformInt_mem 1 _ rng h1).2⟩
    · simp only [hm, ne_eq, not_false_eq_true, if_true]
      have h2 : 1 ≤ min (max 1 prototype.MaxStackSize) (config.maxStack prototype.Quality) :=
        le_min h1 (Nat.pos_of_ne_zero hm)
      exact ⟨(uniformInt_mem 1 _ rng h2).1, fun _ => (uniformInt_mem 1 _ rng h2).2⟩

theorem buildAuction_fields (bot : Bot) (env : Env) (config : AHBConfig) (itemID : Nat)
    (prototype : ItemTemplate) (rng : List Nat) :
    (buildAuction bot env config itemID prototype rng).1.item_template = itemID ∧
    (buildAuction bot env config itemID prototype rng).1.itemCount
      = stackCount config prototype rng ∧
    (buildAuction bot env config itemID prototype rng).1.bid = 0 ∧
    (buildAuction bot env config itemID prototype rng).1.buyout
      = ((vendorPrice bot env config prototype rng * buyPriceMultiplier env config prototype rng)
          % 2 ^ 64 / 100 % 2 ^ 32 * stackCount config prototype rng) % 2 ^ 32 ∧
    (buildAuction bot env config itemID prototype rng).1.startbid
      = (((vendorPrice bot env config prototype rng
            * buyPriceMultiplier env config prototype rng) % 2 ^ 64 / 100
          * bidPriceMultiplier env config prototype rng) % 2 ^ 64 / 100 % 2 ^ 32
          * stackCount config prototype rng) % 2 ^ 32 := by
  refine ⟨rfl, rfl, rfl, ?_, ?_⟩
  · simp only [buildAuction, calculatePrices, vendorPrice, buyPriceMultiplier, stackCount]
  · simp only [buildAuction, calculatePrices, vendorPrice, buyPriceMultiplier,
      bidPriceMultiplier, stackCount]

/-- With the unit buyout `B = floor(P * m / 100)`: when `B * s` fits in 32 bits, the
buyout of the listing is `B * s`, and `B` itself fits. -/
theorem buildAuction_buyout (bot : Bot) (env : Env) (config : AHBConfig) (itemID : Nat)
    (prototype : ItemTemplate) (rng : List Nat)
    (hfit : vendorPrice bot env config prototype rng * buyPriceMultiplier env config prototype rng
      / 100 * stackCount config prototype rng < 2 ^ 32) :
    vendorPrice bot env config prototype rng * buyPriceMultiplier env config prototype rng / 100
      < 2 ^ 32 ∧
    (vendorPrice bot env config prototype rng * buyPriceMultiplier env config prototype rng)
      % 2 ^ 64 = vendorPrice bot env config prototype rng
        * buyPriceMultiplier env config prototype rng ∧
    (buildAuction bot env config itemID prototype rng).1.buyout
      = vendorPrice bot env config prototype rng * buyPriceMultiplier env config prototype rng
        / 100 * stackCount config prototype rng := by
  have hs := (stackCount_bounds config prototype rng).1
  have hB : vendorPrice bot env config prototype rng
      * buyPriceMultiplier env config prototype rng / 100 < 2 ^ 32 :=
    lt_of_le_of_lt (Nat.le_mul_of_pos_right _ hs) hfit
  have hPm : (vendorPrice bot env config prototype rng
      * buyPriceMultiplier env config prototype rng) % 2 ^ 64
      = vendorPrice bot env config prototype rng
        * buyPriceMultiplier env config prototype rng := by
    apply Nat.mod_eq_of_lt
    omega
  refine ⟨hB, hPm, ?_⟩
  rw [(buildAuction_fields bot env config itemID prototype rng).2.2.2.1, hPm,
    Nat.mod_eq_of_lt hB, Nat.mod_eq_of_lt hfit]

theorem randomQuality_some (bot : Bot) (config : AHBConfig) (venue : Venue) (w : Nat → Nat)
    (h : randomQuality bot config venue = some w) :
    w = deficits config ∧ itemsToCreateInit bot config venue ≠ 0 ∧
    bot.AHBSeller = true ∧ config.maxItems ≠ 0 ∧ venue.ahEntry = true ∧
    venue.auctionHouse = true ∧ venue.auctions < config.minItems ∧
    venue.auctions < config.maxItems := by
  unfold randomQuality at h
  split_ifs at h with h1 h2 h3 h4 h5 h6 h7
  simp only [Option.some.injEq] at h
  refine ⟨h.symm, h7, by simpa using h1, h2, by simpa using h3, by simpa using h4, ?_, ?_⟩
  · omega
  · omega

theorem exists_ne_zero_of_accumulate (a : Nat → Nat) (h : accumulate a ≠ 0) :
    ∃ i, i < AHB_MAX_QUALITY ∧ a i ≠ 0 := by
  by_contra hno
  push_neg at hno
  apply h
  rw [accumulate_eq, total_eq_zero a hno]
  rfl

/-- C22: whenever the pass reaches the construction of the distribution `randomQuality`,
the weights are the tier deficits, `itemsToCreate` after the clamp to the 32-bit sum of
the deficits is nonzero, and so at least one deficit is nonzero and the total weight is
positive; the loop is entered with these weights. When `itemsToCreate` is zero after the
clamp the distribution is not constructed, and when it is not constructed the pass has
returned with nothing created. -/
theorem C22_guard_before_distribution (bot : Bot) (env : Env) (config : AHBConfig)
    (venue : Venue) (fuel : Nat) (rng : List Nat) (host : List Bool) :
    (∀ w, randomQuality bot config venue = some w →
      w = deficits config ∧
      itemsToCreateInit bot config venue ≠ 0 ∧
      (∃ i, i < AHB_MAX_QUALITY ∧ w i ≠ 0) ∧
      0 < (weightList w).sum ∧
      (loopEntry bot config venue rng host).randomQuality = w ∧
      AddNewAuctions bot env config venue fuel rng host
        = sellerLoop bot env config fuel (loopEntry bot config venue rng host)) ∧
    (itemsToCreateInit bot config venue = 0 → randomQuality bot config venue = none) ∧
    (randomQuality bot config venue = none →
      AddNewAuctions bot env config venue fuel rng host = some (idle config rng host)) := by
  refine ⟨?_, ?_, ?_⟩
  · intro w h
    obtain ⟨hw, h0, h1, h2, h3, h4, h5, h6⟩ := randomQuality_some bot config venue w h
    have hacc : accumulate (deficits config) ≠ 0 := by
      intro hz
      apply h0
      unfold itemsToCreateInit
      rw [hz]
      exact Nat.min_zero _
    obtain ⟨i, hi, hne⟩ := exists_ne_zero_of_accumulate _ hacc
    refine ⟨hw, h0, ⟨i, hi, by rw [hw]; exact hne⟩, ?_, by rw [hw]; rfl, ?_⟩
    · rw [hw, weightList_sum]
      unfold total
      exact lt_of_lt_of_le (Nat.pos_of_ne_zero hne)
        (Finset.single_le_sum (fun _ _ => Nat.zero_le _) (Finset.mem_range.mpr hi))
    · unfold AddNewAuctions
      simp [h1, h2, h3, h4, h0, Nat.not_le.mpr h5, Nat.not_le.mpr h6]
  · intro h0
    unfold randomQuality
    simp [h0]
  · intro h
    unfold randomQuality at h
    unfold AddNewAuctions
    split_ifs at h ⊢ <;> rfl

theorem C22_guard_before_distribution_witness :
    (randomQuality exampleBot scenarioConfig (exampleVenue 90)).map weightList
      = some [0, 5, 0, 10, 0, 0, 0, 0, 0, 0, 0, 0, 0, 0] ∧
    (itemsToCreateInit exampleBot overflowConfig (exampleVenue 90) = 0 →
      randomQuality exampleBot overflowConfig (exampleVenue 90) = none) ∧
    itemsToCreateInit exampleBot overflowConfig (exampleVenue 90) = 0 :=
  ⟨by rfl,
    (C22_guard_before_distribution exampleBot (exampleEnv 12) overflowConfig (exampleVenue 90)
      20 [7] []).2.1,
    by decide⟩

/-- C23 (as stated) fails: for an item that is no glyph and whose maximum stack size is 0,
with no stack cap, the seller computes the stack size 1, which is not in [1, 0]. -/
theorem C23_counterexample :
    looseTemplate.Class ≠ ITEM_CLASS_GLYPH ∧
    (pricedConfig 100 100).maxStack looseTemplate.Quality = 0 ∧
    looseTemplate.MaxStackSize = 0 ∧
    (calculateStackSize (pricedConfig 100 100) looseTemplate [5]).1 = 1 ∧
    ¬ (calculateStackSize (pricedConfig 100 100) looseTemplate [5]).1
        ≤ looseTemplate.MaxStackSize := by
  refine ⟨by decide, rfl, rfl, by decide, by decide⟩

/-- C23 (amended): for every item that is no glyph the stack size the seller computes
lies in [1, effectiveMaxStack], where effectiveMaxStack is max(1, maximum stack size of
the item) when the cap of the quality is 0 and min(max(1, maximum stack size), cap)
otherwise; when the maximum stack size of the item is at least 1 these are the maximum
stack size itself and min(maximum stack size, cap). It is the stack quantity of the
listing built for the item. -/
theorem C23_stack_within_range (bot : Bot) (env : Env) (config : AHBConfig) (itemID : Nat)
    (prototype : ItemTemplate) (rng : List Nat) (hc : prototype.Class ≠ ITEM_CLASS_GLYPH) :
    1 ≤ (calculateStackSize config prototype rng).1 ∧
    (config.maxStack prototype.Quality = 0 →
      (calculateStackSize config prototype rng).1 ≤ max 1 prototype.MaxStackSize) ∧
    (config.maxStack prototype.Quality ≠ 0 →
      (calculateStackSize config prototype rng).1
        ≤ min (max 1 prototype.MaxStackSize) (config.maxStack prototype.Quality)) ∧
    (1 ≤ prototype.MaxStackSize →
      (config.maxStack prototype.Quality = 0 →
        (calculateStackSize config prototype rng).1 ≤ prototype.MaxStackSize) ∧
      (config.maxStack prototype.Quality ≠ 0 →
        (calculateStackSize config prototype rng).1
          ≤ min prototype.MaxStackSize (config.maxStack prototype.Quality))) ∧
    (buildAuction bot env config itemID prototype rng).1.itemCount
      = (calculateStackSize config prototype rng).1 := by
  obtain ⟨h1, h2⟩ := stackCount_bounds config prototype rng
  have h3 := h2 hc
  unfold stackCount at h1 h3
  unfold maxStackSize at h3
  refine ⟨h1, ?_, ?_, ?_, rfl⟩
  · intro h0
    simpa [h0] using h3
  · intro h0
    simpa [h0] using h3
  · intro hM
    have hmax : max 1 prototype.MaxStackSize = prototype.MaxStackSize := max_eq_right hM
    constructor
    · intro h0
      rw [← hmax]
      simpa [h0] using h3
    · intro h0
      rw [← hmax]
      simpa [h0] using h3

theorem C23_stack_within_range_witness :
    (exampleTemplate 301).Class ≠ ITEM_CLASS_GLYPH ∧
    1 ≤ (calculateStackSize { pricedConfig 120 150 with maxStack := fun _ => 5 }
      (exampleTemplate 301) [7]).1 ∧
    (calculateStackSize { pricedConfig 120 150 with maxStack := fun _ => 5 }
      (exampleTemplate 301) [7]).1 = 3 ∧
    min (max 1 (exampleTemplate 301).MaxStackSize) 5 = 5 :=
  ⟨by decide,
    (C23_stack_within_range exampleBot (exampleEnv 12)
      { pricedConfig 120 150 with maxStack := fun _ => 5 } 301 (exampleTemplate 301) [7]
      (by decide)).1,
    by decide, by decide⟩

/-- C24 (as stated) fails: for an item with the vendor price 300000000 and the buyout
multiplier 100 the unit buyout is 300000000; with the stack quantity 20 the buyout total
B * s is 6000000000, and the `uint32` field of the listing holds 1705032704. -/
theorem C24_counterexample :
    dearEnv.GetItemTemplate 50000 = some bulkTemplate ∧
    vendorPrice exampleBot dearEnv (pricedConfig 100 100) bulkTemplate [19, 0, 30, 2]
      * buyPriceMultiplier dearEnv (pricedConfig 100 100) bulkTemplate [19, 0, 30, 2] / 100
      = 300000000 ∧
    (calculatePrices dearEnv (pricedConfig 100 100) bulkTemplate 300000000 [0, 30, 2]).1.1
      = 300000000 ∧
    stackCount (pricedConfig 100 100) bulkTemplate [19, 0, 30, 2] = 20 ∧
    (processItems exampleBot dearEnv (pricedConfig 100 100) [50000] [19, 0, 30, 2] []).1.map
        (fun a => (a.itemCount, a.buyout, a.bid))
      = [(20, 1705032704, 0)] ∧
    300000000 * 20 = 6000000000 := by
  refine ⟨rfl, by decide, by decide, by decide, by rfl, by decide⟩

/-- C24 (amended): every listing of a pass that has ended was built for an item with a
definition, with a reference price P, a buyout multiplier m, a bid multiplier k and a
stack quantity s; its highest bid is 0 and its item count is s; with the unit buyout
B = floor(P * m / 100), whenever B * s and floor(B * k / 100) * s fit in 32 bits its
buyout is B * s and its starting bid is floor(B * k / 100) * s. -/
theorem C24_listing_totals (bot : Bot) (env : Env) (config : AHBConfig) (venue : Venue)
    (fuel : Nat) (rng : List Nat) (host : List Bool) (st : SellerState)
    (h : AddNewAuctions bot env config venue fuel rng host = some st)
    (a : AuctionEntry) (ha : a ∈ created st) :
    ∃ prototype rng', env.GetItemTemplate a.item_template = some prototype ∧
      a = (buildAuction bot env config a.item_template prototype rng').1 ∧
      a.bid = 0 ∧
      a.itemCount = stackCount config prototype rng' ∧
      (vendorPrice bot env config prototype rng' * buyPriceMultiplier env config prototype rng'
          / 100 * stackCount config prototype rng' < 2 ^ 32 →
        vendorPrice bot env config prototype rng' * buyPriceMultiplier env config prototype rng'
          / 100 * bidPriceMultiplier env config prototype rng' / 100
          * stackCount config prototype rng' < 2 ^ 32 →
        a.buyout = vendorPrice bot env config prototype rng'
          * buyPriceMultiplier env config prototype rng' / 100
          * stackCount config prototype rng' ∧
        a.startbid = vendorPrice bot env config prototype rng'
          * buyPriceMultiplier env config prototype rng' / 100
          * bidPriceMultiplier env config prototype rng' / 100
          * stackCount config prototype rng') := by
  obtain ⟨i, p, r, hp, _, hb⟩ := created_built bot env config venue fuel rng host st h a ha
  have hi : a.item_template = i := by rw [hb]; rfl
  refine ⟨p, r, by rw [hi]; exact hp, by rw [hi]; exact hb, by rw [hb]; rfl, by rw [hb]; rfl, ?_⟩
  intro hfit hfit2
  obtain ⟨hB, hPm, hbuy⟩ := buildAuction_buyout bot env config i p r hfit
  have hs := (stackCount_bounds config p r).1
  have hbid : vendorPrice bot env config p r * buyPriceMultiplier env config p r / 100
      * bidPriceMultiplier env config p r / 100 < 2 ^ 32 :=
    lt_of_le_of_lt (Nat.le_mul_of_pos_right _ hs) hfit2
  have hBk : (vendorPrice bot env config p r * buyPriceMultiplier env config p r / 100
      * bidPriceMultiplier env config p r) % 2 ^ 64
      = vendorPrice bot env config p r * buyPriceMultiplier env config p r / 100
      * bidPriceMultiplier env config p r := by
    apply Nat.mod_eq_of_lt
    omega
  refine ⟨by rw [hb]; exact hbuy, ?_⟩
  rw [hb, (buildAuction_fields bot env config i p r).2.2.2.2, hPm, hBk,
    Nat.mod_eq_of_lt hbid, Nat.mod_eq_of_lt hfit2]

theorem C24_listing_totals_witness :
    AddNewAuctions exampleBot (exampleEnv 12) scenarioConfig (exampleVenue 90) 20 [7] []
      = some scenarioEnd ∧
    ({ houseId := 2, item_template := 301, itemCount := 1, startbid := 840, buyout := 1200,
       bid := 0, deposit := 0, expire_time := 1000 } : AuctionEntry) ∈ created scenarioEnd ∧
    vendorPrice exampleBot (exampleEnv 12) scenarioConfig (exampleTemplate 301) [] = 1000 ∧
    buyPriceMultiplier (exampleEnv 12) scenarioConfig (exampleTemplate 301) [] = 120 ∧
    bidPriceMultiplier (exampleEnv 12) scenarioConfig (exampleTemplate 301) [] = 70 ∧
    stackCount scenarioConfig (exampleTemplate 301) [] = 1 ∧
    1000 * 120 / 100 * 1 = 1200 ∧ 1000 * 120 / 100 * 70 / 100 * 1 = 840 ∧
    ∃ prototype rng', (exampleEnv 12).GetItemTemplate 301 = some prototype ∧
      ({ houseId := 2, item_template := 301, itemCount := 1, startbid := 840, buyout := 1200,
         bid := 0, deposit := 0, expire_time := 1000 } : AuctionEntry)
        = (buildAuction exampleBot (exampleEnv 12) scenarioConfig 301 prototype rng').1 ∧
      (0 : Nat) = 0 ∧
      1 = stackCount scenarioConfig prototype rng' ∧
      (vendorPrice exampleBot (exampleEnv 12) scenarioConfig prototype rng'
          * buyPriceMultiplier (exampleEnv 12) scenarioConfig prototype rng'
          / 100 * stackCount scenarioConfig prototype rng' < 2 ^ 32 →
        vendorPrice exampleBot (exampleEnv 12) scenarioConfig prototype rng'
          * buyPriceMultiplier (exampleEnv 12) scenarioConfig prototype rng'
          / 100 * bidPriceMultiplier (exampleEnv 12) scenarioConfig prototype rng' / 100
          * stackCount scenarioConfig prototype rng' < 2 ^ 32 →
        1200 = vendorPrice exampleBot (exampleEnv 12) scenarioConfig prototype rng'
          * buyPriceMultiplier (exampleEnv 12) scenarioConfig prototype rng' / 100
          * stackCount scenarioConfig prototype rng' ∧
        840 = vendorPrice exampleBot (exampleEnv 12) scenarioConfig prototype rng'
          * buyPriceMultiplier (exampleEnv 12) scenarioConfig prototype rng' / 100
          * bidPriceMultiplier (exampleEnv 12) scenarioConfig prototype rng' / 100
          * stackCount scenarioConfig prototype rng') :=
  ⟨by rfl, by decide, by decide, by decide, by decide, by decide, by decide, by decide,
    C24_listing_totals exampleBot (exampleEnv 12) scenarioConfig (exampleVenue 90) 20 [7] []
      scenarioEnd (by rfl)
      { houseId := 2, item_template := 301, itemCount := 1, startbid := 840, buyout := 1200,
        bid := 0, deposit := 0, expire_time := 1000 } (by decide)⟩

/-- C28 (as stated) fails: for a glyph with the reference price 2^30 and the buyout
multiplier 400 the unit buyout floor(P * m / 100) is 2^32, which the `uint32` of the
returned pair holds as 0; the listing has the buyout 0 although P * m is not below 100
(and its starting bid, 3006477107, exceeds its buyout). -/
theorem C28_counterexample :
    dearEnv.GetItemTemplate 40001 = some dearGlyph ∧
    vendorPrice exampleBot dearEnv (pricedConfig 400 400) dearGlyph [0, 0, 0] = 1073741824 ∧
    buyPriceMultiplier dearEnv (pricedConfig 400 400) dearGlyph [0, 0, 0] = 400 ∧
    (processItems exampleBot dearEnv (pricedConfig 400 400) [40001] [0, 0, 0] []).1.map
        (fun a => (a.itemCount, a.buyout, a.startbid))
      = [(1, 0, 3006477107)] ∧
    ¬ 1073741824 * 400 < 100 := by
  refine ⟨rfl, by decide, by decide, by rfl, by decide⟩

/-- C28 (amended): for every listing of a pass that has ended, with the reference price
P, the multipliers m and k, the stack quantity s and the unit buyout
B = floor(P * m / 100): whenever B * s fits in 32 bits, the starting bid is at most
the buyout if k is at most 100, and the buyout is zero exactly when P * m is below 100. -/
theorem C28_bid_within_buyout (bot : Bot) (env : Env) (config : AHBConfig) (venue : Venue)
    (fuel : Nat) (rng : List Nat) (host : List Bool) (st : SellerState)
    (h : AddNewAuctions bot env config venue fuel rng host = some st)
    (a : AuctionEntry) (ha : a ∈ created st) :
    ∃ prototype rng', env.GetItemTemplate a.item_template = some prototype ∧
      a = (buildAuction bot env config a.item_template prototype rng').1 ∧
      (vendorPrice bot env config prototype rng' * buyPriceMultiplier env config prototype rng'
          / 100 * stackCount config prototype rng' < 2 ^ 32 →
        (bidPriceMultiplier env config prototype rng' ≤ 100 → a.startbid ≤ a.buyout) ∧
        (a.buyout = 0 ↔
          vendorPrice bot env config prototype rng'
            * buyPriceMultiplier env config prototype rng' < 100)) := by
  obtain ⟨i, p, r, hp, _, hb⟩ := created_built bot env config venue fuel rng host st h a ha
  have hi : a.item_template = i := by rw [hb]; rfl
  refine ⟨p, r, by rw [hi]; exact hp, by rw [hi]; exact hb, ?_⟩
  intro hfit
  obtain ⟨hB, hPm, hbuy⟩ := buildAuction_buyout bot env config i p r hfit
  have hs := (stackCount_bounds config p r).1
  constructor
  · intro hk
    have hBk : vendorPrice bot env config p r * buyPriceMultiplier env config p r / 100
        * bidPriceMultiplier env config p r
        ≤ vendorPrice bot env config p r * buyPriceMultiplier env config p r / 100 * 100 :=
      Nat.mul_le_mul_left _ hk
    have hmod : (vendorPrice bot env config p r * buyPriceMultiplier env config p r / 100
        * bidPriceMultiplier env config p r) % 2 ^ 64
        = vendorPrice bot env config p r * buyPriceMultiplier env config p r / 100
        * bidPriceMultiplier env config p r := by
      apply Nat.mod_eq_of_lt
      omega
    have hbid : vendorPrice bot env config p r * buyPriceMultiplier env config p r / 100
        * bidPriceMultiplier env config p r / 100
        ≤ vendorPrice bot env config p r * buyPriceMultiplier env config p r / 100 := by
      omega
    rw [hb, hbuy, (buildAuction_fields bot env config i p r).2.2.2.2, hPm, hmod,
      Nat.mod_eq_of_lt (lt_of_le_of_lt hbid hB)]
    exact le_trans (Nat.mod_le _ _) (Nat.mul_le_mul_right _ hbid)
  · rw [hb, hbuy]
    constructor
    · intro h0
      rcases Nat.mul_eq_zero.mp h0 with h1 | h1
      · omega
      · omega
    · intro hlt
      have : vendorPrice bot env config p r * buyPriceMultiplier env config p r / 100 = 0 := by
        omega
      rw [this, Nat.zero_mul]

theorem C28_bid_within_buyout_witness :
    AddNewAuctions exampleBot (exampleEnv 12) scenarioConfig (exampleVenue 90) 20 [7] []
      = some scenarioEnd ∧
    ({ houseId := 2, item_template := 302, itemCount := 1, startbid := 840, buyout := 1200,
       bid := 0, deposit := 0, expire_time := 1000 } : AuctionEntry) ∈ created scenarioEnd ∧
    ∃ prototype rng', (exampleEnv 12).GetItemTemplate 302 = some prototype ∧
      ({ houseId := 2, item_template := 302, itemCount := 1, startbid := 840, buyout := 1200,
         bid := 0, deposit := 0, expire_time := 1000 } : AuctionEntry)
        = (buildAuction exampleBot (exampleEnv 12) scenarioConfig 302 prototype rng').1 ∧
      (vendorPrice exampleBot (exampleEnv 12) scenarioConfig prototype rng'
          * buyPriceMultiplier (exampleEnv 12) scenarioConfig prototype rng'
          / 100 * stackCount scenarioConfig prototype rng' < 2 ^ 32 →
        (bidPriceMultiplier (exampleEnv 12) scenarioConfig prototype rng' ≤ 100 →
          840 ≤ 1200) ∧
        (1200 = 0 ↔
          vendorPrice exampleBot (exampleEnv 12) scenarioConfig prototype rng'
            * buyPriceMultiplier (exampleEnv 12) scenarioConfig prototype rng' < 100)) :=
  ⟨by rfl, by decide,
    C28_bid_within_buyout exampleBot (exampleEnv 12) scenarioConfig (exampleVenue 90) 20 [7] []
      scenarioEnd (by rfl)
      { houseId := 2, item_template := 302, itemCount := 1, startbid := 840, buyout := 1200,
        bid := 0, deposit := 0, expire_time := 1000 } (by decide)⟩

/-! ## The claims on the decisions of the buyer -/

theorem bidMax_eq_zero (config : Profile) (prototype : ItemTemplate)
    (base count currentprice : Nat) :
    bidMax config prototype base count currentprice = 0 ↔
      ¬ (prototype.Class ≠ ITEM_CLASS_PROJECTILE ∧
          currentprice < acceptablePrice config prototype base count) := by
  unfold bidMax
  by_cases hc : prototype.Class = ITEM_CLASS_PROJECTILE
  · simp [hc]
  · by_cases hlt : currentprice < acceptablePrice config prototype base count
    · simp only [hc, hlt, if_true, if_false, ne_eq, not_false_eq_true, and_self, not_true_eq_false,
        iff_false]
      omega
    · simp [hc, hlt]

theorem bidOn_resolved (bot : AuctionHouseBot) (host : Host) (config : Profile)
    (st : BuyerState) (randomID : Nat) (auction : HouseAuction) (pItem : Item)
    (prototype : ItemTemplate) (hfault : st.fault = false)
    (ha : st.house.GetAuction randomID = some auction)
    (hi : st.house.items auction.item_guid = some pItem)
    (hp : host.GetItemTemplate auction.item_template = some prototype) :
    bidOn bot host config st randomID
      = bidOnListing bot host config st auction pItem prototype := by
  unfold bidOn
  simp only [hfault, ha, hi, hp]
  rfl

/-- C25 (as stated) fails: the item has quality 1, is no ammunition, and the current
price 50000000 is below referencePrice * stackQuantity * buyerPriceMultiplier
= 42949671 * 1 * 101 = 4337916771; the product is taken in `uint32`, where it is
42949475, so the listing is not acted on. -/
theorem C25_counterexample :
    dearHost.GetItemTemplate 301
      = some { ItemId := 301, Class := ITEM_CLASS_TRADE_GOODS, Quality := 1, MaxStackSize := 1,
               BuyPrice := 42949671, SellPrice := 42949671 } ∧
    currentPrice (playerAuction 11 50000000 0 0 0) = 50000000 ∧
    50000000 < 42949671 * 1 * (exampleProfile 101 2).buyerPrice 1 ∧
    (AddNewAuctionBuyerBotBidCallback exampleAuctionHouseBot dearHost (exampleProfile 101 2)
      (some [11]) (buyerStart [playerAuction 11 50000000 0 0 0] [60000000])).acted = [] ∧
    (AddNewAuctionBuyerBotBidCallback exampleAuctionHouseBot dearHost (exampleProfile 101 2)
      (some [11]) (buyerStart [playerAuction 11 50000000 0 0 0] [60000000])).house.auctions
      = [playerAuction 11 50000000 0 0 0] := by
  refine ⟨rfl, by decide, by decide, by rfl, by rfl⟩

/-- C25 (amended): a sampled listing that resolves to a live listing, its backing item
and the definition of the item is acted on (a bid or a buyout) if and only if the
quality of the item is at most `AHB_MAX_DEFAULT_QUALITY`, the item is no ammunition, and
currentPrice is below referencePrice * stackQuantity * buyerPriceMultiplier[quality]
taken modulo 2^32 (the product itself when it fits in 32 bits); in every other case the
venue, the listings acted on, the listings bought out and the statements are as before. -/
theorem C25_acted_on_iff (bot : AuctionHouseBot) (host : Host) (config : Profile)
    (st : BuyerState) (randomID : Nat) (auction : HouseAuction) (pItem : Item)
    (prototype : ItemTemplate) (hfault : st.fault = false)
    (ha : st.house.GetAuction randomID = some auction)
    (hi : st.house.items auction.item_guid = some pItem)
    (hp : host.GetItemTemplate auction.item_template = some prototype) :
    ((bidOn bot host config st randomID).acted = st.acted ++ [randomID] ↔
      (prototype.Quality ≤ host.AHB_MAX_DEFAULT_QUALITY ∧
        prototype.Class ≠ ITEM_CLASS_PROJECTILE ∧
        currentPrice auction
          < (basePrice bot host prototype st.rng * pItem.Count
              * config.buyerPrice prototype.Quality) % 2 ^ 32)) ∧
    (¬ (prototype.Quality ≤ host.AHB_MAX_DEFAULT_QUALITY ∧
        prototype.Class ≠ ITEM_CLASS_PROJECTILE ∧
        currentPrice auction
          < (basePrice bot host prototype st.rng * pItem.Count
              * config.buyerPrice prototype.Quality) % 2 ^ 32) →
      (bidOn bot host config st randomID).house = st.house ∧
      (bidOn bot host config st randomID).acted = st.acted ∧
      (bidOn bot host config st randomID).won = st.won ∧
      (bidOn bot host config st randomID).statements = st.statements) ∧
    (basePrice bot host prototype st.rng * pItem.Count * config.buyerPrice prototype.Quality
        < 2 ^ 32 →
      (basePrice bot host prototype st.rng * pItem.Count
          * config.buyerPrice prototype.Quality) % 2 ^ 32
        = basePrice bot host prototype st.rng * pItem.Count
          * config.buyerPrice prototype.Quality) := by
  rw [bidOn_resolved bot host config st randomID auction pItem prototype hfault ha hi hp]
  have hid := GetAuction_Id st.house randomID auction ha
  have hz := bidMax_eq_zero config prototype (basePrice bot host prototype st.rng) pItem.Count
    (currentPrice auction)
  unfold acceptablePrice at hz
  have hne : ∀ l : List Nat, l ≠ l ++ [randomID] := by
    intro l h
    have := congrArg List.length h
    simp at this
  refine ⟨?_, ?_, fun h => Nat.mod_eq_of_lt h⟩
  · by_cases hq : prototype.Quality ≤ host.AHB_MAX_DEFAULT_QUALITY
    · by_cases hb : bidMax config prototype (basePrice bot host prototype st.rng) pItem.Count
          (currentPrice auction) = 0
      · have hno := hz.mp hb
        have hval : (bidOnListing bot host config st auction pItem prototype).acted = st.acted := by
          unfold bidOnListing
          unfold basePrice at hb
          simp only [hq, if_true, hb]
        rw [hval]
        constructor
        · intro h; exact absurd h (hne _)
        · intro h; exact absurd ⟨h.2.1, h.2.2⟩ hno
      · have hyes : prototype.Class ≠ ITEM_CLASS_PROJECTILE ∧ _ := not_not.mp (fun h => hb (hz.mpr h))
        have hval : (bidOnListing bot host config st auction pItem prototype).acted
            = st.acted ++ [randomID] := by
          unfold bidOnListing
          unfold basePrice at hb
          simp only [hq, if_true, hb, if_false]
          rw [(settle_acted bot _ auction _).1, hid]
        rw [hval]
        exact ⟨fun _ => ⟨hq, hyes.1, hyes.2⟩, fun _ => rfl⟩
    · have hval : (bidOnListing bot host config st auction pItem prototype).acted = st.acted := by
        unfold bidOnListing
        simp only [hq, if_false]
      rw [hval]
      constructor
      · intro h; exact absurd h (hne _)
      · intro h; exact absurd h.1 hq
  · intro hno
    by_cases hq : prototype.Quality ≤ host.AHB_MAX_DEFAULT_QUALITY
    · have hb : bidMax config prototype (basePrice bot host prototype st.rng) pItem.Count
          (currentPrice auction) = 0 := hz.mpr (fun h => hno ⟨hq, h.1, h.2⟩)
      unfold bidOnListing
      unfold basePrice at hb
      simp only [hq, if_true, hb]
      refine ⟨?_, ?_, ?_, ?_⟩ <;> first | rfl | trivial
    · unfold bidOnListing
      simp only [hq, if_false]
      refine ⟨?_, ?_, ?_, ?_⟩ <;> first | rfl | trivial

theorem C25_acted_on_iff_witness :
    (buyerStart [playerAuction 11 100 0 0 0] [103]).fault = false ∧
    (buyerStart [playerAuction 11 100 0 0 0] [103]).house.GetAuction 11
      = some (playerAuction 11 100 0 0 0) ∧
    (exampleHost (fun _ => 5)).GetItemTemplate 301 = some (exampleTemplate 301) ∧
    ((bidOn exampleAuctionHouseBot (exampleHost (fun _ => 5)) (exampleProfile 2 2)
        (buyerStart [playerAuction 11 100 0 0 0] [103]) 11).acted = [] ++ [11] ↔
      ((exampleTemplate 301).Quality ≤ (exampleHost (fun _ => 5)).AHB_MAX_DEFAULT_QUALITY ∧
        (exampleTemplate 301).Class ≠ ITEM_CLASS_PROJECTILE ∧
        currentPrice (playerAuction 11 100 0 0 0)
          < (basePrice exampleAuctionHouseBot (exampleHost (fun _ => 5)) (exampleTemplate 301) []
              * 1 * (exampleProfile 2 2).buyerPrice (exampleTemplate 301).Quality) % 2 ^ 32)) ∧
    (bidOn exampleAuctionHouseBot (exampleHost (fun _ => 5)) (exampleProfile 2 2)
      (buyerStart [playerAuction 11 100 0 0 0] [103]) 11).acted = [11] ∧
    basePrice exampleAuctionHouseBot (exampleHost (fun _ => 5)) (exampleTemplate 301) [] = 250 :=
  ⟨rfl, by rfl, rfl,
    (C25_acted_on_iff exampleAuctionHouseBot (exampleHost (fun _ => 5)) (exampleProfile 2 2)
      (buyerStart [playerAuction 11 100 0 0 0] [103]) 11 (playerAuction 11 100 0 0 0)
      { Count := 1, Template := some (exampleTemplate 301) } (exampleTemplate 301)
      rfl (by rfl) (by rfl) rfl).1,
    by rfl, by decide⟩

theorem find?_Id_map (f : HouseAuction → HouseAuction) (hf : ∀ a, (f a).Id = a.Id) (id : Nat) :
    ∀ l : List HouseAuction,
      (l.map f).find? (fun a => decide (a.Id = id))
        = (l.find? (fun a => decide (a.Id = id))).map f := by
  intro l
  induction l with
  | nil => rfl
  | cons x xs ih =>
    by_cases hx : x.Id = id
    · simp [List.find?_cons, hf, hx]
    · simp only [List.map_cons, List.find?_cons, hf, hx, decide_False]
      exact ih

/-- C26: for a listing of the venue acted on with the final bid b: if b is below the
buyout, or there is no buyout, the listing stays in the venue with the synthetic
participant as highest bidder and b as highest bid, and the items of the venue are as
before; otherwise the highest bid is set to the buyout and the highest bidder to the
synthetic participant, and the listing and its backing item are removed from the venue.
The amount recorded is at most a nonzero buyout. -/
theorem C26_bid_or_buyout (bot : AuctionHouseBot) (st : BuyerState) (auction : HouseAuction)
    (b : Nat) (hfound : st.house.GetAuction auction.Id = some auction) :
    ((b < auction.buyout ∨ auction.buyout = 0) →
      (settle bot st auction b).house.GetAuction auction.Id
        = some { auction with bidder := bot.AHBplayerGUID, bid := b } ∧
      (settle bot st auction b).house.auctions.map HouseAuction.Id
        = st.house.auctions.map HouseAuction.Id ∧
      (settle bot st auction b).house.items = st.house.items ∧
      (settle bot st auction b).won = st.won ∧
      (settle bot st auction b).statements
        = st.statements ++ [Statement.updateBid auction.Id bot.AHBplayerGUID b] ∧
      (auction.buyout ≠ 0 → b ≤ auction.buyout)) ∧
    (¬ (b < auction.buyout ∨ auction.buyout = 0) →
      (settle bot st auction b).won
        = st.won ++ [{ auction with bidder := bot.AHBplayerGUID, bid := auction.buyout }] ∧
      (settle bot st auction b).house.GetAuction auction.Id = none ∧
      (∀ a ∈ (settle bot st auction b).house.auctions, a.Id ≠ auction.Id) ∧
      (settle bot st auction b).house.items auction.item_guid = none ∧
      (settle bot st auction b).statements
        = st.statements ++ [Statement.deleteAuction auction.Id] ∧
      auction.buyout ≤ b) := by
  constructor
  · intro hbid
    unfold settle
    simp only [hbid, if_true]
    refine ⟨?_, ?_, trivial, trivial, trivial, ?_⟩
    · unfold AuctionHouse.GetAuction at hfound ⊢
      simp only
      rw [find?_Id_map _ (fun a => by split_ifs <;> rfl) auction.Id, hfound]
      simp
    · simp only [List.map_map]
      apply List.map_congr_left
      intro a _
      simp only [Function.comp]
      split_ifs <;> rfl
    · intro hne
      rcases hbid with h | h
      · omega
      · exact absurd h hne
  · intro hbuy
    unfold settle
    simp only [hbuy, if_false]
    refine ⟨trivial, ?_, ?_, ?_, trivial, ?_⟩
    · unfold AuctionHouse.GetAuction
      rw [List.find?_eq_none]
      intro a ha
      simp only [List.mem_filter] at ha
      simpa using ha.2
    · intro a ha
      simp only [List.mem_filter] at ha
      simpa using ha.2
    · simp
    · push_neg at hbuy
      omega

theorem C26_bid_or_buyout_witness :
    (buyerStart [playerAuction 11 100 0 0 0, playerAuction 13 100 104 0 0] [103, 200]
      ).house.GetAuction (playerAuction 13 100 104 0 0).Id = some (playerAuction 13 100 104 0 0) ∧
    ¬ (105 < (playerAuction 13 100 104 0 0).buyout ∨ (playerAuction 13 100 104 0 0).buyout = 0) ∧
    (settle exampleAuctionHouseBot
      (buyerStart [playerAuction 11 100 0 0 0, playerAuction 13 100 104 0 0] [103, 200])
      (playerAuction 13 100 104 0 0) 105).won
      = [] ++ [{ playerAuction 13 100 104 0 0 with
                 bidder := exampleAuctionHouseBot.AHBplayerGUID
                 bid := (playerAuction 13 100 104 0 0).buyout }] ∧
    (AddNewAuctionBuyerBotBidCallback exampleAuctionHouseBot (exampleHost (fun _ => 5))
      (exampleProfile 2 2) (some [11, 13])
      (buyerStart [playerAuction 11 100 0 0 0, playerAuction 13 100 104 0 0] [103, 200])).won
      = [playerAuction 13 100 104 104 1] ∧
    (AddNewAuctionBuyerBotBidCallback exampleAuctionHouseBot (exampleHost (fun _ => 5))
      (exampleProfile 2 2) (some [11, 13])
      (buyerStart [playerAuction 11 100 0 0 0, playerAuction 13 100 104 0 0] [103, 200])
      ).house.auctions = [playerAuction 11 100 0 105 1] :=
  ⟨by rfl, by decide,
    ((C26_bid_or_buyout exampleAuctionHouseBot
      (buyerStart [playerAuction 11 100 0 0 0, playerAuction 13 100 104 0 0] [103, 200])
      (playerAuction 13 100 104 0 0) 105 (by rfl)).2 (by decide)).1,
    by rfl, by rfl⟩

/-! ## The claim on the tick -/

theorem biddingDue_iff (config : Profile) (newUpdate last : Int) :
    biddingDue config newUpdate last = true ↔
      (newUpdate - last ≥ (config.biddingInterval : Int) ∧ config.bidsPerInterval > 0) := by
  unfold biddingDue
  simp

/-- C27: in one `Update` at the game time t that gets past its two guards and in which
every seller pass returns, `Update` returns, and for each venue it processes, in order,
it calls the seller pass and then, if and only if t - lastBidTime >= biddingInterval and
bidsPerInterval > 0, dispatches bidding; the time of the last dispatch of the venue
becomes t when bidding is dispatched and is unchanged otherwise, as it is for a venue
that is not processed. -/
theorem C27_seller_then_bidding (bot : AuctionHouseBot) (AHBplayerAccount : Nat)
    (twoSide : Bool) (sellerReturns : VenueKey → Bool) (t : Int) (st : UpdateState)
    (hon : bot.AHBSeller = true ∨ bot.AHBBuyer = true)
    (hplayer : AHBplayerAccount ≠ 0 ∧ bot.AHBplayerGUID ≠ 0)
    (hret : ∀ key, key ∈ processedVenues twoSide → sellerReturns key = true) :
    ∃ st', Update bot AHBplayerAccount twoSide sellerReturns t st = some st' ∧
      st'.calls = st.calls ++
        (processedVenues twoSide).flatMap (fun key =>
          if biddingDue (getConfig bot key) t (lastUpdate st key) = true
          then [Call.seller key, Call.buyer key] else [Call.seller key])
        ++ [Call.callbacks] ∧
      (∀ key, key ∈ processedVenues twoSide →
        (biddingDue (getConfig bot key) t (lastUpdate st key) = true ↔
          (t - lastUpdate st key ≥ ((getConfig bot key).biddingInterval : Int) ∧
            (getConfig bot key).bidsPerInterval > 0)) ∧
        lastUpdate st' key
          = if biddingDue (getConfig bot key) t (lastUpdate st key) = true then t
            else lastUpdate st key) ∧
      (∀ key, key ∉ processedVenues twoSide → lastUpdate st' key = lastUpdate st key) := by
  have h1 : ¬ (bot.AHBSeller = false ∧ bot.AHBBuyer = false) := by
    rintro ⟨ha, hb⟩
    rcases hon with h | h
    · rw [ha] at h; cases h
    · rw [hb] at h; cases h
  have h2 : ¬ (AHBplayerAccount = 0 ∨ bot.AHBplayerGUID = 0) := by
    rintro (h | h)
    · exact hplayer.1 h
    · exact hplayer.2 h
  unfold Update
  rw [if_neg h1, if_neg h2]
  cases twoSide with
  | true =>
    have hrN : sellerReturns VenueKey.neutral = true := hret _ (by simp [processedVenues])
    by_cases hN : biddingDue (getConfig bot VenueKey.neutral) t st.lastUpdateNeutral = true
    · refine ⟨_, by simp [updateVenue, hrN, hN]; rfl, ?_, ?_, ?_⟩
      · simp [processedVenues, lastUpdate, hN]
      · intro key hkey
        simp only [processedVenues, Bool.true_eq_false, if_false, List.mem_singleton] at hkey
        subst hkey
        exact ⟨biddingDue_iff _ _ _, by simp [lastUpdate, hN]⟩
      · intro key hkey
        cases key <;> simp [processedVenues, lastUpdate] at hkey ⊢
    · refine ⟨_, by simp [updateVenue, hrN, hN]; rfl, ?_, ?_, ?_⟩
      · simp [processedVenues, lastUpdate, hN]
      · intro key hkey
        simp only [processedVenues, Bool.true_eq_false, if_false, List.mem_singleton] at hkey
        subst hkey
        exact ⟨biddingDue_iff _ _ _, by simp [lastUpdate, hN]⟩
      · intro key hkey
        cases key <;> simp [processedVenues, lastUpdate] at hkey ⊢
  | false =>
    have hrA : sellerReturns VenueKey.alliance = true := hret _ (by simp [processedVenues])
    have hrH : sellerReturns VenueKey.horde = true := hret _ (by simp [processedVenues])
    have hrN : sellerReturns VenueKey.neutral = true := hret _ (by simp [processedVenues])
    by_cases hA : biddingDue (getConfig bot VenueKey.alliance) t st.lastUpdateAlliance = true <;>
    by_cases hH : biddingDue (getConfig bot VenueKey.horde) t st.lastUpdateHorde = true <;>
    by_cases hN : biddingDue (getConfig bot VenueKey.neutral) t st.lastUpdateNeutral = true <;>
    · refine ⟨_, by simp [updateVenue, hrA, hrH, hrN, hA, hH, hN]; rfl, ?_, ?_, ?_⟩
      · simp [processedVenues, lastUpdate, hA, hH, hN]
      · intro key hkey
        refine ⟨biddingDue_iff _ _ _, ?_⟩
        cases key <;> simp [lastUpdate, hA, hH, hN]
      · intro key hkey
        cases key <;> simp [processedVenues] at hkey

theorem C27_seller_then_bidding_witness :
    (exampleAuctionHouseBot.AHBSeller = true ∨ exampleAuctionHouseBot.AHBBuyer = true) ∧
    ((7 : Nat) ≠ 0 ∧ exampleAuctionHouseBot.AHBplayerGUID ≠ 0) ∧
    (Update exampleAuctionHouseBot 7 false (fun _ => true) 1000 tickStart).map
        (fun s => (s.lastUpdateAlliance, s.lastUpdateHorde, s.lastUpdateNeutral, s.calls))
      = some (1000, 1000, 1000,
          [Call.seller VenueKey.alliance, Call.buyer VenueKey.alliance,
           Call.seller VenueKey.horde, Call.buyer VenueKey.horde,
           Call.seller VenueKey.neutral, Call.callbacks]) ∧
    ∃ st', Update exampleAuctionHouseBot 7 false (fun _ => true) 1000 tickStart = some st' ∧
      st'.calls = tickStart.calls ++
        (processedVenues false).flatMap (fun key =>
          if biddingDue (getConfig exampleAuctionHouseBot key) 1000 (lastUpdate tickStart key)
            = true
          then [Call.seller key, Call.buyer key] else [Call.seller key])
        ++ [Call.callbacks] :=
  ⟨Or.inl rfl, ⟨by decide, by decide⟩, by rfl,
    (C27_seller_then_bidding exampleAuctionHouseBot 7 false (fun _ => true) 1000 tickStart
      (Or.inl rfl) ⟨by decide, by decide⟩ (fun _ _ => rfl)).imp (fun _ h => ⟨h.1, h.2.1⟩)⟩

end AHBot
